import Mathlib

/-!
# Oura command-line client: argument parsing and the authenticated request layer

A shallow embedding of the Go sources (`main.go`, `webhook.go`) together with
the properties of the argument parser, the token acquisition routine and the
two request dispatchers.

Conventions of the embedding:

* Go slices of strings are `List String`; a `(value, ok)` result is an `Option`,
  a `(value, error)` result is an `Except String`.
* Instants (`time.Time`) are integers counting nanoseconds; `time.Duration` is a
  signed 64-bit count of nanoseconds, so arithmetic on it wraps modulo `2^64`.
* Code with effects (clock, token file, HTTP) is a function from a `World` to a
  result and a new `World`; everything outside the program (the remote service,
  the JSON decoder, the file system) is an explicit field of `Env`.
-/

namespace Oura

/-! ## Argument parser (`main.go`) -/

/-- Global options, the `Options` struct of `main.go`. -/
structure Options where
  JSON : Bool := false
  Help : Bool := false
  deriving DecidableEq, Repr

/-- Result of `parseArgs`, the `ParsedArgs` struct of `main.go`. -/
structure ParsedArgs where
  Command : String := ""
  Args : List String := []
  Opts : Options := {}
  deriving DecidableEq, Repr

/-- The `for _, a := range args` loop of `parseArgs`: the accumulated options
and positionals are threaded through the remaining tokens. -/
def parseArgsLoop (opts : Options) (pos : List String) : List String → Options × List String
  | [] => (opts, pos)
  | a :: rest =>
    if a = "--help" ∨ a = "-h" ∨ a = "help" then
      parseArgsLoop { opts with Help := true } pos rest
    else if a = "--json" ∨ a = "-j" then
      parseArgsLoop { opts with JSON := true } pos rest
    else
      parseArgsLoop opts (pos ++ [a]) rest

/-- Embedding of `parseArgs(argv)`; `none` stands for `ok = false`. -/
def parseArgs (argv : List String) : Option ParsedArgs :=
  match argv with
  | [] => none
  | [_] => none
  | _ :: cmd :: args =>
    if cmd = "--help" ∨ cmd = "-h" then
      some { Command := "help", Opts := { Help := true } }
    else
      let start : Options × String :=
        if cmd = "json" then ({ JSON := true }, "all") else ({}, cmd)
      let r := parseArgsLoop start.1 [] args
      some { Command := start.2, Args := r.2, Opts := r.1 }

/-- Tokens that set `Opts.Help`. -/
def isHelpToken (a : String) : Bool :=
  a = "--help" || a = "-h" || a = "help"

/-- Tokens that set `Opts.JSON`. -/
def isJSONToken (a : String) : Bool :=
  a = "--json" || a = "-j"

/-- The five recognised global tokens. -/
def isGlobalToken (a : String) : Bool :=
  isHelpToken a || isJSONToken a

/-- Positionals of an argument list: the tokens that are not global tokens,
in their original order and multiplicity. -/
def stripGlobal (args : List String) : List String :=
  args.filter (fun a => !isGlobalToken a)

/-! ## Time (`time.Time`, `time.Duration`) -/

/-- Reduction of an integer to the signed 64-bit range, the arithmetic of
Go's `int64` and therefore of `time.Duration`. -/
def wrapInt64 (x : Int) : Int :=
  (x + 2 ^ 63) % 2 ^ 64 - 2 ^ 63

/-- The constant `time.Second`, in nanoseconds. -/
def Second : Int := 1000000000

/-- The constant `time.Minute`, in nanoseconds. -/
def Minute : Int := 60 * Second

/-! ## Data model (`main.go`, `webhook.go`) -/

/-- App credentials, the `Config` struct; the global `config` is `Env.config`. -/
structure Config where
  ClientID : String
  ClientSecret : String
  deriving DecidableEq, Repr

/-- Decoded body of the token endpoint, the `TokenResponse` struct. A missing
`expires_in` field decodes to `0`. -/
structure TokenResponse where
  AccessToken : String
  RefreshToken : String
  ExpiresIn : Int
  TokenType : String
  deriving DecidableEq, Repr

/-- The `StoredToken` struct; `ExpiresAt` is an instant in nanoseconds. -/
structure StoredToken where
  AccessToken : String
  RefreshToken : String
  ExpiresAt : Int
  deriving DecidableEq, Repr

/-- What `loadToken` can find at the token path: no readable file, a file that
is not a JSON token, or a stored token. -/
inductive TokenFile where
  | missing
  | malformed
  | stored (t : StoredToken)
  deriving DecidableEq, Repr

/-- The `CreateWebhookSubscriptionRequest` struct of `webhook.go`. -/
structure CreateWebhookSubscriptionRequest where
  CallbackURL : String
  VerificationToken : String
  EventType : String
  DataType : String
  deriving DecidableEq, Repr

/-- The `UpdateWebhookSubscriptionRequest` struct; a nil pointer is `none`. -/
structure UpdateWebhookSubscriptionRequest where
  VerificationToken : String
  CallbackURL : Option String
  EventType : Option String
  DataType : Option String
  deriving DecidableEq, Repr

/-- The non-nil values passed as `payload any` to `webhookDo`. -/
inductive Payload where
  | create (r : CreateWebhookSubscriptionRequest)
  | update (r : UpdateWebhookSubscriptionRequest)
  deriving DecidableEq, Repr

/-! ## HTTP requests -/

/-- Bytes allowed in a header field name (`validHeaderFieldByte` of
`net/textproto`): letters, digits and the token punctuation
``!#$%&'*+-.^_`|~``. -/
def validHeaderFieldChar (c : Char) : Bool :=
  c.isAlphanum ||
    decide (c.toNat ∈ [33, 35, 36, 37, 38, 39, 42, 43, 45, 46, 94, 95, 96, 124, 126])

/-- Capitalisation loop of `canonicalMIMEHeaderKey`: upper case at the start
and after each `-`, lower case elsewhere. -/
def canonicalLoop (upper : Bool) : List Char → List Char
  | [] => []
  | c :: cs => (if upper then c.toUpper else c.toLower) :: canonicalLoop (c = '-') cs

/-- The key under which `http.Header` stores a field
(`textproto.CanonicalMIMEHeaderKey`): a name with a byte outside the token
alphabet is kept as it is. -/
def canonicalMIMEHeaderKey (s : String) : String :=
  if s.data.all validHeaderFieldChar then String.mk (canonicalLoop true s.data) else s

/-- Header fields of a request, one value per canonical key (`http.Header`
as used through `Set`). -/
structure Header where
  entries : List (String × String) := []
  deriving DecidableEq, Repr

/-- Embedding of `Header.Set(key, value)`: replaces the entry of the canonical key. -/
def Header.set (h : Header) (key value : String) : Header :=
  let k := canonicalMIMEHeaderKey key
  { entries := (h.entries.filter (fun e => e.1 ≠ k)) ++ [(k, value)] }

/-- Value stored for a field name, `none` when the request does not carry it. -/
def Header.get (h : Header) (key : String) : Option String :=
  (h.entries.find? (fun e => e.1 = canonicalMIMEHeaderKey key)).map (fun e => e.2)

/-- Query or form parameters (`url.Values` as used through `Set`): one value per key. -/
structure Values where
  entries : List (String × String) := []
  deriving DecidableEq, Repr

/-- Embedding of `Values.Set(key, value)`. -/
def Values.set (v : Values) (key value : String) : Values :=
  { entries := (v.entries.filter (fun e => e.1 ≠ key)) ++ [(key, value)] }

/-- Number of keys, `len(params)`. -/
def Values.len (v : Values) : Nat :=
  v.entries.length

/-- An outgoing request (`http.Request`): method, URL, header and body bytes. -/
structure Request where
  method : String
  url : String
  header : Header := {}
  body : Option String := none
  deriving DecidableEq, Repr

/-- A response as the program sees it: the status code, the bytes that
`io.ReadAll` obtained from the body, and the error of that read, if any.
Bodies are taken to be valid UTF-8 text. -/
structure Response where
  status : Int
  body : String
  readErr : Option String := none
  deriving DecidableEq, Repr

/-- Observable effects, in program order. -/
inductive Event where
  | send (req : Request)
  | writeToken (t : StoredToken)
  | print (s : String)
  deriving DecidableEq, Repr

/-- The `WebhookSubscription` struct of `webhook.go`. -/
structure WebhookSubscription where
  ID : String
  CallbackURL : String
  EventType : String
  DataType : String
  ExpirationTime : String
  deriving DecidableEq, Repr

/-- Everything outside the program that its behaviour depends on. -/
structure Env where
  /-- The global `config` filled by `loadConfig`. -/
  config : Config
  /-- The encoding `url.Values.Encode`. -/
  encode : Values → String
  /-- The escaping `url.PathEscape`. -/
  pathEscape : String → String
  /-- The serialisation `json.Marshal` of a payload. -/
  marshal : Payload → Except String String
  /-- The error, if any, with which `http.NewRequest(method, url, _)` rejects
  its method or URL. -/
  newRequestErr : String → String → Option String
  /-- The remote side of `http.DefaultClient.Do` and `http.PostForm`. -/
  roundTrip : Request → Except String Response
  /-- The decoding `json.NewDecoder(resp.Body).Decode(&tokenResp)`. -/
  decodeTokenResponse : Response → Except String TokenResponse
  /-- The error, if any, of `json.MarshalIndent` and `os.WriteFile` in `saveToken`. -/
  writeTokenErr : StoredToken → Option String
  /-- The rendering of a string by the verb `%q` (`strconv.Quote`); for text
  without quotes, backslashes and unprintable runes it adds the double quotes. -/
  quote : String → String := fun s => "\"" ++ s ++ "\""
  /-- The decoding `json.Unmarshal(body, &s)` of a webhook subscription. -/
  decodeSubscription : String → Except String WebhookSubscription :=
    fun _ => .error "unexpected end of JSON input"
  /-- Decoding and table printing of a list response for a subject (the
  printers `printTagList`, `printEnhancedTagList`, `printSessionList`): the
  printed text, or the decoding error. -/
  renderList : String → String → Except String String := fun _ _ => .ok ""
  /-- Decoding and printing of a single document for a subject (the printers
  `printTag`, `printEnhancedTag`, `printSession`). -/
  renderDoc : String → String → Except String String := fun _ _ => .ok ""
  /-- The text of the syntax error that `encoding/json` reports for a text that
  is not one JSON value. -/
  jsonSyntaxError : String → String := fun _ => "invalid character"
  /-- The result of `os.UserHomeDir()`, the empty text when it fails. -/
  homeDir : String := "/home/user"
  /-- The function `filepath.Join`. -/
  joinPath : List String → String := fun parts => String.intercalate "/" parts
  /-- The result of `os.ReadFile` on the config path: the content, or the error. -/
  configFile : Except String String := .error "no such file or directory"
  /-- The decoding `json.Unmarshal(data, &config)`: the config, or the error of
  the decoder, which sees the content only. -/
  unmarshalConfig : String → Except String Config :=
    fun _ => .error "unexpected end of JSON input"
  /-- The BPM values of the records that `json.Unmarshal(body, &data)` leaves in
  `data.Data`, in order; the error of the decoder is not looked at. -/
  decodeHeartRate : String → List Int := fun _ => []

/-- Mutable state: the wall clock, the advances it makes between successive
readings, the token file and the effects so far. -/
structure World where
  clock : Int
  ticks : List Nat := []
  tokenFile : TokenFile
  log : List Event := []
  deriving DecidableEq, Repr

/-- The effects that happened between an earlier world and a later one. -/
def eventsSince (w w2 : World) : List Event :=
  w2.log.drop w.log.length

/-- Reading of the clock `time.Now()`; the clock then advances by the next tick. -/
def timeNow (w : World) : Int × World :=
  (w.clock, { w with clock := w.clock + (w.ticks.headD 0 : Nat), ticks := w.ticks.tail })

/-- The constant `tokenURL`. -/
def tokenURL : String := "https://api.ouraring.com/oauth/token"

/-- The constant `apiBase`. -/
def apiBase : String := "https://api.ouraring.com/v2/usercollection"

/-- The constant `webhookBase`. -/
def webhookBase : String := "https://api.ouraring.com/v2/webhook"

/-- Embedding of `http.NewRequest(method, url, body)`: an empty method means
`GET`, the header starts empty. -/
def newRequest (env : Env) (method url : String) (body : Option String) :
    Except String Request :=
  match env.newRequestErr method url with
  | some err => .error err
  | none => .ok { method := if method = "" then "GET" else method, url := url, body := body }

/-- Embedding of `http.DefaultClient.Do(req)` followed by reading the body:
the request goes out and the remote answers. -/
def clientDo (env : Env) (w : World) (req : Request) : Except String Response × World :=
  (env.roundTrip req, { w with log := w.log ++ [Event.send req] })

/-- The request that `http.PostForm(url, data)` sends. -/
def postFormRequest (env : Env) (url : String) (data : Values) : Request :=
  { method := "POST", url := url,
    header := Header.set {} "Content-Type" "application/x-www-form-urlencoded",
    body := some (env.encode data) }

/-! ## Token store and token acquisition (`main.go`) -/

/-- Embedding of `saveToken`: the write is attempted, and replaces the file
content when it succeeds. -/
def saveToken (env : Env) (w : World) (token : StoredToken) : Option String × World :=
  let w1 := { w with log := w.log ++ [Event.writeToken token] }
  match env.writeTokenErr token with
  | some err => (some err, w1)
  | none => (none, { w1 with tokenFile := TokenFile.stored token })

/-- Embedding of `loadToken`: reading or parsing the file may fail. The text of
the error is not used by the caller, which replaces it. -/
def loadToken (w : World) : Except String StoredToken :=
  match w.tokenFile with
  | .missing => .error "open token.json: no such file or directory"
  | .malformed => .error "invalid character in token.json"
  | .stored t => .ok t

/-- The form that `refreshToken` posts. -/
def refreshForm (env : Env) (refresh : String) : Values :=
  ((((({} : Values).set "grant_type" "refresh_token").set "refresh_token" refresh).set
    "client_id" env.config.ClientID).set "client_secret" env.config.ClientSecret)

/-- Embedding of `refreshToken(refresh)`. -/
def refreshToken (env : Env) (w : World) (refresh : String) :
    Except String StoredToken × World :=
  let data := refreshForm env refresh
  match clientDo env w (postFormRequest env tokenURL data) with
  | (.error err, w1) => (.error err, w1)
  | (.ok resp, w1) =>
    if resp.status ≠ 200 then
      (.error ("token refresh failed: " ++ resp.body), w1)
    else
      match env.decodeTokenResponse resp with
      | .error err => (.error err, w1)
      | .ok tokenResp =>
        let (now, w2) := timeNow w1
        let stored : StoredToken :=
          { AccessToken := tokenResp.AccessToken,
            RefreshToken := tokenResp.RefreshToken,
            ExpiresAt := now + wrapInt64 (tokenResp.ExpiresIn * Second) }
        match saveToken env w2 stored with
        | (some err, w3) => (.error err, w3)
        | (none, w3) => (.ok stored, w3)

/-- Embedding of `getValidToken()`. -/
def getValidToken (env : Env) (w : World) : Except String String × World :=
  match loadToken w with
  | .error _ => (.error "not authenticated - run 'oura auth' first", w)
  | .ok token =>
    let (now, w1) := timeNow w
    if now + 5 * Minute > token.ExpiresAt then
      match refreshToken env w1 token.RefreshToken with
      | (.error err, w2) =>
        (.error ("token refresh failed - run 'oura auth' again: " ++ err), w2)
      | (.ok newToken, w2) => (.ok newToken.AccessToken, w2)
    else
      (.ok token.AccessToken, w1)

/-! ## Request dispatchers (`main.go`, `webhook.go`) -/

/-- The request that `apiGet` builds once it holds a token: URL composition,
`http.NewRequest` and the `Authorization` header. -/
def apiGetRequest (env : Env) (token endpoint : String) (params : Values) :
    Except String Request :=
  let url := apiBase ++ endpoint
  let url := if params.len > 0 then url ++ ("?" ++ env.encode params) else url
  match newRequest env "GET" url none with
  | .error err => .error err
  | .ok req =>
    .ok { req with header := req.header.set "Authorization" ("Bearer " ++ token) }

/-- Embedding of `apiGet(endpoint, params)`. -/
def apiGet (env : Env) (w : World) (endpoint : String) (params : Values) :
    Except String String × World :=
  match getValidToken env w with
  | (.error err, w1) => (.error err, w1)
  | (.ok token, w1) =>
    match apiGetRequest env token endpoint params with
    | .error err => (.error err, w1)
    | .ok req =>
      match clientDo env w1 req with
      | (.error err, w2) => (.error err, w2)
      | (.ok resp, w2) =>
        match resp.readErr with
        | some err => (.error err, w2)
        | none =>
          if resp.status ≠ 200 then
            (.error ("API error " ++ toString resp.status ++ ": " ++ resp.body), w2)
          else
            (.ok resp.body, w2)

/-- White space in the sense of `unicode.IsSpace`. -/
def isSpace (c : Char) : Bool :=
  let n := c.toNat
  decide (n = 9 ∨ n = 10 ∨ n = 11 ∨ n = 12 ∨ n = 13 ∨ n = 32 ∨ n = 0x85 ∨ n = 0xA0 ∨
    n = 0x1680 ∨ (0x2000 ≤ n ∧ n ≤ 0x200A) ∨ n = 0x2028 ∨ n = 0x2029 ∨ n = 0x202F ∨
    n = 0x205F ∨ n = 0x3000)

/-- Embedding of `strings.TrimSpace`: leading and trailing white space removed. -/
def trimSpace (s : String) : String :=
  String.mk ((s.data.dropWhile isSpace).reverse.dropWhile isSpace).reverse

/-- The three results of `webhookDo`: body (`none` is a nil slice), status, error. -/
structure WebhookResult where
  respBody : Option String
  status : Int
  err : Option String
  deriving DecidableEq, Repr

/-- The request that `webhookDo` builds: the payload is serialised, the request
created and the credential headers attached. -/
def webhookDoRequest (env : Env) (method endpoint : String) (payload : Option Payload) :
    Except String Request :=
  let body : Except String (Option String) :=
    match payload with
    | none => .ok none
    | some p =>
      match env.marshal p with
      | .error err => .error err
      | .ok b => .ok (some b)
  match body with
  | .error err => .error err
  | .ok body =>
    match newRequest env method (webhookBase ++ endpoint) body with
    | .error err => .error err
    | .ok req =>
      let h := req.header.set "x-client-id" env.config.ClientID
      let h := h.set "x-client-secret" env.config.ClientSecret
      let h := if payload.isSome then h.set "Content-Type" "application/json" else h
      .ok { req with header := h }

/-- Embedding of `webhookDo(method, endpoint, payload)`. -/
def webhookDo (env : Env) (w : World) (method endpoint : String) (payload : Option Payload) :
    WebhookResult × World :=
  match webhookDoRequest env method endpoint payload with
  | .error err => ({ respBody := none, status := 0, err := some err }, w)
  | .ok req =>
    match clientDo env w req with
    | (.error err, w1) => ({ respBody := none, status := 0, err := some err }, w1)
    | (.ok resp, w1) =>
      match resp.readErr with
      | some err => ({ respBody := none, status := 0, err := some err }, w1)
      | none =>
        let status := resp.status
        if status < 200 ∨ status > 299 then
          ({ respBody := none, status := status,
             err := some ("API error " ++ toString status ++ ": " ++ trimSpace resp.body) }, w1)
        else
          ({ respBody := some resp.body, status := status, err := none }, w1)

/-- Embedding of `webhookDelete(id)`. -/
def webhookDelete (env : Env) (w : World) (id : String) : Except String Unit × World :=
  match webhookDo env w "DELETE" ("/subscription/" ++ env.pathEscape id) none with
  | (r, w1) =>
    match r.err with
    | some err => (.error err, w1)
    | none =>
      if r.status ≠ 204 then
        (.error ("unexpected status: " ++ toString r.status), w1)
      else
        (.ok (), { w1 with log := w1.log ++
          [Event.print ("Deleted webhook subscription " ++ id ++ "\n")] })

/-! ## Concrete environments -/

/-- A remote whose token endpoint answers `tokenStatus` while every other
URL answers `status` with `body`; decoded token responses carry `expiresIn`. -/
def exampleEnv (tokenStatus status : Int) (body : String) (expiresIn : Int) : Env :=
  { config := { ClientID := "cid", ClientSecret := "sec" },
    encode := fun v => String.intercalate "&" (v.entries.map (fun e => e.1 ++ "=" ++ e.2)),
    pathEscape := fun s => s,
    marshal := fun _ => .ok "{}",
    newRequestErr := fun _ _ => none,
    roundTrip := fun req =>
      if req.url = tokenURL then .ok { status := tokenStatus, body := "denied" }
      else .ok { status := status, body := body },
    decodeTokenResponse := fun _ =>
      .ok { AccessToken := "a2", RefreshToken := "r2", ExpiresIn := expiresIn,
            TokenType := "bearer" },
    writeTokenErr := fun _ => none }

/-- A world at instant `1000` holding a token that expires at `expiresAt`. -/
def exampleWorld (expiresAt : Int) : World :=
  { clock := 1000, ticks := [7],
    tokenFile := .stored { AccessToken := "a1", RefreshToken := "r1", ExpiresAt := expiresAt } }

/-! ## Long flags (`webhook.go`) -/

/-- Embedding of `strings.HasPrefix(s, p)`. -/
def hasPrefixStr (s p : String) : Bool :=
  p.data.isPrefixOf s.data

/-- Embedding of `strings.TrimPrefix(s, p)`. -/
def trimPrefixStr (s p : String) : String :=
  if hasPrefixStr s p then String.mk (s.data.drop p.data.length) else s

/-- Split of a character list at the first occurrence of `sep`. -/
def cutChars (sep : Char) : List Char → Option (List Char × List Char)
  | [] => none
  | c :: cs =>
    if c = sep then some ([], cs)
    else
      match cutChars sep cs with
      | none => none
      | some (before, after) => some (c :: before, after)

/-- Embedding of `strings.Cut(s, sep)` for a one-character separator:
the text before and after the first separator, and whether it was found. -/
def cutStr (s : String) (sep : Char) : String × String × Bool :=
  match cutChars sep s.data with
  | none => (s, "", false)
  | some (before, after) => (String.mk before, String.mk after, true)

/-- The flags map `map[string]string` built by `parseLongFlags`. -/
structure Flags where
  entries : List (String × String) := []
  deriving DecidableEq, Repr

/-- Assignment `flags[name] = val`. -/
def Flags.set (f : Flags) (name val : String) : Flags :=
  { entries := (f.entries.filter (fun e => e.1 ≠ name)) ++ [(name, val)] }

/-- Lookup `v, ok := flags[k]`; `none` stands for `ok = false`. -/
def Flags.get (f : Flags) (k : String) : Option String :=
  (f.entries.find? (fun e => e.1 = k)).map (fun e => e.2)

/-- The loop of `parseLongFlags` over the remaining arguments; a flag without
`=` consumes the following argument. -/
def parseLongFlagsLoop (env : Env) (flags : Flags) (pos : List String) :
    List String → Except String (Flags × List String)
  | [] => .ok (flags, pos)
  | a :: rest =>
    if !hasPrefixStr a "--" then
      parseLongFlagsLoop env flags (pos ++ [a]) rest
    else
      let nameVal := trimPrefixStr a "--"
      if nameVal = "" then
        .error ("invalid flag: " ++ env.quote a)
      else
        let cut := cutStr nameVal '='
        if !cut.2.2 then
          match rest with
          | [] => .error ("flag " ++ env.quote a ++ " requires a value")
          | v :: rest2 => parseLongFlagsLoop env (flags.set cut.1 v) pos rest2
        else
          parseLongFlagsLoop env (flags.set cut.1 cut.2.1) pos rest

/-- Embedding of `parseLongFlags(args)`: flags and positionals, or the error. -/
def parseLongFlags (env : Env) (args : List String) : Except String (Flags × List String) :=
  parseLongFlagsLoop env {} [] args

/-- Embedding of `firstFlag(flags, keys...)`. -/
def firstFlag (flags : Flags) : List String → String
  | [] => ""
  | k :: keys =>
    match flags.get k with
    | some v => v
    | none => firstFlag flags keys

/-- Embedding of `validateEnum(name, v, allowed)`. -/
def validateEnum (env : Env) (name v : String) : List String → Except String Unit
  | [] => .error ("invalid " ++ name ++ ": " ++ env.quote v ++ " (try: oura webhook types)")
  | a :: allowed => if v = a then .ok () else validateEnum env name v allowed

/-- The variable `webhookOperations`. -/
def webhookOperations : List String := ["create", "update", "delete"]

/-- The variable `webhookDataTypes`. -/
def webhookDataTypes : List String :=
  ["tag", "enhanced_tag", "workout", "session", "sleep", "daily_sleep", "daily_readiness",
   "daily_activity", "daily_spo2", "sleep_time", "rest_mode_period", "ring_configuration",
   "daily_stress", "daily_cardiovascular_age", "daily_resilience", "vo2_max"]

/-! ## Usage texts (`main.go`, `usercollection_cmds.go`) -/

/-- What `printUsage()` writes to standard output. -/
def topUsageText : String :=
    "oura - Oura Ring CLI\n" ++
    "\n" ++
    "Usage:\n" ++
    "  oura <command> [args] [--json|-j]\n" ++
    "\t  oura help [command]\n" ++
    "\t  oura completion <bash|zsh|fish>\n" ++
    "\n" ++
    "Commands:\n" ++
    "  auth              Authenticate with Oura (first time setup)\n" ++
    "  personal-info     Fetch personal info\n" ++
    "  today             Show today's summary\n" ++
    "  all [date]        Show all metrics for date (default: today)\n" ++
    "  sleep [date]      Show sleep data\n" ++
    "  activity [date]   Show activity data  \n" ++
    "\t  readiness [date]  Show readiness data\n" ++
    "\t  heartrate [date]  Show heart rate data\n" ++
    "\t  hrv [date]        Show heart rate variability (from sleep)\n" ++
    "\t  stress [date]     Show daytime stress data\n" ++
    "\t  spo2 [date]       Show blood oxygen data\n" ++
    "\t  resilience [date] Show resilience data\n" ++
    "\t  vo2 [date]        Show VO2 max data\n" ++
    "\t  workout [date]    Show workouts\n" ++
    "  json [date]       Raw JSON dump of all data (alias for: all --json)\n" ++
    "\n" ++
    "  tag               Manage tags\n" ++
    "  enhanced-tag      Manage enhanced tags\n" ++
    "  session           Manage sessions\n" ++
    "\n" ++
    "  webhook           Manage webhook subscriptions\n" ++
    "\n" ++
    "Webhook subcommands:\n" ++
    "  webhook list\n" ++
    "  webhook get <id>\n" ++
    "  webhook create --callback-url <url> --verification-token <token> --event-type <create|update|delete> --data-type <type>\n" ++
    "  webhook update <id> --verification-token <token> [--callback-url <url>] [--event-type <create|update|delete>] [--data-type <type>]\n" ++
    "  webhook delete <id>\n" ++
    "  webhook renew <id>\n" ++
    "  webhook types\n" ++
    "\n" ++
    "Options:\n" ++
    "  --help, -h        Show help for a command\n" ++
    "  --json, -j         Output JSON to stdout (machine readable)\n" ++
    "\n" ++
    "Date format: YYYY-MM-DD (defaults to today)\n"

/-- What `printTagUsage()` writes. -/
def tagUsageText : String :=
    "Tags\n" ++
    "\n" ++
    "Usage:\n" ++
    "  oura tag [list] [--start-date <date>] [--end-date <date>] [--next-token <token>] [--json|-j]\n" ++
    "  oura tag get <document_id> [--json|-j]\n"

/-- What `printEnhancedTagUsage()` writes. -/
def enhancedTagUsageText : String :=
    "Enhanced tags\n" ++
    "\n" ++
    "Usage:\n" ++
    "  oura enhanced-tag [list] [--start-date <date>] [--end-date <date>] [--next-token <token>] [--json|-j]\n" ++
    "  oura enhanced-tag get <document_id> [--json|-j]\n"

/-- What `printSessionUsage()` writes. -/
def sessionUsageText : String :=
    "Sessions\n" ++
    "\n" ++
    "Usage:\n" ++
    "  oura session [list] [--start-date <date>] [--end-date <date>] [--next-token <token>] [--json|-j]\n" ++
    "  oura session get <document_id> [--json|-j]\n"

/-! ## Handlers over the dispatchers (`webhook.go`, `usercollection_cmds.go`) -/

/-- How a handler that may call `os.Exit` ends: it returns, or the process
exits with a code after the given text went to standard error. -/
inductive Outcome where
  | returned
  | exited (code : Int) (stderr : String)
  deriving DecidableEq, Repr

/-- Embedding of `exitErr(err)`. -/
def exitErr (err : String) : Outcome :=
  Outcome.exited 1 ("Error: " ++ err ++ "\n")

/-- Embedding of `strings.Join(pos, " ")`. -/
def joinSpace (l : List String) : String :=
  String.intercalate " " l

/-- Embedding of `writeJSON(body)`, also the inlined JSON branch of the webhook
handlers: the body goes to standard output, followed by a newline unless the
body ends with one. -/
def writeJSON (w : World) (body : String) : World :=
  { w with log := w.log ++ [Event.print body] ++
      (if body.data.length = 0 ∨ body.data.getLast? ≠ some '\n' then [Event.print "\n"]
       else []) }

/-- The lines printed for a subscription under a title. -/
def printSubscription (title : String) (s : WebhookSubscription) : List Event :=
  [Event.print (title ++ "\n"),
   Event.print (String.mk (List.replicate 40 '-') ++ "\n"),
   Event.print ("ID:        " ++ s.ID ++ "\n"),
   Event.print ("Type:      " ++ s.DataType ++ "/" ++ s.EventType ++ "\n"),
   Event.print ("Expires:   " ++ s.ExpirationTime ++ "\n"),
   Event.print ("Callback:  " ++ s.CallbackURL ++ "\n")]

/-- The common tail of `webhookCreate`, `webhookUpdate` and `webhookRenew`
after a successful `webhookDo`: raw body in JSON mode, otherwise the decoded
subscription. -/
def webhookReport (env : Env) (w : World) (opts : Options) (title body : String) :
    Except String Unit × World :=
  if opts.JSON then
    (.ok (), writeJSON w body)
  else
    match env.decodeSubscription body with
    | .error err => (.error ("failed to parse response: " ++ err), w)
    | .ok s => (.ok (), { w with log := w.log ++ printSubscription title s })

/-- Embedding of `webhookCreate(args, opts)`. -/
def webhookCreate (env : Env) (w : World) (args : List String) (opts : Options) :
    Except String Unit × World :=
  match parseLongFlags env args with
  | .error err => (.error err, w)
  | .ok (flags, pos) =>
    if pos.length ≠ 0 then
      (.error ("unexpected args: " ++ joinSpace pos), w)
    else
      let callbackURL := firstFlag flags ["callback-url", "callback_url"]
      let verificationToken := firstFlag flags ["verification-token", "verification_token"]
      let eventType := firstFlag flags ["event-type", "event_type"]
      let dataType := firstFlag flags ["data-type", "data_type"]
      if callbackURL = "" ∨ verificationToken = "" ∨ eventType = "" ∨ dataType = "" then
        (.error
          "missing required flags; see: oura webhook create --help (or: oura webhook types)",
          w)
      else
        match validateEnum env "event_type" eventType webhookOperations with
        | .error err => (.error err, w)
        | .ok _ =>
          match validateEnum env "data_type" dataType webhookDataTypes with
          | .error err => (.error err, w)
          | .ok _ =>
            let req : CreateWebhookSubscriptionRequest :=
              { CallbackURL := callbackURL, VerificationToken := verificationToken,
                EventType := eventType, DataType := dataType }
            match webhookDo env w "POST" "/subscription" (some (Payload.create req)) with
            | (r, w1) =>
              match r.err with
              | some err => (.error err, w1)
              | none =>
                webhookReport env w1 opts "Created webhook subscription" (r.respBody.getD "")

/-- An optional field of the update request: set when the flag value is not empty. -/
def optionalField (v : String) : Option String :=
  if v ≠ "" then some v else none

/-- Embedding of `webhookUpdate(id, args, opts)`. -/
def webhookUpdate (env : Env) (w : World) (id : String) (args : List String)
    (opts : Options) : Except String Unit × World :=
  match parseLongFlags env args with
  | .error err => (.error err, w)
  | .ok (flags, pos) =>
    if pos.length ≠ 0 then
      (.error ("unexpected args: " ++ joinSpace pos), w)
    else
      let verificationToken := firstFlag flags ["verification-token", "verification_token"]
      if verificationToken = "" then
        (.error "missing required flag: --verification-token", w)
      else
        let callbackURL := firstFlag flags ["callback-url", "callback_url"]
        let eventType := firstFlag flags ["event-type", "event_type"]
        let eventCheck : Except String Unit :=
          if eventType ≠ "" then validateEnum env "event_type" eventType webhookOperations
          else .ok ()
        match eventCheck with
        | .error err => (.error err, w)
        | .ok _ =>
          let dataType := firstFlag flags ["data-type", "data_type"]
          let dataCheck : Except String Unit :=
            if dataType ≠ "" then validateEnum env "data_type" dataType webhookDataTypes
            else .ok ()
          match dataCheck with
          | .error err => (.error err, w)
          | .ok _ =>
            let req : UpdateWebhookSubscriptionRequest :=
              { VerificationToken := verificationToken,
                CallbackURL := optionalField callbackURL,
                EventType := optionalField eventType,
                DataType := optionalField dataType }
            match webhookDo env w "PUT" ("/subscription/" ++ env.pathEscape id)
                (some (Payload.update req)) with
            | (r, w1) =>
              match r.err with
              | some err => (.error err, w1)
              | none =>
                webhookReport env w1 opts "Updated webhook subscription" (r.respBody.getD "")

/-- Embedding of `parseRangeQueryFlags(args)`: the query and the leftover
arguments, or the parse error. -/
def parseRangeQueryFlags (env : Env) (args : List String) :
    Except String (Values × List String) :=
  match parseLongFlags env args with
  | .error err => .error err
  | .ok (flags, pos) =>
    let params : Values := {}
    let v1 := firstFlag flags ["start-date", "start_date"]
    let params := if v1 ≠ "" then params.set "start_date" v1 else params
    let v2 := firstFlag flags ["end-date", "end_date"]
    let params := if v2 ≠ "" then params.set "end_date" v2 else params
    let v3 := firstFlag flags ["next-token", "next_token"]
    let params := if v3 ≠ "" then params.set "next_token" v3 else params
    .ok (params, pos)

/-- Embedding of `listAndPrint(endpoint, params, opts, printer)`; the printer
of the subject is `Env.renderList`. -/
def listAndPrint (env : Env) (w : World) (kind endpoint : String) (params : Values)
    (opts : Options) : Outcome × World :=
  match apiGet env w endpoint params with
  | (.error err, w1) => (exitErr err, w1)
  | (.ok body, w1) =>
    if opts.JSON then
      (Outcome.returned, writeJSON w1 body)
    else
      match env.renderList kind body with
      | .error err => (exitErr ("failed to parse response: " ++ err), w1)
      | .ok text => (Outcome.returned, { w1 with log := w1.log ++ [Event.print text] })

/-- Embedding of `getAndPrint(endpoint, opts, printer)`; the printer of the
subject is `Env.renderDoc`. -/
def getAndPrint (env : Env) (w : World) (kind endpoint : String) (opts : Options) :
    Outcome × World :=
  match apiGet env w endpoint {} with
  | (.error err, w1) => (exitErr err, w1)
  | (.ok body, w1) =>
    if opts.JSON then
      (Outcome.returned, writeJSON w1 body)
    else
      match env.renderDoc kind body with
      | .error err => (exitErr ("failed to parse response: " ++ err), w1)
      | .ok text => (Outcome.returned, { w1 with log := w1.log ++ [Event.print text] })

/-- The usage text that `handleListGet` prints for a subject under `--help`;
a subject outside the three gets the top-level usage. -/
def helpUsageText (kind : String) : String :=
  if kind = "tag" then tagUsageText
  else if kind = "enhanced_tag" then enhancedTagUsageText
  else if kind = "session" then sessionUsageText
  else topUsageText

/-- Embedding of `handleListGet(kind, args, opts)`. -/
def handleListGet (env : Env) (w : World) (kind : String) (args : List String)
    (opts : Options) : Outcome × World :=
  if opts.Help then
    (Outcome.returned, { w with log := w.log ++ [Event.print (helpUsageText kind)] })
  else
    let subRest : String × List String :=
      match args with
      | a :: rest => if !hasPrefixStr a "--" then (a, rest) else ("list", args)
      | [] => ("list", args)
    if subRest.1 = "list" then
      match parseRangeQueryFlags env subRest.2 with
      | .error err => (exitErr err, w)
      | .ok (params, extra) =>
        if extra.length ≠ 0 then
          (exitErr ("unexpected args: " ++ joinSpace extra), w)
        else if kind = "tag" then listAndPrint env w kind "/tag" params opts
        else if kind = "enhanced_tag" then listAndPrint env w kind "/enhanced_tag" params opts
        else if kind = "session" then listAndPrint env w kind "/session" params opts
        else (Outcome.returned, w)
    else if subRest.1 = "get" then
      match subRest.2 with
      | [id] =>
        if kind = "tag" then getAndPrint env w kind ("/tag/" ++ env.pathEscape id) opts
        else if kind = "enhanced_tag" then
          getAndPrint env w kind ("/enhanced_tag/" ++ env.pathEscape id) opts
        else if kind = "session" then
          getAndPrint env w kind ("/session/" ++ env.pathEscape id) opts
        else (Outcome.returned, w)
      | _ => (exitErr "missing document_id", w)
    else
      (Outcome.exited 1 "",
        { w with log := w.log ++
          (if kind = "tag" then [Event.print tagUsageText]
           else if kind = "enhanced_tag" then [Event.print enhancedTagUsageText]
           else if kind = "session" then [Event.print sessionUsageText]
           else []) })

/-! ## Conditions named in the properties -/

/-- The flags of `webhook create` are complete: each of the four fields has a
non-empty value under its hyphen or underscore spelling, the event type is one
of the three operations and the data type one of the sixteen data types. -/
def createFlagsComplete (flags : Flags) : Prop :=
  firstFlag flags ["callback-url", "callback_url"] ≠ "" ∧
  firstFlag flags ["verification-token", "verification_token"] ≠ "" ∧
  firstFlag flags ["event-type", "event_type"] ≠ "" ∧
  firstFlag flags ["data-type", "data_type"] ≠ "" ∧
  firstFlag flags ["event-type", "event_type"] ∈ webhookOperations ∧
  firstFlag flags ["data-type", "data_type"] ∈ webhookDataTypes

/-- The request body that `webhookCreate` builds from complete flags. -/
def createPayload (flags : Flags) : Payload :=
  Payload.create
    { CallbackURL := firstFlag flags ["callback-url", "callback_url"],
      VerificationToken := firstFlag flags ["verification-token", "verification_token"],
      EventType := firstFlag flags ["event-type", "event_type"],
      DataType := firstFlag flags ["data-type", "data_type"] }

/-- The flag names that `webhookCreate` and `webhookUpdate` look up. -/
def webhookFlagNames : List String :=
  ["callback-url", "callback_url", "verification-token", "verification_token",
   "event-type", "event_type", "data-type", "data_type"]

/-- The flag names that `parseRangeQueryFlags` looks up. -/
def rangeFlagNames : List String :=
  ["start-date", "start_date", "end-date", "end_date", "next-token", "next_token"]

/-- Two parse results that a handler reading only `keys` cannot tell apart:
the same error, or the same positionals and the same values under `keys`. -/
def ResultAgree (keys : List String) :
    Except String (Flags × List String) → Except String (Flags × List String) → Prop
  | .ok (g1, p1), .ok (g2, p2) => p1 = p2 ∧ ∀ key ∈ keys, g1.get key = g2.get key
  | .error e1, .error e2 => e1 = e2
  | _, _ => False

/-! ## Authorization callback (`main.go`, `doAuth`) -/

/-- What the callback handler puts on one of the two channels of `doAuth`:
an error on `errChan` or the code on `codeChan`. -/
inductive AuthSignal where
  | error (msg : String)
  | code (code : String)
  deriving DecidableEq, Repr

/-- The reply of the callback handler to the browser. -/
structure CallbackReply where
  status : Int
  contentType : String
  body : String
  deriving DecidableEq, Repr

/-- Embedding of `http.Error(w, msg, code)`: plain text, the message followed
by a newline. -/
def httpError (msg : String) (code : Int) : CallbackReply :=
  { status := code, contentType := "text/plain; charset=utf-8", body := msg ++ "\n" }

/-- The page sent after a successful callback. -/
def authenticatedPage : String :=
  "<html><body><h1>‚úì Authenticated!</h1><p>You can close this tab.</p></body></html>"

/-- Embedding of the handler registered for `/callback` in `doAuth`: `state` is
the pending state, `queryState` and `queryCode` are `r.URL.Query().Get("state")`
and `r.URL.Query().Get("code")`. -/
def callbackHandler (state queryState queryCode : String) : CallbackReply × AuthSignal :=
  if queryState ≠ state then
    (httpError "State mismatch" 400, AuthSignal.error "state mismatch")
  else if queryCode = "" then
    (httpError "No code" 400, AuthSignal.error "no code in callback")
  else
    ({ status := 200, contentType := "text/html", body := authenticatedPage },
      AuthSignal.code queryCode)

/-! ## Calendar dates (`time.Parse`, `Time.AddDate`, `Time.Format` as used by
`paddedDateRange`)

A date-only `time.Time` in UTC is represented by its count of days since the
absolute epoch of package `time`; the conversions follow the arithmetic of
`time.Date` and of `Time.Date()`. -/

/-- The constant `absoluteZeroYear` of package `time`. -/
def absoluteZeroYear : Int := -292277022399

/-- The function `isLeap` of package `time`. -/
def isLeap (year : Int) : Bool :=
  year % 4 = 0 && (year % 100 ≠ 0 || year % 400 = 0)

/-- The table `daysBefore` of package `time`: days of a non-leap year before
the end of month `m`. -/
def daysBefore (m : Int) : Int :=
  if m ≤ 0 then 0 else if m = 1 then 31 else if m = 2 then 59 else if m = 3 then 90
  else if m = 4 then 120 else if m = 5 then 151 else if m = 6 then 181 else if m = 7 then 212
  else if m = 8 then 243 else if m = 9 then 273 else if m = 10 then 304
  else if m = 11 then 334 else 365

/-- The function `daysIn(month, year)` of package `time`. -/
def daysIn (m year : Int) : Int :=
  if m = 2 ∧ isLeap year = true then 29 else daysBefore m - daysBefore (m - 1)

/-- The function `daysSinceEpoch(year)` of package `time`: days from the
absolute epoch to the start of the year, by 400-, 100- and 4-year cycles. -/
def daysSinceEpoch (year : Int) : Int :=
  let y := year - absoluteZeroYear
  let n400 := y / 400
  let y := y - 400 * n400
  let n100 := y / 100
  let y := y - 100 * n100
  let n4 := y / 4
  let y := y - 4 * n4
  146097 * n400 + 36524 * n100 + 1461 * n4 + 365 * y

/-- The day count of `time.Date(year, month, day, 0, 0, 0, 0, time.UTC)`: the
month is normalised into the year, the day is added as it is. -/
def dateDays (year month day : Int) : Int :=
  let m := month - 1
  let year := year + m / 12
  let m := m % 12
  let month := m + 1
  daysSinceEpoch year + daysBefore (month - 1) +
    (if isLeap year = true ∧ month ≥ 3 then 1 else 0) + (day - 1)

/-- Year and day within the year of a day count (first part of `absDate`). -/
def absYear (days : Int) : Int × Int :=
  let n := days / 146097
  let y := 400 * n
  let d := days - 146097 * n
  let n := d / 36524
  let n := n - n / 4
  let y := y + 100 * n
  let d := d - 36524 * n
  let n := d / 1461
  let y := y + 4 * n
  let d := d - 1461 * n
  let n := d / 365
  let n := n - n / 4
  let y := y + n
  let d := d - 365 * n
  (y + absoluteZeroYear, d)

/-- Month and day of a day within a non-leap year (last part of `absDate`):
the month is estimated as if every month had 31 days and then adjusted. -/
def monthDayOfYear (day : Int) : Int × Int :=
  let month := day / 31
  let e := daysBefore (month + 1)
  if day ≥ e then (month + 2, day - e + 1)
  else (month + 1, day - daysBefore month + 1)

/-- Month and day of a day within a year (middle part of `absDate`): in a leap
year the leap day is answered directly and later days are shifted by one. -/
def monthDayOfYearDay (leap : Bool) (yday : Int) : Int × Int :=
  if leap = true ∧ yday = 31 + 29 - 1 then (2, 29)
  else monthDayOfYear (if leap = true ∧ yday > 31 + 29 - 1 then yday - 1 else yday)

/-- Year, month and day of a day count (`Time.Date()`, the function `absDate`). -/
def absDate (days : Int) : Int × Int × Int :=
  let yd := absYear days
  let md := monthDayOfYearDay (isLeap yd.1) yd.2
  (yd.1, md.1, md.2)

/-- Embedding of `t.AddDate(0, 0, days)` on a date-only time. -/
def addDays (t : Int) (days : Int) : Int :=
  let ymd := absDate t
  dateDays ymd.1 ymd.2.1 (ymd.2.2 + days)

/-- The decimal digit for a value below ten. -/
def digitChar (n : Nat) : Char :=
  "0123456789".data.getD n '0'

/-- The value of a decimal digit, `none` for any other character. -/
def digitVal (c : Char) : Option Int :=
  if c = '0' then some 0 else if c = '1' then some 1 else if c = '2' then some 2
  else if c = '3' then some 3 else if c = '4' then some 4 else if c = '5' then some 5
  else if c = '6' then some 6 else if c = '7' then some 7 else if c = '8' then some 8
  else if c = '9' then some 9 else none

/-- The function `appendInt(b, x, width)` of package `time`: a sign for a
negative number, then the digits padded with zeros to the width. -/
def appendInt (x : Int) (width : Nat) : List Char :=
  let u := x.natAbs
  (if x < 0 then ['-'] else []) ++
    (if width = 2 ∧ u < 100 then [digitChar (u / 10), digitChar (u % 10)]
     else if width = 4 ∧ u < 10000 then
       [digitChar (u / 1000), digitChar (u / 100 % 10), digitChar (u / 10 % 10),
        digitChar (u % 10)]
     else
       List.replicate (width - (Nat.toDigits 10 u).length) '0' ++ Nat.toDigits 10 u)

/-- Embedding of `Format("2006-01-02")` on a year, month and day. -/
def formatDate (ymd : Int × Int × Int) : String :=
  String.mk (appendInt ymd.1 4 ++ ['-'] ++ appendInt ymd.2.1 2 ++ ['-'] ++ appendInt ymd.2.2 2)

/-- Embedding of `time.Parse("2006-01-02", s)`: four digits, `-`, two digits,
`-`, two digits and nothing else, with the month from 1 to 12 and the day
within the month. -/
def parseDate (s : String) : Option (Int × Int × Int) :=
  match s.data with
  | [y1, y2, y3, y4, c1, m1, m2, c2, d1, d2] =>
    if c1 = '-' ∧ c2 = '-' then
      match digitVal y1, digitVal y2, digitVal y3, digitVal y4, digitVal m1, digitVal m2,
        digitVal d1, digitVal d2 with
      | some a, some b, some c, some d, some e, some f, some g, some h =>
        let year := 1000 * a + 100 * b + 10 * c + d
        let month := 10 * e + f
        let day := 10 * g + h
        if 1 ≤ month ∧ month ≤ 12 ∧ 1 ≤ day ∧ day ≤ daysIn month year then
          some (year, month, day)
        else none
      | _, _, _, _, _, _, _, _ => none
    else none
  | _ => none

/-- Embedding of `paddedDateRange(date, beforeDays, afterDays)`. -/
def paddedDateRange (date : String) (beforeDays afterDays : Int) : String × String :=
  match parseDate date with
  | none => (date, date)
  | some (y, m, d) =>
    let t := dateDays y m d
    (formatDate (absDate (addDays t (-beforeDays))), formatDate (absDate (addDays t afterDays)))

/-- The calendar day after a date: the next day of the month, else the first
of the next month, else the first of January of the next year. -/
def nextDay (y m d : Int) : Int × Int × Int :=
  if d < daysIn m y then (y, m, d + 1)
  else if m < 12 then (y, m + 1, 1)
  else (y + 1, 1, 1)

/-- The calendar day before a date: the previous day of the month, else the
last day of the previous month, else the 31st of December of the year before. -/
def prevDay (y m d : Int) : Int × Int × Int :=
  if 1 < d then (y, m, d - 1)
  else if 1 < m then (y, m - 1, daysIn (m - 1) y)
  else (y - 1, 12, 31)

/-- A date of the calendar: month from 1 to 12, day within the month. -/
def validDate (y m d : Int) : Prop :=
  1 ≤ m ∧ m ≤ 12 ∧ 1 ≤ d ∧ d ≤ daysIn m y

/-! ## JSON encoding (`encoding/json` as used by `writeJSONToStdout`)

The encoder is followed character by character: the scanner of the package
(`scanner.go`), the compaction applied to a `json.RawMessage`, the encoding of
strings, and the indentation that `Encoder.SetIndent` applies to the whole
encoded value. Texts are sequences of characters; the package works on the
bytes of their UTF-8 form, where every choice below depends on bytes below
0x80 only. String escapes are those of Go 1.22 and later. -/

/-- Result of a scanner step (the constants `scanContinue` ... `scanError`). -/
inductive ScanCode where
  | scanContinue
  | scanBeginLiteral
  | scanBeginObject
  | scanObjectKey
  | scanObjectValue
  | scanEndObject
  | scanBeginArray
  | scanArrayValue
  | scanEndArray
  | scanSkipSpace
  | scanEnd
  | scanError
  deriving DecidableEq, Repr

/-- Entries of the parse stack (`parseObjectKey`, `parseObjectValue`,
`parseArrayValue`). -/
inductive ParseState where
  | parseObjectKey
  | parseObjectValue
  | parseArrayValue
  deriving DecidableEq, Repr

/-- The step functions of the scanner, by name. -/
inductive ScanStep where
  | stateBeginValueOrEmpty
  | stateBeginValue
  | stateBeginStringOrEmpty
  | stateBeginString
  | stateEndValue
  | stateEndTop
  | stateInString
  | stateInStringEsc
  | stateInStringEscU
  | stateInStringEscU1
  | stateInStringEscU12
  | stateInStringEscU123
  | stateNeg
  | state1
  | state0
  | stateDot
  | stateDot0
  | stateE
  | stateESign
  | stateE0
  | stateT
  | stateTr
  | stateTru
  | stateF
  | stateFa
  | stateFal
  | stateFals
  | stateN
  | stateNu
  | stateNul
  | stateError
  deriving DecidableEq, Repr

/-- The scanner: current step function, parse stack (innermost first), whether
the top-level value has ended, whether an error was met. -/
structure Scanner where
  step : ScanStep := ScanStep.stateBeginValue
  parseState : List ParseState := []
  endTop : Bool := false
  err : Bool := false
  deriving DecidableEq, Repr

/-- The function `isSpace` of the scanner. -/
def jsonIsSpace (c : Char) : Bool :=
  c = ' ' || c = '\t' || c = '\r' || c = '\n'

/-- The method `scanner.error`. -/
def scanError (s : Scanner) : ScanCode × Scanner :=
  (ScanCode.scanError, { s with step := ScanStep.stateError, err := true })

/-- The method `pushParseState`, with the limit `maxNestingDepth`. -/
def pushParseState (s : Scanner) (newState : ParseState) (successState : ScanCode) :
    ScanCode × Scanner :=
  let s1 := { s with parseState := newState :: s.parseState }
  if s1.parseState.length ≤ 10000 then (successState, s1) else scanError s1

/-- The method `popParseState`. -/
def popParseState (s : Scanner) : Scanner :=
  let rest := s.parseState.tail
  if rest.length = 0 then { s with parseState := rest, step := ScanStep.stateEndTop, endTop := true }
  else { s with parseState := rest, step := ScanStep.stateEndValue }

/-- The step function `stateEndTop`. -/
def stateEndTop (s : Scanner) (c : Char) : ScanCode × Scanner :=
  if !jsonIsSpace c then (ScanCode.scanEnd, (scanError s).2) else (ScanCode.scanEnd, s)

/-- The step function `stateEndValue`. -/
def stateEndValue (s : Scanner) (c : Char) : ScanCode × Scanner :=
  match s.parseState with
  | [] => stateEndTop { s with step := ScanStep.stateEndTop, endTop := true } c
  | ps :: rest =>
    if jsonIsSpace c then (ScanCode.scanSkipSpace, { s with step := ScanStep.stateEndValue })
    else
      match ps with
      | ParseState.parseObjectKey =>
        if c = ':' then
          (ScanCode.scanObjectKey,
            { s with parseState := ParseState.parseObjectValue :: rest,
                     step := ScanStep.stateBeginValue })
        else scanError s
      | ParseState.parseObjectValue =>
        if c = ',' then
          (ScanCode.scanObjectValue,
            { s with parseState := ParseState.parseObjectKey :: rest,
                     step := ScanStep.stateBeginString })
        else if c = '}' then (ScanCode.scanEndObject, popParseState s)
        else scanError s
      | ParseState.parseArrayValue =>
        if c = ',' then (ScanCode.scanArrayValue, { s with step := ScanStep.stateBeginValue })
        else if c = ']' then (ScanCode.scanEndArray, popParseState s)
        else scanError s

/-- The step function `stateBeginValue`. -/
def stateBeginValue (s : Scanner) (c : Char) : ScanCode × Scanner :=
  if jsonIsSpace c then (ScanCode.scanSkipSpace, s)
  else if c = '{' then
    pushParseState { s with step := ScanStep.stateBeginStringOrEmpty }
      ParseState.parseObjectKey ScanCode.scanBeginObject
  else if c = '[' then
    pushParseState { s with step := ScanStep.stateBeginValueOrEmpty }
      ParseState.parseArrayValue ScanCode.scanBeginArray
  else if c = '"' then (ScanCode.scanBeginLiteral, { s with step := ScanStep.stateInString })
  else if c = '-' then (ScanCode.scanBeginLiteral, { s with step := ScanStep.stateNeg })
  else if c = '0' then (ScanCode.scanBeginLiteral, { s with step := ScanStep.state0 })
  else if c = 't' then (ScanCode.scanBeginLiteral, { s with step := ScanStep.stateT })
  else if c = 'f' then (ScanCode.scanBeginLiteral, { s with step := ScanStep.stateF })
  else if c = 'n' then (ScanCode.scanBeginLiteral, { s with step := ScanStep.stateN })
  else if '1' ≤ c ∧ c ≤ '9' then (ScanCode.scanBeginLiteral, { s with step := ScanStep.state1 })
  else scanError s

/-- The step function `stateBeginValueOrEmpty`. -/
def stateBeginValueOrEmpty (s : Scanner) (c : Char) : ScanCode × Scanner :=
  if jsonIsSpace c then (ScanCode.scanSkipSpace, s)
  else if c = ']' then stateEndValue s c
  else stateBeginValue s c

/-- The step function `stateBeginString`. -/
def stateBeginString (s : Scanner) (c : Char) : ScanCode × Scanner :=
  if jsonIsSpace c then (ScanCode.scanSkipSpace, s)
  else if c = '"' then (ScanCode.scanBeginLiteral, { s with step := ScanStep.stateInString })
  else scanError s

/-- The step function `stateBeginStringOrEmpty`. -/
def stateBeginStringOrEmpty (s : Scanner) (c : Char) : ScanCode × Scanner :=
  if jsonIsSpace c then (ScanCode.scanSkipSpace, s)
  else if c = '}' then
    stateEndValue { s with parseState := ParseState.parseObjectValue :: s.parseState.tail } c
  else stateBeginString s c

/-- Hexadecimal digits, as accepted after `\u` in a string. -/
def jsonIsHex (c : Char) : Bool :=
  ('0' ≤ c && c ≤ '9') || ('a' ≤ c && c ≤ 'f') || ('A' ≤ c && c ≤ 'F')

/-- The step function `state0`, also the tail of `state1`, `stateDot0`, `stateE0`. -/
def state0 (s : Scanner) (c : Char) : ScanCode × Scanner :=
  if c = '.' then (ScanCode.scanContinue, { s with step := ScanStep.stateDot })
  else if c = 'e' ∨ c = 'E' then (ScanCode.scanContinue, { s with step := ScanStep.stateE })
  else stateEndValue s c

/-- The step function `stateESign`. -/
def stateESign (s : Scanner) (c : Char) : ScanCode × Scanner :=
  if '0' ≤ c ∧ c ≤ '9' then (ScanCode.scanContinue, { s with step := ScanStep.stateE0 })
  else scanError s

/-- One expected letter of a literal `true`, `false` or `null`. -/
def stateLetter (s : Scanner) (c expected : Char) (next : ScanStep) : ScanCode × Scanner :=
  if c = expected then (ScanCode.scanContinue, { s with step := next }) else scanError s

/-- One step of the scanner, `s.step(s, c)`. -/
def scanStep (s : Scanner) (c : Char) : ScanCode × Scanner :=
  match s.step with
  | ScanStep.stateBeginValueOrEmpty => stateBeginValueOrEmpty s c
  | ScanStep.stateBeginValue => stateBeginValue s c
  | ScanStep.stateBeginStringOrEmpty => stateBeginStringOrEmpty s c
  | ScanStep.stateBeginString => stateBeginString s c
  | ScanStep.stateEndValue => stateEndValue s c
  | ScanStep.stateEndTop => stateEndTop s c
  | ScanStep.stateInString =>
    if c = '"' then (ScanCode.scanContinue, { s with step := ScanStep.stateEndValue })
    else if c = '\\' then (ScanCode.scanContinue, { s with step := ScanStep.stateInStringEsc })
    else if c.toNat < 0x20 then scanError s
    else (ScanCode.scanContinue, s)
  | ScanStep.stateInStringEsc =>
    if c = 'b' ∨ c = 'f' ∨ c = 'n' ∨ c = 'r' ∨ c = 't' ∨ c = '\\' ∨ c = '/' ∨ c = '"' then
      (ScanCode.scanContinue, { s with step := ScanStep.stateInString })
    else if c = 'u' then (ScanCode.scanContinue, { s with step := ScanStep.stateInStringEscU })
    else scanError s
  | ScanStep.stateInStringEscU =>
    if jsonIsHex c then (ScanCode.scanContinue, { s with step := ScanStep.stateInStringEscU1 })
    else scanError s
  | ScanStep.stateInStringEscU1 =>
    if jsonIsHex c then (ScanCode.scanContinue, { s with step := ScanStep.stateInStringEscU12 })
    else scanError s
  | ScanStep.stateInStringEscU12 =>
    if jsonIsHex c then (ScanCode.scanContinue, { s with step := ScanStep.stateInStringEscU123 })
    else scanError s
  | ScanStep.stateInStringEscU123 =>
    if jsonIsHex c then (ScanCode.scanContinue, { s with step := ScanStep.stateInString })
    else scanError s
  | ScanStep.stateNeg =>
    if c = '0' then (ScanCode.scanContinue, { s with step := ScanStep.state0 })
    else if '1' ≤ c ∧ c ≤ '9' then (ScanCode.scanContinue, { s with step := ScanStep.state1 })
    else scanError s
  | ScanStep.state1 =>
    if '0' ≤ c ∧ c ≤ '9' then (ScanCode.scanContinue, { s with step := ScanStep.state1 })
    else state0 s c
  | ScanStep.state0 => state0 s c
  | ScanStep.stateDot =>
    if '0' ≤ c ∧ c ≤ '9' then (ScanCode.scanContinue, { s with step := ScanStep.stateDot0 })
    else scanError s
  | ScanStep.stateDot0 =>
    if '0' ≤ c ∧ c ≤ '9' then (ScanCode.scanContinue, s)
    else if c = 'e' ∨ c = 'E' then (ScanCode.scanContinue, { s with step := ScanStep.stateE })
    else stateEndValue s c
  | ScanStep.stateE =>
    if c = '+' ∨ c = '-' then (ScanCode.scanContinue, { s with step := ScanStep.stateESign })
    else stateESign s c
  | ScanStep.stateESign => stateESign s c
  | ScanStep.stateE0 =>
    if '0' ≤ c ∧ c ≤ '9' then (ScanCode.scanContinue, s) else stateEndValue s c
  | ScanStep.stateT => stateLetter s c 'r' ScanStep.stateTr
  | ScanStep.stateTr => stateLetter s c 'u' ScanStep.stateTru
  | ScanStep.stateTru => stateLetter s c 'e' ScanStep.stateEndValue
  | ScanStep.stateF => stateLetter s c 'a' ScanStep.stateFa
  | ScanStep.stateFa => stateLetter s c 'l' ScanStep.stateFal
  | ScanStep.stateFal => stateLetter s c 's' ScanStep.stateFals
  | ScanStep.stateFals => stateLetter s c 'e' ScanStep.stateEndValue
  | ScanStep.stateN => stateLetter s c 'u' ScanStep.stateNu
  | ScanStep.stateNu => stateLetter s c 'l' ScanStep.stateNul
  | ScanStep.stateNul => stateLetter s c 'l' ScanStep.stateEndValue
  | ScanStep.stateError => (ScanCode.scanError, s)

/-- The method `scanner.eof`: whether the input read so far is a complete value. -/
def scanEOF (s : Scanner) : Bool :=
  if s.err then false
  else if s.endTop then true
  else
    let s1 := (scanStep s ' ').2
    s1.endTop && !s1.err

/-- A lower-case hexadecimal digit. -/
def hexChar (n : Nat) : Char :=
  "0123456789abcdef".data.getD n '0'

/-- Loop of `appendCompact(dst, src, escape = true)`: white space outside
strings is dropped, `<`, `>`, `&`, U+2028 and U+2029 are replaced by escapes;
`none` when the scanner meets an error. -/
def jsonCompactLoop (s : Scanner) : List Char → Option (List Char × Scanner)
  | [] => some ([], s)
  | c :: cs =>
    let r := scanStep s c
    if r.1 = ScanCode.scanError then none
    else
      let emitted : List Char :=
        if c = '<' ∨ c = '>' ∨ c = '&' then
          ['\\', 'u', '0', '0', hexChar (c.toNat / 16), hexChar (c.toNat % 16)]
        else if c.toNat = 0x2028 ∨ c.toNat = 0x2029 then
          ['\\', 'u', '2', '0', '2', hexChar (c.toNat % 16)]
        else if r.1 = ScanCode.scanSkipSpace ∨ r.1 = ScanCode.scanEnd then []
        else [c]
      match jsonCompactLoop r.2 cs with
      | none => none
      | some (out, s2) => some (emitted ++ out, s2)

/-- Embedding of `appendCompact` on a whole text: the compact form, or `none`
for a text that is not one JSON value. -/
def jsonCompact (src : List Char) : Option (List Char) :=
  match jsonCompactLoop {} src with
  | none => none
  | some (out, s) => if scanEOF s then some out else none

/-- The function `appendNewline(dst, prefix = "", indent = "  ", depth)`. -/
def indentNewline (depth : Nat) : List Char :=
  '\n' :: List.replicate (2 * depth) ' '

/-- State of `appendIndent`: the scanner, the pending indent and the depth. -/
structure IndentState where
  scan : Scanner := {}
  needIndent : Bool := false
  depth : Nat := 0
  deriving DecidableEq, Repr

/-- One round of the loop of `appendIndent`: the new state and the characters
appended; `none` when the scanner meets an error. -/
def indentStep (st : IndentState) (c : Char) : Option (IndentState × List Char) :=
  let r := scanStep st.scan c
  if r.1 = ScanCode.scanSkipSpace then some ({ st with scan := r.2 }, [])
  else if r.1 = ScanCode.scanError then none
  else
    let opening := st.needIndent ∧ r.1 ≠ ScanCode.scanEndObject ∧ r.1 ≠ ScanCode.scanEndArray
    let depth1 := if opening then st.depth + 1 else st.depth
    let need1 := if opening then false else st.needIndent
    let pre : List Char := if opening then indentNewline depth1 else []
    if r.1 = ScanCode.scanContinue then
      some ({ scan := r.2, needIndent := need1, depth := depth1 }, pre ++ [c])
    else if c = '{' ∨ c = '[' then
      some ({ scan := r.2, needIndent := true, depth := depth1 }, pre ++ [c])
    else if c = ',' then
      some ({ scan := r.2, needIndent := need1, depth := depth1 },
        pre ++ [c] ++ indentNewline depth1)
    else if c = ':' then
      some ({ scan := r.2, needIndent := need1, depth := depth1 }, pre ++ [c, ' '])
    else if c = '}' ∨ c = ']' then
      if need1 then
        some ({ scan := r.2, needIndent := false, depth := depth1 }, pre ++ [c])
      else
        some ({ scan := r.2, needIndent := need1, depth := depth1 - 1 },
          pre ++ indentNewline (depth1 - 1) ++ [c])
    else
      some ({ scan := r.2, needIndent := need1, depth := depth1 }, pre ++ [c])

/-- The loop of `appendIndent` over the remaining characters. -/
def indentLoop (st : IndentState) : List Char → Option (IndentState × List Char)
  | [] => some (st, [])
  | c :: cs =>
    match indentStep st c with
    | none => none
    | some (st1, out1) =>
      match indentLoop st1 cs with
      | none => none
      | some (st2, out2) => some (st2, out1 ++ out2)

/-- Embedding of `appendIndent(dst, src, "", "  ")`: the indented text, or
`none` when the text is not one JSON value. -/
def jsonIndent (src : List Char) : Option (List Char) :=
  match indentLoop {} src with
  | none => none
  | some (st, out) => if scanEOF st.scan then some out else none

/-- The characters that stand for one character inside an encoded string
(`appendString` with `escapeHTML = true`). -/
def jsonEscapeChar (c : Char) : List Char :=
  if c = '\\' ∨ c = '"' then ['\\', c]
  else if c.toNat = 8 then ['\\', 'b']
  else if c.toNat = 12 then ['\\', 'f']
  else if c = '\n' then ['\\', 'n']
  else if c = '\r' then ['\\', 'r']
  else if c = '\t' then ['\\', 't']
  else if c.toNat < 0x20 ∨ c = '<' ∨ c = '>' ∨ c = '&' then
    ['\\', 'u', '0', '0', hexChar (c.toNat / 16), hexChar (c.toNat % 16)]
  else if c.toNat = 0x2028 ∨ c.toNat = 0x2029 then
    ['\\', 'u', '2', '0', '2', hexChar (c.toNat % 16)]
  else [c]

/-- The encoding of a string as a JSON string. -/
def jsonString (s : String) : List Char :=
  ['"'] ++ (s.data.map jsonEscapeChar).flatten ++ ['"']

/-! ## JSON mode of the date commands (`main.go`) -/

/-- The `EndpointResult` struct; `Data` is a `json.RawMessage`, `none` when nil. -/
structure EndpointResult where
  Data : Option String := none
  Error : String := ""
  deriving DecidableEq, Repr

/-- The map `map[string]EndpointResult`. -/
structure EndpointMap where
  entries : List (String × EndpointResult) := []
  deriving DecidableEq, Repr

/-- Assignment `m[name] = r`. -/
def EndpointMap.set (m : EndpointMap) (name : String) (r : EndpointResult) : EndpointMap :=
  { entries := (m.entries.filter (fun e => e.1 ≠ name)) ++ [(name, r)] }

/-- Lookup `m[name]`. -/
def EndpointMap.get (m : EndpointMap) (name : String) : Option EndpointResult :=
  (m.entries.find? (fun e => e.1 = name)).map (fun e => e.2)

/-- The keys of the map. -/
def EndpointMap.keys (m : EndpointMap) : List String :=
  m.entries.map (fun e => e.1)

/-- The `JSONOutput` struct. -/
structure JSONOutput where
  Command : String
  Date : String
  StartDate : String
  EndDate : String
  Endpoints : EndpointMap
  deriving DecidableEq, Repr

/-- The entry that `fetchEndpointsJSON` stores for the result of one request. -/
def endpointResultOf (r : Except String String) : EndpointResult :=
  match r with
  | .error err => { Error := err }
  | .ok body => { Data := some body }

/-- The loop of `fetchEndpointsJSON` over the endpoints. -/
def fetchEndpointsLoop (env : Env) (params : Values) (m : EndpointMap) (w : World) :
    List String → EndpointMap × World
  | [] => (m, w)
  | ep :: rest =>
    let name := trimPrefixStr ep "/"
    match apiGet env w ep params with
    | (r, w1) => fetchEndpointsLoop env params (m.set name (endpointResultOf r)) w1 rest

/-- The part of `fetchEndpointsJSON` before the output is written: the value
of `out` and the world after the requests. -/
def fetchEndpointsJSONOutput (env : Env) (w : World)
    (command date startDate endDate : String) (endpoints : List String) :
    JSONOutput × World :=
  let params := (({} : Values).set "start_date" startDate).set "end_date" endDate
  match fetchEndpointsLoop env params {} w endpoints with
  | (m, w1) =>
    ({ Command := command, Date := date, StartDate := startDate, EndDate := endDate,
       Endpoints := m }, w1)

/-- Order of map keys in the encoded object: byte order of the keys, which is
the order of their code points. -/
def keyBefore : List Char → List Char → Bool
  | [], [] => false
  | [], _ :: _ => true
  | _ :: _, [] => false
  | a :: as, b :: bs => a.toNat < b.toNat || (a.toNat = b.toNat && keyBefore as bs)

/-- Insertion of a map entry into a list sorted by key. -/
def insertEntry (e : String × EndpointResult) :
    List (String × EndpointResult) → List (String × EndpointResult)
  | [] => [e]
  | x :: xs => if keyBefore x.1.data e.1.data then x :: insertEntry e xs else e :: x :: xs

/-- The map entries sorted by key, as the encoder visits them. -/
def sortEntries (l : List (String × EndpointResult)) : List (String × EndpointResult) :=
  l.foldr insertEntry []

/-- Encoding of an `EndpointResult`: `data` (left out when empty) is the
compacted raw message, `error` (left out when empty) a string. -/
def marshalEndpointResult (env : Env) (r : EndpointResult) : Except String (List Char) :=
  let errorField : List (List Char) :=
    if r.Error = "" then [] else ["\"error\":".data ++ jsonString r.Error]
  let body := r.Data.getD ""
  if body.data.length = 0 then
    .ok (['{'] ++ List.intercalate [','] errorField ++ ['}'])
  else
    match jsonCompact body.data with
    | none =>
      .error ("json: error calling MarshalJSON for type json.RawMessage: " ++
        env.jsonSyntaxError body)
    | some c =>
      .ok (['{'] ++ List.intercalate [','] (("\"data\":".data ++ c) :: errorField) ++ ['}'])

/-- Encoding of the sorted map entries, stopping at the first error. -/
def marshalEntries (env : Env) :
    List (String × EndpointResult) → Except String (List (List Char))
  | [] => .ok []
  | e :: es =>
    match marshalEndpointResult env e.2 with
    | .error err => .error err
    | .ok v =>
      match marshalEntries env es with
      | .error err => .error err
      | .ok vs => .ok ((jsonString e.1 ++ [':'] ++ v) :: vs)

/-- Compact encoding of a `JSONOutput` (`json.Marshal` with HTML escaping). -/
def marshalJSONOutput (env : Env) (out : JSONOutput) : Except String (List Char) :=
  match marshalEntries env (sortEntries out.Endpoints.entries) with
  | .error err => .error err
  | .ok vs =>
    .ok ("\x7b\"command\":".data ++ jsonString out.Command ++
      ",\"date\":".data ++ jsonString out.Date ++
      ",\"start_date\":".data ++ jsonString out.StartDate ++
      ",\"end_date\":".data ++ jsonString out.EndDate ++
      ",\"endpoints\":\x7b".data ++ List.intercalate [','] vs ++ "\x7d\x7d".data)

/-- Embedding of `writeJSONToStdout(v)` for a `JSONOutput`: the value is
encoded, a newline is added, the whole is indented by two spaces and written;
an encoding error goes to standard error and the process exits with 1. -/
def writeJSONToStdout (env : Env) (w : World) (out : JSONOutput) : Outcome × World :=
  match marshalJSONOutput env out with
  | .error err => (Outcome.exited 1 ("Error: " ++ err ++ "\n"), w)
  | .ok doc =>
    match jsonIndent (doc ++ ['\n']) with
    | none => (Outcome.exited 1 ("Error: " ++ env.jsonSyntaxError (String.mk doc) ++ "\n"), w)
    | some text => (Outcome.returned, { w with log := w.log ++ [Event.print (String.mk text)] })

/-- Embedding of `fetchEndpointsJSON(command, date, startDate, endDate, endpoints)`. -/
def fetchEndpointsJSON (env : Env) (w : World) (command date startDate endDate : String)
    (endpoints : List String) : Outcome × World :=
  match fetchEndpointsJSONOutput env w command date startDate endDate endpoints with
  | (out, w1) => writeJSONToStdout env w1 out

/-- Embedding of `fetchSleepJSON(date)`. -/
def fetchSleepJSON (env : Env) (w : World) (date : String) : Outcome × World :=
  fetchEndpointsJSON env w "sleep" date (paddedDateRange date 1 1).1
    (paddedDateRange date 1 1).2 ["/sleep", "/daily_sleep"]

/-- Embedding of `fetchActivityJSON(date)`. -/
def fetchActivityJSON (env : Env) (w : World) (date : String) : Outcome × World :=
  fetchEndpointsJSON env w "activity" date (paddedDateRange date 1 1).1
    (paddedDateRange date 1 1).2 ["/daily_activity"]

/-- Embedding of `fetchReadinessJSON(date)`. -/
def fetchReadinessJSON (env : Env) (w : World) (date : String) : Outcome × World :=
  fetchEndpointsJSON env w "readiness" date (paddedDateRange date 1 1).1
    (paddedDateRange date 1 1).2 ["/daily_readiness"]

/-- Embedding of `fetchHeartRateJSON(date)`. -/
def fetchHeartRateJSON (env : Env) (w : World) (date : String) : Outcome × World :=
  fetchEndpointsJSON env w "heartrate" date date date ["/heartrate"]

/-- Embedding of `fetchHRVJSON(date)`. -/
def fetchHRVJSON (env : Env) (w : World) (date : String) : Outcome × World :=
  fetchEndpointsJSON env w "hrv" date (paddedDateRange date 1 1).1
    (paddedDateRange date 1 1).2 ["/sleep", "/daily_sleep", "/daily_readiness"]

/-- Embedding of `fetchStressJSON(date)`. -/
def fetchStressJSON (env : Env) (w : World) (date : String) : Outcome × World :=
  fetchEndpointsJSON env w "stress" date date date ["/daily_stress"]

/-- Embedding of `fetchSpO2JSON(date)`. -/
def fetchSpO2JSON (env : Env) (w : World) (date : String) : Outcome × World :=
  fetchEndpointsJSON env w "spo2" date date date ["/daily_spo2"]

/-- Embedding of `fetchResilienceJSON(date)`. -/
def fetchResilienceJSON (env : Env) (w : World) (date : String) : Outcome × World :=
  fetchEndpointsJSON env w "resilience" date date date ["/daily_resilience"]

/-- Embedding of `fetchVO2MaxJSON(date)`. -/
def fetchVO2MaxJSON (env : Env) (w : World) (date : String) : Outcome × World :=
  fetchEndpointsJSON env w "vo2" date date date ["/vO2_max"]

/-- Embedding of `fetchWorkoutsJSON(date)`. -/
def fetchWorkoutsJSON (env : Env) (w : World) (date : String) : Outcome × World :=
  fetchEndpointsJSON env w "workout" date date date ["/workout"]

/-- Embedding of `fetchAllJSON(date)`. -/
def fetchAllJSON (env : Env) (w : World) (date : String) : Outcome × World :=
  fetchEndpointsJSON env w "all" date (paddedDateRange date 1 1).1
    (paddedDateRange date 1 1).2
    ["/sleep", "/daily_sleep", "/daily_activity", "/daily_readiness", "/heartrate",
     "/daily_stress", "/daily_spo2", "/daily_resilience", "/vO2_max", "/workout"]

/-- The results of calling `apiGet` on the endpoints one after the other, each
call starting in the world left by the one before. -/
def apiGetEach (env : Env) (params : Values) (w : World) :
    List String → List (Except String String) × World
  | [] => ([], w)
  | ep :: rest =>
    match apiGet env w ep params with
    | (r, w1) =>
      match apiGetEach env params w1 rest with
      | (rs, w2) => (r :: rs, w2)

/-- Whether a text occurs as a contiguous part of another. -/
def occursIn (part whole : List Char) : Bool :=
  whole.tails.any (fun t => part.isPrefixOf t)

/-- A remote that answers 200 with `body` except on the URLs that contain
`failing`, where it answers 500. -/
def mixedEnv (body failing : String) : Env :=
  { exampleEnv 200 200 body 3600 with
    roundTrip := fun req =>
      if occursIn failing.data req.url.data then .ok { status := 500, body := "down" }
      else .ok { status := 200, body := body } }

/-- A world at instant `1000` with a token that is valid for a long time. -/
def freshWorld : World :=
  { clock := 1000, tokenFile := .stored
      { AccessToken := "a1", RefreshToken := "r1", ExpiresAt := 1000000000000000 } }

/-- The JSON branch of the date commands in `main`: the function that the
command runs when `--json` is set, `none` for a command that is not a date
command. -/
def dateCommandJSON (env : Env) (w : World) (command date : String) :
    Option (Outcome × World) :=
  if command = "today" then some (fetchAllJSON env w date)
  else if command = "sleep" then some (fetchSleepJSON env w date)
  else if command = "activity" then some (fetchActivityJSON env w date)
  else if command = "readiness" then some (fetchReadinessJSON env w date)
  else if command = "heartrate" then some (fetchHeartRateJSON env w date)
  else if command = "hrv" then some (fetchHRVJSON env w date)
  else if command = "stress" then some (fetchStressJSON env w date)
  else if command = "spo2" then some (fetchSpO2JSON env w date)
  else if command = "resilience" then some (fetchResilienceJSON env w date)
  else if command = "vo2" then some (fetchVO2MaxJSON env w date)
  else if command = "workout" then some (fetchWorkoutsJSON env w date)
  else if command = "all" then some (fetchAllJSON env w date)
  else none

/-- The endpoint list of each date command, as the specification gives it. -/
def commandEndpoints : List (String × List String) :=
  [("sleep", ["/sleep", "/daily_sleep"]),
   ("activity", ["/daily_activity"]),
   ("readiness", ["/daily_readiness"]),
   ("heartrate", ["/heartrate"]),
   ("hrv", ["/sleep", "/daily_sleep", "/daily_readiness"]),
   ("stress", ["/daily_stress"]),
   ("spo2", ["/daily_spo2"]),
   ("resilience", ["/daily_resilience"]),
   ("vo2", ["/vO2_max"]),
   ("workout", ["/workout"]),
   ("all", ["/sleep", "/daily_sleep", "/daily_activity", "/daily_readiness", "/heartrate",
     "/daily_stress", "/daily_spo2", "/daily_resilience", "/vO2_max", "/workout"])]

/-- The date commands whose range is padded by one day on each side. -/
def paddedCommands : List String := ["sleep", "activity", "readiness", "hrv", "all"]

/-- The date commands whose range is the date itself. -/
def unpaddedCommands : List String :=
  ["heartrate", "stress", "spo2", "resilience", "vo2", "workout"]

/-- The query that `fetchEndpointsJSON` sends with every request. -/
def rangeParams (startDate endDate : String) : Values :=
  (({} : Values).set "start_date" startDate).set "end_date" endDate

/-- The name under which an endpoint is stored: the path without its leading `/`. -/
def endpointName (ep : String) : String :=
  trimPrefixStr ep "/"

/-- The encoded document of a command with one endpoint, up to the name of the
endpoint. -/
def documentStart (command date startDate endDate name : String) : List Char :=
  "\x7b\"command\":".data ++ jsonString command ++
    ",\"date\":".data ++ jsonString date ++
    ",\"start_date\":".data ++ jsonString startDate ++
    ",\"end_date\":".data ++ jsonString endDate ++
    ",\"endpoints\":\x7b".data ++ jsonString name

/-- The printed text of a command with one endpoint, up to the name of the
endpoint. -/
def printedStart (command date startDate endDate name : String) : List Char :=
  "\x7b\n  \"command\": ".data ++ jsonString command ++
    ",\n  \"date\": ".data ++ jsonString date ++
    ",\n  \"start_date\": ".data ++ jsonString startDate ++
    ",\n  \"end_date\": ".data ++ jsonString endDate ++
    ",\n  \"endpoints\": \x7b\n    ".data ++ jsonString name

/-- The state of the indentation loop after the name of the endpoint: inside
two objects, after a key. -/
def keyState : IndentState :=
  { scan := { step := ScanStep.stateEndValue,
              parseState := [ParseState.parseObjectKey, ParseState.parseObjectValue] },
    needIndent := false, depth := 2 }

/-- The state of the indentation loop where the value of `data` begins: inside
three objects, a value expected. -/
def dataState : IndentState :=
  { scan := { step := ScanStep.stateBeginValue,
              parseState := [ParseState.parseObjectValue, ParseState.parseObjectValue,
                ParseState.parseObjectValue] },
    needIndent := false, depth := 3 }

/-- The texts written to standard output, in order. -/
def printedTexts (w : World) : List String :=
  w.log.filterMap (fun e => match e with
    | Event.print text => some text
    | _ => none)

/-! ## Authorization code exchange and config (`main.go`) -/

/-- The constant `redirectURI`. -/
def redirectURI : String := "http://localhost:8081/callback"

/-- The form that `exchangeCode` posts. -/
def exchangeForm (env : Env) (code : String) : Values :=
  (((((({} : Values).set "grant_type" "authorization_code").set "code" code).set
    "redirect_uri" redirectURI).set "client_id" env.config.ClientID).set
    "client_secret" env.config.ClientSecret)

/-- Embedding of `exchangeCode(code)`: every failure goes to standard error and
ends the process with status 1. -/
def exchangeCode (env : Env) (w : World) (code : String) : Outcome × World :=
  let data := exchangeForm env code
  match clientDo env w (postFormRequest env tokenURL data) with
  | (.error err, w1) => (Outcome.exited 1 ("Token exchange failed: " ++ err ++ "\n"), w1)
  | (.ok resp, w1) =>
    if resp.status ≠ 200 then
      (Outcome.exited 1 ("Token exchange failed: " ++ resp.body ++ "\n"), w1)
    else
      match env.decodeTokenResponse resp with
      | .error err => (Outcome.exited 1 ("Failed to parse token: " ++ err ++ "\n"), w1)
      | .ok tokenResp =>
        let (now, w2) := timeNow w1
        let stored : StoredToken :=
          { AccessToken := tokenResp.AccessToken,
            RefreshToken := tokenResp.RefreshToken,
            ExpiresAt := now + wrapInt64 (tokenResp.ExpiresIn * Second) }
        match saveToken env w2 stored with
        | (some err, w3) => (Outcome.exited 1 ("Failed to save token: " ++ err ++ "\n"), w3)
        | (none, w3) =>
          (Outcome.returned,
            { w3 with log := w3.log ++ [Event.print "‚úì Authenticated successfully!\n"] })

/-- Embedding of `getConfigDir()`; the directory is created on the way, which
nothing here observes. -/
def getConfigDir (env : Env) : String :=
  env.joinPath [env.homeDir, ".config", "oura"]

/-- The path that `loadConfig` reads. -/
def configPath (env : Env) : String :=
  env.joinPath [getConfigDir env, "config.json"]

/-- Embedding of `loadConfig()`: the decoded config, or the error. -/
def loadConfig (env : Env) : Except String Config :=
  match env.configFile with
  | .error _ =>
    .error ("missing config: " ++ configPath env ++
      "\nCreate it with:\n\x7b\n  \"client_id\": \"your-id\",\n" ++
      "  \"client_secret\": \"your-secret\"\n\x7d")
  | .ok data => env.unmarshalConfig data

/-! ## The listener of the authorization flow (`main.go`, `doAuth`; package `net`) -/

/-- The `Addr` of the `http.Server` that `doAuth` starts. -/
def authServerAddr : String := ":8081"

/-- The pattern under which `doAuth` registers its handler. -/
def callbackPattern : String := "/callback"

/-- The address that `ListenAndServe` listens on: `Addr`, or `:http` when that
is empty. -/
def listenAddr (addr : String) : String :=
  if addr = "" then ":http" else addr

/-- Embedding of `net.SplitHostPort`: host and port around the last colon; a
host with a colon has to stand in brackets, which are removed. -/
def splitHostPort (addr : String) : Option (String × String) :=
  match addr.data.reverse.span (fun c => c ≠ ':') with
  | (_, []) => none
  | (portRev, _ :: hostRev) =>
    let host := hostRev.reverse
    let port := portRev.reverse
    if host.head? = some '[' ∧ host.getLast? = some ']' then
      some (String.mk (host.drop 1).dropLast, String.mk port)
    else if ':' ∈ host ∨ '[' ∈ host ∨ ']' ∈ host then none
    else some (String.mk host, String.mk port)

/-- Whether a TCP listener on the address accepts connections on every address
of the machine: as `net.Listen` documents, when the host is empty or an
unspecified IP address. -/
def listensOnAllAddresses (addr : String) : Bool :=
  match splitHostPort addr with
  | none => false
  | some (host, _) => host = "" || host = "0.0.0.0" || host = "::"

/-! ## Heart rate summary (`main.go`, `fetchHeartRate`) -/

/-- The loop of `fetchHeartRate` over the BPM values: the running minimum,
maximum and sum, the sum in 64-bit arithmetic. -/
def heartRateLoop (min max sum : Int) : List Int → Int × Int × Int
  | [] => (min, max, sum)
  | bpm :: rest =>
    heartRateLoop (if bpm < min then bpm else min) (if bpm > max then bpm else max)
      (wrapInt64 (sum + bpm)) rest

/-- The numbers that `fetchHeartRate` prints. -/
structure HeartRateSummary where
  Readings : Nat
  Min : Int
  Max : Int
  Average : Int
  deriving DecidableEq, Repr

/-- The summary that `fetchHeartRate` computes: `min` starts at 999, `max` and
`sum` at 0, the average is the quotient truncated toward zero. -/
def heartRateSummary (bpms : List Int) : HeartRateSummary :=
  let r := heartRateLoop 999 0 0 bpms
  { Readings := bpms.length, Min := r.1, Max := r.2.1,
    Average := Int.tdiv r.2.2 bpms.length }

/-- The lines that `fetchHeartRate` prints for a summary. -/
def heartRateLines (date : String) (s : HeartRateSummary) : List Event :=
  [Event.print ("‚ù§Ô∏è  Heart Rate - " ++ date ++ "\n"),
   Event.print (String.join (List.replicate 40 "‚îÄ") ++ "\n"),
   Event.print ("Readings:  " ++ toString s.Readings ++ "\n"),
   Event.print ("Min:       " ++ toString s.Min ++ " bpm\n"),
   Event.print ("Max:       " ++ toString s.Max ++ " bpm\n"),
   Event.print ("Average:   " ++ toString s.Average ++ " bpm\n")]

/-- Embedding of `fetchHeartRate(date)`. -/
def fetchHeartRate (env : Env) (w : World) (date : String) : Outcome × World :=
  let params := (({} : Values).set "start_date" date).set "end_date" date
  match apiGet env w "/heartrate" params with
  | (.error err, w1) => (Outcome.exited 1 ("Error: " ++ err ++ "\n"), w1)
  | (.ok body, w1) =>
    let bpms := env.decodeHeartRate body
    if bpms.length = 0 then
      (Outcome.returned,
        { w1 with log := w1.log ++ [Event.print ("No heart rate data for " ++ date ++ "\n")] })
    else
      (Outcome.returned,
        { w1 with log := w1.log ++ heartRateLines date (heartRateSummary bpms) })

/-! ## Conditions named in the properties of the handlers -/

/-- The dispatch of `handleListGet` on a subcommand and its arguments: `list`
reads the range flags and lists, `get` takes one document id, anything else
prints the usage of the subject and exits with status 1. -/
def runSubcommand (env : Env) (w : World) (kind sub : String) (rest : List String)
    (opts : Options) : Outcome × World :=
  if sub = "list" then
    match parseRangeQueryFlags env rest with
    | .error err => (exitErr err, w)
    | .ok (params, extra) =>
      if extra.length ≠ 0 then
        (exitErr ("unexpected args: " ++ joinSpace extra), w)
      else if kind = "tag" then listAndPrint env w kind "/tag" params opts
      else if kind = "enhanced_tag" then listAndPrint env w kind "/enhanced_tag" params opts
      else if kind = "session" then listAndPrint env w kind "/session" params opts
      else (Outcome.returned, w)
  else if sub = "get" then
    match rest with
    | [id] =>
      if kind = "tag" then getAndPrint env w kind ("/tag/" ++ env.pathEscape id) opts
      else if kind = "enhanced_tag" then
        getAndPrint env w kind ("/enhanced_tag/" ++ env.pathEscape id) opts
      else if kind = "session" then
        getAndPrint env w kind ("/session/" ++ env.pathEscape id) opts
      else (Outcome.returned, w)
    | _ => (exitErr "missing document_id", w)
  else
    (Outcome.exited 1 "",
      { w with log := w.log ++
        (if kind = "tag" then [Event.print tagUsageText]
         else if kind = "enhanced_tag" then [Event.print enhancedTagUsageText]
         else if kind = "session" then [Event.print sessionUsageText]
         else []) })

/-- The request body that `webhookUpdate` builds from the flags: the
verification token, and each other field only when its flag has a value. -/
def updatePayload (flags : Flags) : Payload :=
  Payload.update
    { VerificationToken := firstFlag flags ["verification-token", "verification_token"],
      CallbackURL := optionalField (firstFlag flags ["callback-url", "callback_url"]),
      EventType := optionalField (firstFlag flags ["event-type", "event_type"]),
      DataType := optionalField (firstFlag flags ["data-type", "data_type"]) }

/-- A remote whose token endpoint answers `status` with a well-formed token
body, which decodes to the token it spells. -/
def tokenEnv (status : Int) : Env :=
  { exampleEnv status 200 "\x7b\x7d" 3600 with
    roundTrip := fun req =>
      if req.url = tokenURL then
        .ok { status := status,
              body := "\x7b\"access_token\":\"a2\",\"refresh_token\":\"r2\"," ++
                "\"expires_in\":3600,\"token_type\":\"bearer\"\x7d" }
      else .ok { status := 200, body := "\x7b\x7d" } }

/-- The token that `refreshToken` and `exchangeCode` build from a decoded
response at the instant `now`. -/
def storedTokenOf (tr : TokenResponse) (now : Int) : StoredToken :=
  { AccessToken := tr.AccessToken, RefreshToken := tr.RefreshToken,
    ExpiresAt := now + wrapInt64 (tr.ExpiresIn * Second) }

/-- The spellings of the list flags and the query key of each: hyphen
spelling, underscore spelling, key. -/
def rangeFlagAliases : List (String × String × String) :=
  [("start-date", "start_date", "start_date"),
   ("end-date", "end_date", "end_date"),
   ("next-token", "next_token", "next_token")]

/-- One optional member of an encoded object: nothing for a nil pointer,
else a comma, the key and the encoded string. -/
def optionalMember (key : String) (v : Option String) : List Char :=
  match v with
  | none => []
  | some s => [','] ++ jsonString key ++ [':'] ++ jsonString s

/-- Embedding of `json.Marshal` on an `UpdateWebhookSubscriptionRequest`: the
verification token always, each pointer field only when it is not nil
(`omitempty`). -/
def marshalUpdateRequest (r : UpdateWebhookSubscriptionRequest) : String :=
  String.mk (['\x7b'] ++ jsonString "verification_token" ++ [':'] ++
    jsonString r.VerificationToken ++
    optionalMember "callback_url" r.CallbackURL ++
    optionalMember "event_type" r.EventType ++
    optionalMember "data_type" r.DataType ++ ['\x7d'])

/-- An environment whose `json.Marshal` encodes update requests as the
package does. -/
def marshalEnv : Env :=
  { exampleEnv 200 200 "\x7b\x7d" 3600 with
    marshal := fun p =>
      match p with
      | Payload.update r => .ok (marshalUpdateRequest r)
      | Payload.create _ => .ok "\x7b\x7d" }

/-- An environment whose config file holds the text `not json`, which the
decoder rejects with its syntax error. -/
def brokenConfigEnv : Env :=
  { exampleEnv 200 200 "" 3600 with
    configFile := .ok "not json",
    unmarshalConfig := fun _ => .error "invalid character 'o' in literal null (expecting 'u')" }

/-! ### Lemmas on the parsing loop -/

theorem parseArgsLoop_eq (opts : Options) (pos args : List String) :
    parseArgsLoop opts pos args =
      ({ JSON := opts.JSON || args.any isJSONToken,
         Help := opts.Help || args.any isHelpToken },
       pos ++ stripGlobal args) := by
  induction args generalizing opts pos with
  | nil => simp [parseArgsLoop, stripGlobal]
  | cons a rest ih =>
    unfold parseArgsLoop
    by_cases hh : a = "--help" ∨ a = "-h" ∨ a = "help"
    · have h1 : isHelpToken a = true := by
        simp only [isHelpToken, Bool.or_eq_true, decide_eq_true_eq]; tauto
      have h3 : isJSONToken a = false := by
        rcases hh with h | h | h <;> subst h <;> simp [isJSONToken]
      have h2 : isGlobalToken a = true := by simp [isGlobalToken, h1]
      rw [if_pos hh, ih]
      simp [stripGlobal, List.filter_cons, h1, h2, h3]
    · have h1 : isHelpToken a = false := by
        simp only [isHelpToken, Bool.or_eq_false_iff, decide_eq_false_iff_not]; tauto
      rw [if_neg hh]
      by_cases hj : a = "--json" ∨ a = "-j"
      · have h3 : isJSONToken a = true := by simpa [isJSONToken] using hj
        have h2 : isGlobalToken a = true := by simp [isGlobalToken, h3]
        rw [if_pos hj, ih]
        simp [stripGlobal, List.filter_cons, h1, h2, h3]
      · have h3 : isJSONToken a = false := by simpa [isJSONToken] using hj
        have h2 : isGlobalToken a = false := by simp [isGlobalToken, h1, h3]
        rw [if_neg hj, ih]
        simp [stripGlobal, List.filter_cons, h1, h2, h3]

theorem parseArgs_cons_cons (p cmd : String) (args : List String)
    (hc : cmd ≠ "--help" ∧ cmd ≠ "-h") :
    parseArgs (p :: cmd :: args) =
      some { Command := if cmd = "json" then "all" else cmd,
             Args := stripGlobal args,
             Opts := { JSON := decide (cmd = "json") || args.any isJSONToken,
                       Help := args.any isHelpToken } } := by
  have hn : ¬ (cmd = "--help" ∨ cmd = "-h") := by
    rintro (h | h)
    · exact hc.1 h
    · exact hc.2 h
  simp only [parseArgs, if_neg hn, parseArgsLoop_eq]
  by_cases hj : cmd = "json" <;> simp [hj]

theorem stripGlobal_eq_filter (args : List String) :
    stripGlobal args =
      args.filter (fun a => decide (a ≠ "--help" ∧ a ≠ "-h" ∧ a ≠ "help" ∧
        a ≠ "--json" ∧ a ≠ "-j")) := by
  unfold stripGlobal
  congr 1
  funext a
  simp only [isGlobalToken, isHelpToken, isJSONToken]
  by_cases h1 : a = "--help" <;> by_cases h2 : a = "-h" <;> by_cases h3 : a = "help" <;>
    by_cases h4 : a = "--json" <;> by_cases h5 : a = "-j" <;> simp [h1, h2, h3, h4, h5]

theorem any_isHelpToken_iff (args : List String) :
    args.any isHelpToken = true ↔ ∃ a ∈ args, a = "--help" ∨ a = "-h" ∨ a = "help" := by
  simp only [List.any_eq_true, isHelpToken, Bool.or_eq_true, decide_eq_true_eq, or_assoc]

theorem any_isJSONToken_iff (args : List String) :
    args.any isJSONToken = true ↔ ∃ a ∈ args, a = "--json" ∨ a = "-j" := by
  simp only [List.any_eq_true, isJSONToken, Bool.or_eq_true, decide_eq_true_eq]

theorem exists_cons_cons_of_two_le (argv : List String) (h2 : 2 ≤ argv.length) :
    ∃ p cmd args, argv = p :: cmd :: args := by
  match argv, h2 with
  | p :: cmd :: args, _ => exact ⟨p, cmd, args, rfl⟩

/-! ### Claims on `parseArgs` -/

/-- C1: for an argument vector with at least two elements whose second element
is neither `--help` nor `-h`, `parseArgs` succeeds and its positional list is
`argv[2:]` with every occurrence of `--help`, `-h`, `help`, `--json`, `-j`
removed, the other tokens kept in order and multiplicity. -/
theorem parseArgs_positional (argv : List String) (h2 : 2 ≤ argv.length)
    (hc : argv[1]? ≠ some "--help" ∧ argv[1]? ≠ some "-h") :
    ∃ pa, parseArgs argv = some pa ∧
      pa.Args = (argv.drop 2).filter (fun a => decide (a ≠ "--help" ∧ a ≠ "-h" ∧
        a ≠ "help" ∧ a ≠ "--json" ∧ a ≠ "-j")) := by
  obtain ⟨p, cmd, args, rfl⟩ := exists_cons_cons_of_two_le argv h2
  have hc2 : cmd ≠ "--help" ∧ cmd ≠ "-h" := by
    constructor
    · intro h; exact hc.1 (by simp [h])
    · intro h; exact hc.2 (by simp [h])
  refine ⟨_, parseArgs_cons_cons p cmd args hc2, ?_⟩
  simpa using stripGlobal_eq_filter args

theorem parseArgs_positional_witness :
    ∃ pa, parseArgs ["oura", "sleep", "--json", "x", "help", "2024-05-01", "x", "-h"] = some pa ∧
      pa.Args = ["x", "2024-05-01", "x"] :=
  parseArgs_positional ["oura", "sleep", "--json", "x", "help", "2024-05-01", "x", "-h"]
    (by decide) (by decide)

/-- C2: under the same conditions `Opts.Help` is set exactly when some element
of `argv[2:]` is `--help`, `-h` or `help`, and `Opts.JSON` is set exactly when
`argv[1]` is `json` or some element of `argv[2:]` is `--json` or `-j`. -/
theorem parseArgs_options (argv : List String) (h2 : 2 ≤ argv.length)
    (hc : argv[1]? ≠ some "--help" ∧ argv[1]? ≠ some "-h") :
    ∃ pa, parseArgs argv = some pa ∧
      (pa.Opts.Help = true ↔ ∃ a ∈ argv.drop 2, a = "--help" ∨ a = "-h" ∨ a = "help") ∧
      (pa.Opts.JSON = true ↔
        argv[1]? = some "json" ∨ ∃ a ∈ argv.drop 2, a = "--json" ∨ a = "-j") := by
  obtain ⟨p, cmd, args, rfl⟩ := exists_cons_cons_of_two_le argv h2
  have hc2 : cmd ≠ "--help" ∧ cmd ≠ "-h" := by
    constructor
    · intro h; exact hc.1 (by simp [h])
    · intro h; exact hc.2 (by simp [h])
  refine ⟨_, parseArgs_cons_cons p cmd args hc2, ?_, ?_⟩
  · simpa using any_isHelpToken_iff args
  · have := any_isJSONToken_iff args
    simp only [Bool.or_eq_true, decide_eq_true_eq, this]
    simp

theorem parseArgs_options_witness :
    ∃ pa, parseArgs ["oura", "json", "2024-05-01", "help"] = some pa ∧
      (pa.Opts.Help = true ↔
        ∃ a ∈ List.drop 2 ["oura", "json", "2024-05-01", "help"],
          a = "--help" ∨ a = "-h" ∨ a = "help") ∧
      (pa.Opts.JSON = true ↔
        ["oura", "json", "2024-05-01", "help"][1]? = some "json" ∨
          ∃ a ∈ List.drop 2 ["oura", "json", "2024-05-01", "help"],
            a = "--json" ∨ a = "-j") :=
  parseArgs_options ["oura", "json", "2024-05-01", "help"] (by decide) (by decide)

/-- C3: the `json` command is an alias for `all --json`: both argument vectors
parse to the same result, which is the command `all` with `JSON = true`, the
positionals of `rest`, and `Help` set exactly by the help tokens of `rest`. -/
theorem parseArgs_json_alias (p : String) (rest : List String) :
    parseArgs ([p, "json"] ++ rest) = parseArgs ([p, "all", "--json"] ++ rest) ∧
    parseArgs ([p, "json"] ++ rest) =
      some { Command := "all",
             Args := rest.filter (fun a => decide (a ≠ "--help" ∧ a ≠ "-h" ∧
               a ≠ "help" ∧ a ≠ "--json" ∧ a ≠ "-j")),
             Opts := { JSON := true,
                       Help := rest.any (fun a => a = "--help" || a = "-h" || a = "help") } } := by
  have e1 := parseArgs_cons_cons p "json" rest (by decide)
  have e2 := parseArgs_cons_cons p "all" ("--json" :: rest) (by decide)
  have hs : stripGlobal ("--json" :: rest) = stripGlobal rest := by
    simp [stripGlobal, isGlobalToken, isJSONToken]
  have hh : (fun a => a = "--help" || a = "-h" || a = "help") = isHelpToken := by
    funext a; simp [isHelpToken]
  simp only [List.cons_append, List.nil_append, hh, ← stripGlobal_eq_filter]
  rw [e1, e2, hs]
  simp [isJSONToken, isHelpToken]

/-- C4: position and spelling of the global flags after the command do not
matter: two argument lists with the same non-global tokens (in order) that
agree on containing a help token and on containing a JSON token give the same
parse result after any program name and command. -/
theorem parseArgs_flag_position (p c : String) (r1 r2 : List String)
    (hpos : r1.filter (fun a => decide (a ≠ "--help" ∧ a ≠ "-h" ∧ a ≠ "help" ∧
        a ≠ "--json" ∧ a ≠ "-j")) =
      r2.filter (fun a => decide (a ≠ "--help" ∧ a ≠ "-h" ∧ a ≠ "help" ∧
        a ≠ "--json" ∧ a ≠ "-j")))
    (hhelp : (∃ a ∈ r1, a = "--help" ∨ a = "-h" ∨ a = "help") ↔
      (∃ a ∈ r2, a = "--help" ∨ a = "-h" ∨ a = "help"))
    (hjson : (∃ a ∈ r1, a = "--json" ∨ a = "-j") ↔ (∃ a ∈ r2, a = "--json" ∨ a = "-j")) :
    parseArgs ([p, c] ++ r1) = parseArgs ([p, c] ++ r2) := by
  by_cases hc : c = "--help" ∨ c = "-h"
  · simp [parseArgs, hc]
  · have hc2 : c ≠ "--help" ∧ c ≠ "-h" := by
      constructor
      · intro h; exact hc (Or.inl h)
      · intro h; exact hc (Or.inr h)
    have hH : r1.any isHelpToken = r2.any isHelpToken := by
      rw [Bool.eq_iff_iff, any_isHelpToken_iff, any_isHelpToken_iff]; exact hhelp
    have hJ : r1.any isJSONToken = r2.any isJSONToken := by
      rw [Bool.eq_iff_iff, any_isJSONToken_iff, any_isJSONToken_iff]; exact hjson
    simp only [List.cons_append, List.nil_append]
    rw [parseArgs_cons_cons p c r1 hc2, parseArgs_cons_cons p c r2 hc2, hH, hJ,
      stripGlobal_eq_filter r1, stripGlobal_eq_filter r2, hpos]

theorem parseArgs_flag_position_witness :
    parseArgs (["oura", "sleep"] ++ ["--json", "2024-05-01"]) =
      parseArgs (["oura", "sleep"] ++ ["2024-05-01", "-j"]) :=
  parseArgs_flag_position "oura" "sleep" ["--json", "2024-05-01"] ["2024-05-01", "-j"]
    (by decide) (by decide) (by decide)

/-! ### Lemmas on the world model -/

theorem eventsSince_append (w w2 : World) (l : List Event) (h : w2.log = w.log ++ l) :
    eventsSince w w2 = l := by
  simp [eventsSince, h]

theorem timeNow_fst (w : World) : (timeNow w).1 = w.clock := rfl

theorem timeNow_log (w : World) : (timeNow w).2.log = w.log := rfl

theorem timeNow_tokenFile (w : World) : (timeNow w).2.tokenFile = w.tokenFile := rfl

/-- Effects of `refreshToken`: the refresh request always goes out first; it is
followed by at most one token write. -/
theorem refreshToken_log (env : Env) (w : World) (refresh : String) :
    ∃ rest, (refreshToken env w refresh).2.log =
      w.log ++ Event.send (postFormRequest env tokenURL (refreshForm env refresh)) :: rest ∧
      ∀ e ∈ rest, ∃ t, e = Event.writeToken t := by
  unfold refreshToken clientDo
  cases hrt : env.roundTrip (postFormRequest env tokenURL (refreshForm env refresh)) with
  | error err => exact ⟨[], by simp [hrt], by simp⟩
  | ok resp =>
    by_cases hs : resp.status = 200
    · cases hd : env.decodeTokenResponse resp with
      | error err => exact ⟨[], by simp [hrt, hs, hd], by simp⟩
      | ok tr =>
        cases hw : env.writeTokenErr
            { AccessToken := tr.AccessToken, RefreshToken := tr.RefreshToken,
              ExpiresAt := w.clock + wrapInt64 (tr.ExpiresIn * Second) } with
        | some err =>
          exact ⟨[Event.writeToken ⟨tr.AccessToken, tr.RefreshToken,
            w.clock + wrapInt64 (tr.ExpiresIn * Second)⟩],
            by simp [hrt, hs, hd, timeNow, saveToken, hw], by simp⟩
        | none =>
          exact ⟨[Event.writeToken ⟨tr.AccessToken, tr.RefreshToken,
            w.clock + wrapInt64 (tr.ExpiresIn * Second)⟩],
            by simp [hrt, hs, hd, timeNow, saveToken, hw], by simp⟩
    · exact ⟨[], by simp [hrt, hs], by simp⟩

/-- Shape of a successful `refreshToken`. -/
theorem refreshToken_ok (env : Env) (w : World) (refresh : String) (st : StoredToken)
    (w2 : World) (h : refreshToken env w refresh = (.ok st, w2)) :
    ∃ resp tr,
      env.roundTrip (postFormRequest env tokenURL (refreshForm env refresh)) = .ok resp ∧
      resp.status = 200 ∧ env.decodeTokenResponse resp = .ok tr ∧
      st = { AccessToken := tr.AccessToken, RefreshToken := tr.RefreshToken,
             ExpiresAt := w.clock + wrapInt64 (tr.ExpiresIn * Second) } ∧
      w2.tokenFile = TokenFile.stored st := by
  unfold refreshToken clientDo at h
  cases hrt : env.roundTrip (postFormRequest env tokenURL (refreshForm env refresh)) with
  | error err => simp [hrt] at h
  | ok resp =>
    by_cases hs : resp.status = 200
    · cases hd : env.decodeTokenResponse resp with
      | error err => simp [hrt, hs, hd] at h
      | ok tr =>
        cases hw : env.writeTokenErr
            { AccessToken := tr.AccessToken, RefreshToken := tr.RefreshToken,
              ExpiresAt := w.clock + wrapInt64 (tr.ExpiresIn * Second) } with
        | some err => simp [hrt, hs, hd, timeNow, saveToken, hw] at h
        | none =>
          simp only [hrt, hs, hd, timeNow, saveToken, hw] at h
          simp at h
          obtain ⟨h1, h2⟩ := h
          refine ⟨resp, tr, rfl, hs, hd, h1.symm, ?_⟩
          rw [← h2, h1]
    · simp [hrt, hs] at h

theorem wrapInt64_of_range (x : Int) (h1 : -(2 ^ 63) ≤ x) (h2 : x < 2 ^ 63) :
    wrapInt64 x = x := by
  unfold wrapInt64
  norm_num at h1 h2 ⊢
  omega

theorem getValidToken_fresh (env : Env) (w : World) (t : StoredToken)
    (h : w.tokenFile = TokenFile.stored t) (hc : ¬ (w.clock + 5 * Minute > t.ExpiresAt)) :
    getValidToken env w = (.ok t.AccessToken, (timeNow w).2) := by
  simp only [getValidToken, loadToken, h, timeNow_fst, if_neg hc]

theorem getValidToken_stale (env : Env) (w : World) (t : StoredToken)
    (h : w.tokenFile = TokenFile.stored t) (hc : w.clock + 5 * Minute > t.ExpiresAt) :
    getValidToken env w =
      match refreshToken env (timeNow w).2 t.RefreshToken with
      | (.error err, w2) =>
        (.error ("token refresh failed - run 'oura auth' again: " ++ err), w2)
      | (.ok newToken, w2) => (.ok newToken.AccessToken, w2) := by
  simp only [getValidToken, loadToken, h, timeNow_fst, if_pos hc]

theorem getValidToken_stale_snd (env : Env) (w : World) (t : StoredToken)
    (h : w.tokenFile = TokenFile.stored t) (hc : w.clock + 5 * Minute > t.ExpiresAt) :
    (getValidToken env w).2 = (refreshToken env (timeNow w).2 t.RefreshToken).2 := by
  rw [getValidToken_stale env w t h hc]
  rcases hr : refreshToken env (timeNow w).2 t.RefreshToken with ⟨r, w2⟩
  cases r <;> rfl

theorem getValidToken_no_token (env : Env) (w : World)
    (h : w.tokenFile = TokenFile.missing ∨ w.tokenFile = TokenFile.malformed) :
    getValidToken env w = (.error "not authenticated - run 'oura auth' first", w) := by
  rcases h with h | h <;> simp only [getValidToken, loadToken, h]

/-- Effects of `getValidToken` on a stored token: none when the token is
fresh, the refresh request followed by further effects when it is stale. -/
theorem getValidToken_events (env : Env) (w : World) (t : StoredToken)
    (h : w.tokenFile = TokenFile.stored t) :
    (¬ (w.clock + 5 * Minute > t.ExpiresAt) → eventsSince w (getValidToken env w).2 = []) ∧
    (w.clock + 5 * Minute > t.ExpiresAt → ∃ rest, eventsSince w (getValidToken env w).2 =
      Event.send (postFormRequest env tokenURL (refreshForm env t.RefreshToken)) :: rest ∧
      ∀ e ∈ rest, ∃ t2, e = Event.writeToken t2) := by
  constructor
  · intro hc
    rw [getValidToken_fresh env w t h hc]
    exact eventsSince_append w _ [] (by simp [timeNow_log])
  · intro hc
    rw [getValidToken_stale_snd env w t h hc]
    obtain ⟨rest, hrest, hw⟩ := refreshToken_log env (timeNow w).2 t.RefreshToken
    exact ⟨rest, eventsSince_append w _ _ (by rw [hrest, timeNow_log]), hw⟩

/-! ### Claims on token acquisition -/

/-- C5: with a stored token, `getValidToken` sends the refresh request exactly
when `now + 5 minutes` is strictly later than `expires_at`. Otherwise it
returns the stored access token, issues no request, writes no token file and
leaves the file as it was. A token expiring 4 minutes from now is refreshed,
one expiring 6 minutes from now is not. -/
theorem getValidToken_refresh_threshold (env : Env) (w : World) (t : StoredToken)
    (h : w.tokenFile = TokenFile.stored t) :
    (Event.send (postFormRequest env tokenURL (refreshForm env t.RefreshToken)) ∈
        eventsSince w (getValidToken env w).2 ↔ w.clock + 5 * Minute > t.ExpiresAt) ∧
    (¬ (w.clock + 5 * Minute > t.ExpiresAt) →
      (getValidToken env w).1 = .ok t.AccessToken ∧
      eventsSince w (getValidToken env w).2 = [] ∧
      (getValidToken env w).2.tokenFile = w.tokenFile) ∧
    (t.ExpiresAt = w.clock + 4 * Minute →
      Event.send (postFormRequest env tokenURL (refreshForm env t.RefreshToken)) ∈
        eventsSince w (getValidToken env w).2) ∧
    (t.ExpiresAt = w.clock + 6 * Minute →
      (getValidToken env w).1 = .ok t.AccessToken ∧
      eventsSince w (getValidToken env w).2 = [] ∧
      (getValidToken env w).2.tokenFile = w.tokenFile) := by
  obtain ⟨hfresh, hstale⟩ := getValidToken_events env w t h
  have hiff : Event.send (postFormRequest env tokenURL (refreshForm env t.RefreshToken)) ∈
      eventsSince w (getValidToken env w).2 ↔ w.clock + 5 * Minute > t.ExpiresAt := by
    constructor
    · intro hmem
      by_contra hc
      rw [hfresh hc] at hmem
      exact absurd hmem (List.not_mem_nil _)
    · intro hc
      obtain ⟨rest, hrest, _⟩ := hstale hc
      rw [hrest]
      exact List.mem_cons_self _ _
  have hno : ¬ (w.clock + 5 * Minute > t.ExpiresAt) →
      (getValidToken env w).1 = .ok t.AccessToken ∧
      eventsSince w (getValidToken env w).2 = [] ∧
      (getValidToken env w).2.tokenFile = w.tokenFile := by
    intro hc
    refine ⟨?_, hfresh hc, ?_⟩
    · rw [getValidToken_fresh env w t h hc]
    · rw [getValidToken_fresh env w t h hc, timeNow_tokenFile]
  refine ⟨hiff, hno, ?_, ?_⟩
  · intro he
    apply hiff.mpr
    rw [he]
    simp only [Minute, Second]
    omega
  · intro he
    apply hno
    rw [he]
    simp only [Minute, Second]
    omega

theorem getValidToken_refresh_threshold_witness :
    Event.send (postFormRequest (exampleEnv 200 200 "{}" 3600) tokenURL
        (refreshForm (exampleEnv 200 200 "{}" 3600) "r1")) ∈
      eventsSince (exampleWorld (1000 + 4 * Minute))
        (getValidToken (exampleEnv 200 200 "{}" 3600) (exampleWorld (1000 + 4 * Minute))).2 :=
  (getValidToken_refresh_threshold (exampleEnv 200 200 "{}" 3600)
    (exampleWorld (1000 + 4 * Minute))
    { AccessToken := "a1", RefreshToken := "r1", ExpiresAt := 1000 + 4 * Minute } rfl).2.2.1 rfl

/-- C6 (as stated, refuted): a successful refresh whose response carries
`expires_in = 0` (also the decoding of a missing field) at clock reading `1000`
stores `expires_at = 1000`, which is not later than `now`; so the claim fails
for some successful refresh. -/
theorem refreshToken_expiry_counterexample :
    (exampleWorld 2000).clock = 1000 ∧
    (refreshToken (exampleEnv 200 200 "{}" 0) (exampleWorld 2000) "r1").1 =
      .ok { AccessToken := "a2", RefreshToken := "r2", ExpiresAt := 1000 } ∧
    (refreshToken (exampleEnv 200 200 "{}" 0) (exampleWorld 2000) "r1").2.tokenFile =
      TokenFile.stored { AccessToken := "a2", RefreshToken := "r2", ExpiresAt := 1000 } ∧
    ¬ ∀ (env : Env) (w : World) (refresh : String) (st : StoredToken) (w2 : World),
        refreshToken env w refresh = (.ok st, w2) → st.ExpiresAt > w.clock := by
  refine ⟨rfl, rfl, rfl, ?_⟩
  intro hall
  have h := hall (exampleEnv 200 200 "{}" 0) (exampleWorld 2000) "r1"
    { AccessToken := "a2", RefreshToken := "r2", ExpiresAt := 1000 }
    (refreshToken (exampleEnv 200 200 "{}" 0) (exampleWorld 2000) "r1").2 rfl
  revert h
  decide

/-- C6 (amended): after a successful refresh the stored token has
`expires_at = now + expires_in seconds`, the product taken in 64-bit
nanoseconds, so `expires_at > now` holds exactly when that duration is positive;
it holds for every `expires_in` from 1 to 9223372036. The token is the content
of the token file afterwards. -/
theorem refreshToken_expiry (env : Env) (w : World) (refresh : String) (st : StoredToken)
    (w2 : World) (h : refreshToken env w refresh = (.ok st, w2)) :
    ∃ resp tr,
      env.roundTrip (postFormRequest env tokenURL (refreshForm env refresh)) = .ok resp ∧
      resp.status = 200 ∧ env.decodeTokenResponse resp = .ok tr ∧
      w2.tokenFile = TokenFile.stored st ∧
      st.ExpiresAt = w.clock + wrapInt64 (tr.ExpiresIn * Second) ∧
      (st.ExpiresAt > w.clock ↔ 0 < wrapInt64 (tr.ExpiresIn * Second)) ∧
      (1 ≤ tr.ExpiresIn → tr.ExpiresIn ≤ 9223372036 →
        st.ExpiresAt = w.clock + tr.ExpiresIn * Second ∧ st.ExpiresAt > w.clock) := by
  obtain ⟨resp, tr, h1, h2, h3, h4, h5⟩ := refreshToken_ok env w refresh st w2 h
  have he : st.ExpiresAt = w.clock + wrapInt64 (tr.ExpiresIn * Second) := by rw [h4]
  refine ⟨resp, tr, h1, h2, h3, h5, he, ?_, ?_⟩
  · rw [he]; omega
  · intro hlo hhi
    have hw : wrapInt64 (tr.ExpiresIn * Second) = tr.ExpiresIn * Second := by
      apply wrapInt64_of_range
      · simp only [Second]; norm_num; omega
      · simp only [Second]; norm_num; omega
    rw [he, hw]
    simp only [Second]
    constructor
    · trivial
    · omega

theorem refreshToken_expiry_witness :
    ∃ resp tr,
      (exampleEnv 200 200 "{}" 3600).roundTrip (postFormRequest (exampleEnv 200 200 "{}" 3600)
        tokenURL (refreshForm (exampleEnv 200 200 "{}" 3600) "r1")) = .ok resp ∧
      resp.status = 200 ∧ (exampleEnv 200 200 "{}" 3600).decodeTokenResponse resp = .ok tr ∧
      (refreshToken (exampleEnv 200 200 "{}" 3600) (exampleWorld 2000) "r1").2.tokenFile =
        TokenFile.stored
          { AccessToken := "a2", RefreshToken := "r2", ExpiresAt := 3600000001000 } ∧
      (3600000001000 : Int) = (exampleWorld 2000).clock + wrapInt64 (tr.ExpiresIn * Second) ∧
      ((3600000001000 : Int) > (exampleWorld 2000).clock ↔
        0 < wrapInt64 (tr.ExpiresIn * Second)) ∧
      (1 ≤ tr.ExpiresIn → tr.ExpiresIn ≤ 9223372036 →
        (3600000001000 : Int) = (exampleWorld 2000).clock + tr.ExpiresIn * Second ∧
        (3600000001000 : Int) > (exampleWorld 2000).clock) :=
  refreshToken_expiry (exampleEnv 200 200 "{}" 3600) (exampleWorld 2000) "r1"
    { AccessToken := "a2", RefreshToken := "r2", ExpiresAt := 3600000001000 }
    (refreshToken (exampleEnv 200 200 "{}" 3600) (exampleWorld 2000) "r1").2 rfl

/-! ### Lemmas on headers and on the request builders -/

theorem find_filter_ne_self (l : List (String × String)) (k : String) :
    (l.filter (fun e => e.1 ≠ k)).find? (fun e => e.1 = k) = none := by
  induction l with
  | nil => rfl
  | cons x xs ih =>
    by_cases hx : x.1 = k
    · rw [List.filter_cons_of_neg (by simpa using hx)]
      exact ih
    · rw [List.filter_cons_of_pos (by simpa using hx),
        List.find?_cons_of_neg _ (by simpa using hx)]
      exact ih

theorem find_filter_ne_other (l : List (String × String)) (k k2 : String) (h : k ≠ k2) :
    (l.filter (fun e => e.1 ≠ k)).find? (fun e => e.1 = k2) =
      l.find? (fun e => e.1 = k2) := by
  induction l with
  | nil => rfl
  | cons x xs ih =>
    by_cases hx : x.1 = k
    · have hx2 : ¬ x.1 = k2 := fun h2 => h (hx.symm.trans h2)
      rw [List.filter_cons_of_neg (by simpa using hx),
        List.find?_cons_of_neg _ (by simpa using hx2)]
      exact ih
    · rw [List.filter_cons_of_pos (by simpa using hx)]
      by_cases hx2 : x.1 = k2
      · rw [List.find?_cons_of_pos _ (by simpa using hx2),
          List.find?_cons_of_pos _ (by simpa using hx2)]
      · rw [List.find?_cons_of_neg _ (by simpa using hx2),
          List.find?_cons_of_neg _ (by simpa using hx2)]
        exact ih

theorem Header.get_empty (key : String) : Header.get {} key = none := rfl

theorem Header.get_set_self (h : Header) (key value : String) :
    (h.set key value).get key = some value := by
  simp only [Header.get, Header.set, List.find?_append, find_filter_ne_self]
  simp

theorem Header.get_set_other (h : Header) (key key2 value : String)
    (hne : canonicalMIMEHeaderKey key ≠ canonicalMIMEHeaderKey key2) :
    (h.set key value).get key2 = h.get key2 := by
  simp only [Header.get, Header.set, List.find?_append, find_filter_ne_other _ _ _ hne]
  rw [List.find?_cons_of_neg _ (by simpa using hne)]
  simp

/-- The form post of `refreshToken` carries no `Authorization` header. -/
theorem postFormRequest_no_authorization (env : Env) (url : String) (data : Values) :
    (postFormRequest env url data).header.get "Authorization" = none := by
  simp only [postFormRequest]
  rw [Header.get_set_other _ _ _ _ (by decide), Header.get_empty]

/-- Headers of the request built by `webhookDo`. -/
theorem webhookDoRequest_header (env : Env) (method endpoint : String)
    (payload : Option Payload) (req : Request)
    (h : webhookDoRequest env method endpoint payload = .ok req) :
    req.header.get "Authorization" = none ∧
    req.header.get "x-client-id" = some env.config.ClientID ∧
    req.header.get "x-client-secret" = some env.config.ClientSecret := by
  cases payload with
  | none =>
    simp only [webhookDoRequest, newRequest] at h
    cases hn : env.newRequestErr method (webhookBase ++ endpoint) with
    | some err => simp [hn] at h
    | none =>
      simp only [hn, Except.ok.injEq] at h
      subst h
      simp only [Option.isSome_none, Bool.false_eq_true, if_false]
      refine ⟨?_, ?_, ?_⟩
      · rw [Header.get_set_other _ _ _ _ (by decide), Header.get_set_other _ _ _ _ (by decide),
          Header.get_empty]
      · rw [Header.get_set_other _ _ _ _ (by decide), Header.get_set_self]
      · rw [Header.get_set_self]
  | some p =>
    simp only [webhookDoRequest, newRequest] at h
    cases hm : env.marshal p with
    | error err => simp [hm] at h
    | ok b =>
      cases hn : env.newRequestErr method (webhookBase ++ endpoint) with
      | some err => simp [hm, hn] at h
      | none =>
        simp only [hm, hn, Except.ok.injEq] at h
        subst h
        simp only [Option.isSome_some, if_true]
        refine ⟨?_, ?_, ?_⟩
        · rw [Header.get_set_other _ _ _ _ (by decide),
            Header.get_set_other _ _ _ _ (by decide),
            Header.get_set_other _ _ _ _ (by decide), Header.get_empty]
        · rw [Header.get_set_other _ _ _ _ (by decide),
            Header.get_set_other _ _ _ _ (by decide), Header.get_set_self]
        · rw [Header.get_set_other _ _ _ _ (by decide), Header.get_set_self]

/-- The request built by `apiGet` carries the bearer token. -/
theorem apiGetRequest_header (env : Env) (token endpoint : String) (params : Values)
    (req : Request) (h : apiGetRequest env token endpoint params = .ok req) :
    req.header.get "Authorization" = some ("Bearer " ++ token) := by
  unfold apiGetRequest at h
  simp only at h
  split at h
  · simp at h
  · injection h with h
    subst h
    exact Header.get_set_self _ _ _

/-- Effects of `webhookDo`: the built request is sent, and nothing else happens. -/
theorem webhookDo_events (env : Env) (w : World) (method endpoint : String)
    (payload : Option Payload) :
    eventsSince w (webhookDo env w method endpoint payload).2 =
      match webhookDoRequest env method endpoint payload with
      | .error _ => []
      | .ok req => [Event.send req] := by
  unfold webhookDo
  cases hreq : webhookDoRequest env method endpoint payload with
  | error err => exact eventsSince_append w _ [] (by simp)
  | ok req =>
    apply eventsSince_append
    simp only [clientDo]
    cases hrt : env.roundTrip req with
    | error err => rfl
    | ok resp =>
      cases hre : resp.readErr with
      | some err => simp [hre]
      | none =>
        by_cases hs : resp.status < 200 ∨ resp.status > 299
        · simp [hre, hs]
        · simp [hre, hs]

/-- Effects of `apiGet` after token acquisition: the built request is sent,
and nothing else happens. -/
theorem apiGet_events (env : Env) (w : World) (endpoint : String) (params : Values)
    (t : String) (w1 : World) (htok : getValidToken env w = (.ok t, w1)) :
    eventsSince w1 (apiGet env w endpoint params).2 =
      match apiGetRequest env t endpoint params with
      | .error _ => []
      | .ok req => [Event.send req] := by
  simp only [apiGet, htok]
  cases hreq : apiGetRequest env t endpoint params with
  | error err => exact eventsSince_append w1 _ [] (by simp)
  | ok req =>
    apply eventsSince_append
    simp only [clientDo]
    cases hrt : env.roundTrip req with
    | error err => rfl
    | ok resp =>
      cases hre : resp.readErr with
      | some err => simp [hre]
      | none =>
        by_cases hs : resp.status = 200
        · simp [hre, hs]
        · simp [hre, hs]

/-- When `getValidToken` fails, the only request it can have sent is the
refresh post. -/
theorem getValidToken_error_events (env : Env) (w : World) (e : String) (w1 : World)
    (h : getValidToken env w = (.error e, w1)) (req : Request)
    (hmem : Event.send req ∈ eventsSince w w1) :
    ∃ t, w.tokenFile = TokenFile.stored t ∧
      req = postFormRequest env tokenURL (refreshForm env t.RefreshToken) := by
  cases hf : w.tokenFile with
  | missing =>
    rw [getValidToken_no_token env w (Or.inl hf)] at h
    injection h with _ h2
    subst h2
    simp [eventsSince] at hmem
  | malformed =>
    rw [getValidToken_no_token env w (Or.inr hf)] at h
    injection h with _ h2
    subst h2
    simp [eventsSince] at hmem
  | stored t =>
    refine ⟨t, rfl, ?_⟩
    by_cases hc : w.clock + 5 * Minute > t.ExpiresAt
    · obtain ⟨rest, hrest, hw⟩ := (getValidToken_events env w t hf).2 hc
      rw [h] at hrest
      rw [hrest, List.mem_cons] at hmem
      rcases hmem with hm | hm
      · injection hm
      · obtain ⟨t2, ht2⟩ := hw _ hm
        cases ht2
    · rw [getValidToken_fresh env w t hf hc] at h
      injection h with h1 _
      cases h1

/-! ### Claims on the request dispatchers -/

/-- C7 (as stated, refuted): `apiGet` can issue a request although
`getValidToken` fails. With a stale stored token and a token endpoint that
answers 500, the refresh post goes out, `getValidToken` fails, and the effects
of `apiGet` consist of that one request. -/
theorem apiGet_request_counterexample :
    (getValidToken (exampleEnv 500 200 "{}" 3600) (exampleWorld 1000)).1 =
      .error "token refresh failed - run 'oura auth' again: token refresh failed: denied" ∧
    eventsSince (exampleWorld 1000)
      (apiGet (exampleEnv 500 200 "{}" 3600) (exampleWorld 1000) "/sleep" {}).2 =
      [Event.send ⟨"POST", "https://api.ouraring.com/oauth/token",
        ⟨[("Content-Type", "application/x-www-form-urlencoded")]⟩,
        some "grant_type=refresh_token&refresh_token=r1&client_id=cid&client_secret=sec"⟩] ∧
    ¬ ∀ (env : Env) (w : World) (endpoint : String) (params : Values) (e : String)
        (w1 : World), getValidToken env w = (.error e, w1) →
        ∀ req, Event.send req ∉ eventsSince w (apiGet env w endpoint params).2 := by
  refine ⟨rfl, by decide, ?_⟩
  intro hall
  have h := hall (exampleEnv 500 200 "{}" 3600) (exampleWorld 1000) "/sleep" {}
    "token refresh failed - run 'oura auth' again: token refresh failed: denied"
    (getValidToken (exampleEnv 500 200 "{}" 3600) (exampleWorld 1000)).2 rfl
    (postFormRequest (exampleEnv 500 200 "{}" 3600) tokenURL
      (refreshForm (exampleEnv 500 200 "{}" 3600) "r1"))
  revert h
  decide

/-- C7 (amended): every request built by `webhookDo` carries no `Authorization`
header and carries `x-client-id` and `x-client-secret` equal to the loaded
credentials, and it is the one request `webhookDo` sends. Every request built
by `apiGet` carries `Authorization: Bearer t` for the token `t` returned by
`getValidToken`, and it is the one request `apiGet` sends after token
acquisition. When `getValidToken` fails, `apiGet` returns that error and adds
no effect of its own: the only request that can have gone out is the refresh
post of `getValidToken`, which carries no `Authorization` header. -/
theorem request_credentials (env : Env) (w : World) :
    (∀ method endpoint payload req,
      webhookDoRequest env method endpoint payload = .ok req →
        req.header.get "Authorization" = none ∧
        req.header.get "x-client-id" = some env.config.ClientID ∧
        req.header.get "x-client-secret" = some env.config.ClientSecret ∧
        eventsSince w (webhookDo env w method endpoint payload).2 = [Event.send req]) ∧
    (∀ method endpoint payload req,
      Event.send req ∈ eventsSince w (webhookDo env w method endpoint payload).2 →
        req.header.get "Authorization" = none ∧
        req.header.get "x-client-id" = some env.config.ClientID ∧
        req.header.get "x-client-secret" = some env.config.ClientSecret) ∧
    (∀ endpoint params t w1, getValidToken env w = (.ok t, w1) →
      (∀ req, apiGetRequest env t endpoint params = .ok req →
        req.header.get "Authorization" = some ("Bearer " ++ t) ∧
        eventsSince w1 (apiGet env w endpoint params).2 = [Event.send req]) ∧
      (∀ req, Event.send req ∈ eventsSince w1 (apiGet env w endpoint params).2 →
        req.header.get "Authorization" = some ("Bearer " ++ t))) ∧
    (∀ endpoint params e w1, getValidToken env w = (.error e, w1) →
      apiGet env w endpoint params = (.error e, w1) ∧
      (∀ req, Event.send req ∈ eventsSince w (apiGet env w endpoint params).2 →
        req.header.get "Authorization" = none ∧
        ∃ t, w.tokenFile = TokenFile.stored t ∧
          req = postFormRequest env tokenURL (refreshForm env t.RefreshToken))) := by
  refine ⟨?_, ?_, ?_, ?_⟩
  · intro method endpoint payload req hreq
    obtain ⟨h1, h2, h3⟩ := webhookDoRequest_header env method endpoint payload req hreq
    refine ⟨h1, h2, h3, ?_⟩
    rw [webhookDo_events, hreq]
  · intro method endpoint payload req hmem
    rw [webhookDo_events] at hmem
    cases hreq : webhookDoRequest env method endpoint payload with
    | error err => simp [hreq] at hmem
    | ok r =>
      simp only [hreq, List.mem_singleton, Event.send.injEq] at hmem
      subst hmem
      exact webhookDoRequest_header env method endpoint payload req hreq
  · intro endpoint params t w1 htok
    constructor
    · intro req hreq
      refine ⟨apiGetRequest_header env t endpoint params req hreq, ?_⟩
      rw [apiGet_events env w endpoint params t w1 htok, hreq]
    · intro req hmem
      rw [apiGet_events env w endpoint params t w1 htok] at hmem
      cases hreq : apiGetRequest env t endpoint params with
      | error err => simp [hreq] at hmem
      | ok r =>
        simp only [hreq, List.mem_singleton, Event.send.injEq] at hmem
        subst hmem
        exact apiGetRequest_header env t endpoint params req hreq
  · intro endpoint params e w1 herr
    have hap : apiGet env w endpoint params = (.error e, w1) := by
      simp only [apiGet, herr]
    refine ⟨hap, ?_⟩
    intro req hmem
    rw [hap] at hmem
    obtain ⟨t, ht, hreq⟩ := getValidToken_error_events env w e w1 herr req hmem
    refine ⟨?_, t, ht, hreq⟩
    rw [hreq]
    exact postFormRequest_no_authorization env tokenURL _

theorem request_credentials_witness :
    ((⟨"PUT", "https://api.ouraring.com/v2/webhook/subscription/x",
        ⟨[("X-Client-Id", "cid"), ("X-Client-Secret", "sec")]⟩, none⟩ : Request).header.get
        "Authorization" = none ∧
      (⟨"PUT", "https://api.ouraring.com/v2/webhook/subscription/x",
        ⟨[("X-Client-Id", "cid"), ("X-Client-Secret", "sec")]⟩, none⟩ : Request).header.get
        "x-client-id" = some (exampleEnv 200 200 "{}" 3600).config.ClientID ∧
      (⟨"PUT", "https://api.ouraring.com/v2/webhook/subscription/x",
        ⟨[("X-Client-Id", "cid"), ("X-Client-Secret", "sec")]⟩, none⟩ : Request).header.get
        "x-client-secret" = some (exampleEnv 200 200 "{}" 3600).config.ClientSecret ∧
      eventsSince (exampleWorld 1000)
        (webhookDo (exampleEnv 200 200 "{}" 3600) (exampleWorld 1000) "PUT"
          "/subscription/x" none).2 =
        [Event.send ⟨"PUT", "https://api.ouraring.com/v2/webhook/subscription/x",
          ⟨[("X-Client-Id", "cid"), ("X-Client-Secret", "sec")]⟩, none⟩]) ∧
    ((⟨"GET", "https://api.ouraring.com/v2/usercollection/sleep",
        ⟨[("Authorization", "Bearer a2")]⟩, none⟩ : Request).header.get "Authorization" =
        some ("Bearer " ++ "a2") ∧
      eventsSince (getValidToken (exampleEnv 200 200 "{}" 3600) (exampleWorld 1000)).2
        (apiGet (exampleEnv 200 200 "{}" 3600) (exampleWorld 1000) "/sleep" {}).2 =
        [Event.send ⟨"GET", "https://api.ouraring.com/v2/usercollection/sleep",
          ⟨[("Authorization", "Bearer a2")]⟩, none⟩]) ∧
    apiGet (exampleEnv 500 200 "{}" 3600) (exampleWorld 1000) "/sleep" {} =
      (.error "token refresh failed - run 'oura auth' again: token refresh failed: denied",
        (getValidToken (exampleEnv 500 200 "{}" 3600) (exampleWorld 1000)).2) :=
  ⟨(request_credentials (exampleEnv 200 200 "{}" 3600) (exampleWorld 1000)).1
      "PUT" "/subscription/x" none _ rfl,
    ((request_credentials (exampleEnv 200 200 "{}" 3600) (exampleWorld 1000)).2.2.1
      "/sleep" {} "a2" _ rfl).1 _ rfl,
    ((request_credentials (exampleEnv 500 200 "{}" 3600) (exampleWorld 1000)).2.2.2
      "/sleep" {} _ _ rfl).1⟩

/-- What `trimSpace` returns: the input with a run of white space removed at
each end, the result neither starting nor ending with white space. -/
theorem trimSpace_spec (b : String) :
    ∃ pre post, b.data = pre ++ (trimSpace b).data ++ post ∧
      pre.all isSpace = true ∧ post.all isSpace = true ∧
      (∀ c, (trimSpace b).data.head? = some c → isSpace c = false) ∧
      (∀ c, (trimSpace b).data.getLast? = some c → isSpace c = false) := by
  have hmid : (trimSpace b).data =
      ((b.data.dropWhile isSpace).reverse.dropWhile isSpace).reverse := rfl
  have hsplit : b.data.dropWhile isSpace =
      ((b.data.dropWhile isSpace).reverse.dropWhile isSpace).reverse ++
        ((b.data.dropWhile isSpace).reverse.takeWhile isSpace).reverse := by
    rw [← List.reverse_append, List.takeWhile_append_dropWhile, List.reverse_reverse]
  refine ⟨b.data.takeWhile isSpace,
    ((b.data.dropWhile isSpace).reverse.takeWhile isSpace).reverse, ?_, ?_, ?_, ?_, ?_⟩
  · rw [hmid, List.append_assoc, ← hsplit, List.takeWhile_append_dropWhile]
  · exact List.all_takeWhile
  · rw [List.all_reverse]
    exact List.all_takeWhile
  · intro c hc
    rw [hmid] at hc
    have hd := List.head?_dropWhile_not isSpace b.data
    rw [hsplit] at hd
    cases hm : ((b.data.dropWhile isSpace).reverse.dropWhile isSpace).reverse with
    | nil => rw [hm] at hc; cases hc
    | cons x xs =>
      rw [hm] at hc hd
      simp only [List.head?_cons, Option.some.injEq] at hc
      subst hc
      simpa using hd
  · intro c hc
    rw [hmid, List.getLast?_reverse] at hc
    have hd := List.head?_dropWhile_not isSpace (b.data.dropWhile isSpace).reverse
    rw [hc] at hd
    simpa using hd

/-- C8: given a token and a completed exchange with status `s` and body `b`,
`apiGet` returns `b` unchanged exactly when `s = 200`; for every other status
it fails with the message `API error <s>: <b>`, the body untrimmed. -/
theorem apiGet_status (env : Env) (w : World) (endpoint : String) (params : Values)
    (t : String) (w1 : World) (req : Request) (s : Int) (b : String)
    (htok : getValidToken env w = (.ok t, w1))
    (hreq : apiGetRequest env t endpoint params = .ok req)
    (hresp : env.roundTrip req = .ok { status := s, body := b, readErr := none }) :
    ((apiGet env w endpoint params).1 = .ok b ↔ s = 200) ∧
    ((∃ r, (apiGet env w endpoint params).1 = .ok r) ↔ s = 200) ∧
    (s ≠ 200 → (apiGet env w endpoint params).1 =
      .error ("API error " ++ toString s ++ ": " ++ b)) := by
  have hval : (apiGet env w endpoint params).1 =
      if s ≠ 200 then .error ("API error " ++ toString s ++ ": " ++ b) else .ok b := by
    simp only [apiGet, htok, hreq, clientDo, hresp]
    by_cases hs : s = 200 <;> simp [hs]
  by_cases hs : s = 200
  · rw [hval]
    simp [hs]
  · rw [hval]
    simp [hs]

theorem apiGet_status_witness :
    ((apiGet (exampleEnv 200 204 " no content\n" 3600) (exampleWorld 1000) "/sleep" {}).1 =
        .ok " no content\n" ↔ (204 : Int) = 200) ∧
    ((∃ r, (apiGet (exampleEnv 200 204 " no content\n" 3600) (exampleWorld 1000) "/sleep"
        {}).1 = .ok r) ↔ (204 : Int) = 200) ∧
    ((204 : Int) ≠ 200 →
      (apiGet (exampleEnv 200 204 " no content\n" 3600) (exampleWorld 1000) "/sleep" {}).1 =
        .error ("API error " ++ toString (204 : Int) ++ ": " ++ " no content\n")) :=
  apiGet_status (exampleEnv 200 204 " no content\n" 3600) (exampleWorld 1000) "/sleep" {}
    "a2" (getValidToken (exampleEnv 200 204 " no content\n" 3600) (exampleWorld 1000)).2
    ⟨"GET", "https://api.ouraring.com/v2/usercollection/sleep",
      ⟨[("Authorization", "Bearer a2")]⟩, none⟩ 204 " no content\n" rfl rfl rfl

/-- C9: for a completed exchange with status `s` and body `b`, `webhookDo`
returns an error exactly when `s < 200` or `s > 299`; the message is then
`API error <s>: ` followed by `b` without its leading and trailing white space,
and no body is returned. Otherwise it returns `b` unchanged with the status `s`. -/
theorem webhookDo_status (env : Env) (w : World) (method endpoint : String)
    (payload : Option Payload) (req : Request) (s : Int) (b : String)
    (hreq : webhookDoRequest env method endpoint payload = .ok req)
    (hresp : env.roundTrip req = .ok { status := s, body := b, readErr := none }) :
    ((webhookDo env w method endpoint payload).1.err ≠ none ↔ s < 200 ∨ s > 299) ∧
    (s < 200 ∨ s > 299 → (webhookDo env w method endpoint payload).1 =
      { respBody := none, status := s,
        err := some ("API error " ++ toString s ++ ": " ++ trimSpace b) }) ∧
    (¬ (s < 200 ∨ s > 299) → (webhookDo env w method endpoint payload).1 =
      { respBody := some b, status := s, err := none }) ∧
    (∃ pre post, b.data = pre ++ (trimSpace b).data ++ post ∧
      pre.all isSpace = true ∧ post.all isSpace = true ∧
      (∀ c, (trimSpace b).data.head? = some c → isSpace c = false) ∧
      (∀ c, (trimSpace b).data.getLast? = some c → isSpace c = false)) := by
  have hval : (webhookDo env w method endpoint payload).1 =
      if s < 200 ∨ s > 299 then
        { respBody := none, status := s,
          err := some ("API error " ++ toString s ++ ": " ++ trimSpace b) }
      else { respBody := some b, status := s, err := none } := by
    simp only [webhookDo, hreq, clientDo, hresp]
    by_cases hs : s < 200 ∨ s > 299 <;> simp [hs]
  refine ⟨?_, ?_, ?_, trimSpace_spec b⟩
  · rw [hval]
    by_cases hs : s < 200 ∨ s > 299 <;> simp [hs]
  · intro hs
    rw [hval, if_pos hs]
  · intro hs
    rw [hval, if_neg hs]

theorem webhookDo_status_witness :
    (webhookDo (exampleEnv 200 404 " not found\n" 3600) (exampleWorld 1000) "PUT"
        "/subscription/x" none).1 =
      { respBody := none, status := 404, err := some "API error 404: not found" } :=
  (webhookDo_status (exampleEnv 200 404 " not found\n" 3600) (exampleWorld 1000) "PUT"
    "/subscription/x" none
    ⟨"PUT", "https://api.ouraring.com/v2/webhook/subscription/x",
      ⟨[("X-Client-Id", "cid"), ("X-Client-Secret", "sec")]⟩, none⟩ 404 " not found\n"
    rfl rfl).2.1 (by decide)

/-- C10: when the remote answers the `DELETE` request with status `s`,
`webhookDelete` succeeds exactly when `s = 204`; every other status, other 2xx
statuses included, gives an error. -/
theorem webhookDelete_status (env : Env) (w : World) (id : String) (req : Request)
    (s : Int) (b : String)
    (hreq : webhookDoRequest env "DELETE" ("/subscription/" ++ env.pathEscape id) none =
      .ok req)
    (hresp : env.roundTrip req = .ok { status := s, body := b, readErr := none }) :
    ((webhookDelete env w id).1 = .ok () ↔ s = 204) ∧
    (s ≠ 204 → ∃ msg, (webhookDelete env w id).1 = .error msg) ∧
    (s ≠ 204 → ¬ (s < 200 ∨ s > 299) →
      (webhookDelete env w id).1 = .error ("unexpected status: " ++ toString s)) ∧
    req.method = "DELETE" ∧
    req.url = webhookBase ++ "/subscription/" ++ env.pathEscape id := by
  obtain ⟨_, hbad, hgood, _⟩ := webhookDo_status env w "DELETE"
    ("/subscription/" ++ env.pathEscape id) none req s b hreq hresp
  have hreq2 := hreq
  simp only [webhookDoRequest, newRequest] at hreq2
  have hmu : req.method = "DELETE" ∧
      req.url = webhookBase ++ "/subscription/" ++ env.pathEscape id := by
    cases hn : env.newRequestErr "DELETE"
        (webhookBase ++ ("/subscription/" ++ env.pathEscape id)) with
    | some err => simp [hn] at hreq2
    | none =>
      simp only [hn, Except.ok.injEq] at hreq2
      subst hreq2
      simp [String.append_assoc]
  by_cases hs : s < 200 ∨ s > 299
  · have hne : s ≠ 204 := by omega
    have hval : (webhookDelete env w id).1 =
        .error ("API error " ++ toString s ++ ": " ++ trimSpace b) := by
      simp only [webhookDelete]
      rcases hw : webhookDo env w "DELETE" ("/subscription/" ++ env.pathEscape id) none
        with ⟨r, w1⟩
      rw [hw] at hbad
      simp only at hbad
      rw [hbad hs]
    refine ⟨?_, ?_, ?_, hmu⟩
    · rw [hval]; simp [hne]
    · intro _; exact ⟨_, hval⟩
    · intro _ h2; exact absurd hs h2
  · have hval : (webhookDelete env w id).1 =
        if s ≠ 204 then .error ("unexpected status: " ++ toString s) else .ok () := by
      simp only [webhookDelete]
      rcases hw : webhookDo env w "DELETE" ("/subscription/" ++ env.pathEscape id) none
        with ⟨r, w1⟩
      rw [hw] at hgood
      simp only at hgood
      rw [hgood hs]
      by_cases h4 : s = 204 <;> simp [h4]
    refine ⟨?_, ?_, ?_, hmu⟩
    · rw [hval]
      by_cases h4 : s = 204 <;> simp [h4]
    · intro h4; exact ⟨_, by rw [hval, if_pos h4]⟩
    · intro h4 _; rw [hval, if_pos h4]

theorem webhookDelete_status_witness :
    (webhookDelete (exampleEnv 200 200 "{}" 3600) (exampleWorld 1000) "abc").1 =
      .error ("unexpected status: " ++ toString (200 : Int)) :=
  (webhookDelete_status (exampleEnv 200 200 "{}" 3600) (exampleWorld 1000) "abc"
    ⟨"DELETE", "https://api.ouraring.com/v2/webhook/subscription/abc",
      ⟨[("X-Client-Id", "cid"), ("X-Client-Secret", "sec")]⟩, none⟩ 200 "{}"
    rfl rfl).2.2.1 (by decide) (by decide)

/-! ### Lemmas on the long-flag parser -/

theorem cutChars_of_not_mem (sep : Char) (l : List Char) (h : sep ∉ l) :
    cutChars sep l = none := by
  induction l with
  | nil => rfl
  | cons c cs ih =>
    have hc : ¬ c = sep := fun e => h (by simp [e])
    have hcs : sep ∉ cs := fun e => h (List.mem_cons_of_mem _ e)
    simp [cutChars, hc, ih hcs]

theorem cutChars_append_sep (sep : Char) (l r : List Char) (h : sep ∉ l) :
    cutChars sep (l ++ sep :: r) = some (l, r) := by
  induction l with
  | nil => simp [cutChars]
  | cons c cs ih =>
    have hc : ¬ c = sep := fun e => h (by simp [e])
    have hcs : sep ∉ cs := fun e => h (List.mem_cons_of_mem _ e)
    simp [cutChars, hc, ih hcs]

theorem cutStr_of_not_mem (n : String) (h : '=' ∉ n.data) :
    cutStr n '=' = (n, "", false) := by
  simp [cutStr, cutChars_of_not_mem _ _ h]

theorem cutStr_append_eq (n v : String) (h : '=' ∉ n.data) :
    cutStr (n ++ "=" ++ v) '=' = (n, v, true) := by
  have hd : (n ++ "=" ++ v).data = n.data ++ '=' :: v.data := by
    simp [String.data_append]
  simp [cutStr, hd, cutChars_append_sep _ _ _ h]

theorem hasPrefixStr_dashes (n : String) : hasPrefixStr ("--" ++ n) "--" = true := by
  simp [hasPrefixStr, String.data_append]

theorem trimPrefixStr_dashes (n : String) : trimPrefixStr ("--" ++ n) "--" = n := by
  simp [trimPrefixStr, hasPrefixStr_dashes, String.data_append]

/-- The parser works through a prefix on which it succeeds and then continues
on the rest of the arguments from the state it has reached. -/
theorem parseLongFlagsLoop_append (env : Env) (rest : List String) :
    ∀ (k : Nat) (a : List String) (f : Flags) (p : List String) (f2 : Flags)
      (p2 : List String), a.length = k →
      parseLongFlagsLoop env f p a = .ok (f2, p2) →
      parseLongFlagsLoop env f p (a ++ rest) = parseLongFlagsLoop env f2 p2 rest := by
  intro k
  induction k using Nat.strong_induction_on with
  | _ k ih =>
    intro a f p f2 p2 hk h
    match a, hk with
    | [], _ =>
      simp only [parseLongFlagsLoop, Except.ok.injEq, Prod.mk.injEq] at h
      obtain ⟨h1, h2⟩ := h
      subst h1 h2
      rfl
    | x :: xs, hk =>
      simp only [List.length_cons] at hk
      simp only [List.cons_append]
      rw [parseLongFlagsLoop] at h
      conv_lhs => rw [parseLongFlagsLoop]
      by_cases hpre : hasPrefixStr x "--" = true
      · simp only [hpre, Bool.not_true, Bool.false_eq_true, if_false] at h ⊢
        by_cases hnv : trimPrefixStr x "--" = ""
        · simp [hnv] at h
        · simp only [hnv, if_false] at h ⊢
          by_cases hcut : (cutStr (trimPrefixStr x "--") '=').2.2 = true
          · simp only [hcut, Bool.not_true, Bool.false_eq_true, if_false] at h ⊢
            exact ih xs.length (by omega) xs _ _ f2 p2 rfl h
          · simp only [hcut, Bool.not_false, if_true] at h ⊢
            match xs, hk, h with
            | [], _, h => simp at h
            | v :: ys, hk, h =>
              simp only [List.length_cons] at hk
              simp only [List.cons_append] at h ⊢
              exact ih ys.length (by omega) ys _ _ f2 p2 rfl h
      · simp only [hpre, Bool.not_false, if_true] at h ⊢
        exact ih xs.length (by omega) xs _ _ f2 p2 rfl h

theorem parseLongFlags_append (env : Env) (a rest : List String) (f : Flags)
    (p : List String) (h : parseLongFlags env a = .ok (f, p)) :
    parseLongFlags env (a ++ rest) = parseLongFlagsLoop env f p rest :=
  parseLongFlagsLoop_append env rest a.length a {} [] f p rfl h

theorem parseLongFlagsLoop_flag_value (env : Env) (f : Flags) (p : List String)
    (n v : String) (b : List String) (hn : n ≠ "") (he : '=' ∉ n.data) :
    parseLongFlagsLoop env f p (("--" ++ n) :: v :: b) =
      parseLongFlagsLoop env (f.set n v) p b := by
  rw [parseLongFlagsLoop]
  simp [hasPrefixStr_dashes, trimPrefixStr_dashes, hn, cutStr_of_not_mem n he]

theorem parseLongFlagsLoop_flag_eq (env : Env) (f : Flags) (p : List String)
    (n v : String) (b : List String) (hn : n ≠ "") (he : '=' ∉ n.data) :
    parseLongFlagsLoop env f p (("--" ++ n ++ "=" ++ v) :: b) =
      parseLongFlagsLoop env (f.set n v) p b := by
  have hne : n ++ "=" ++ v ≠ "" := by
    intro h
    apply hn
    have hd := congrArg String.data h
    simp only [String.data_append] at hd
    have hnil : n.data = [] := by
      cases hnd : n.data with
      | nil => rfl
      | cons c cs => rw [hnd] at hd; simp at hd
    exact String.ext hnil
  have hassoc : "--" ++ n ++ "=" ++ v = "--" ++ (n ++ "=" ++ v) := by
    simp [String.append_assoc]
  rw [hassoc, parseLongFlagsLoop]
  simp [hasPrefixStr_dashes, trimPrefixStr_dashes, hne, cutStr_append_eq n v he]

theorem validateEnum_ok_iff (env : Env) (n v : String) (allowed : List String) :
    validateEnum env n v allowed = .ok () ↔ v ∈ allowed := by
  induction allowed with
  | nil => simp [validateEnum]
  | cons a as ih =>
    by_cases h : v = a
    · simp [validateEnum, h]
    · simp [validateEnum, h, ih]

theorem validateEnum_error (env : Env) (n v : String) (allowed : List String)
    (h : v ∉ allowed) :
    validateEnum env n v allowed =
      .error ("invalid " ++ n ++ ": " ++ env.quote v ++ " (try: oura webhook types)") := by
  induction allowed with
  | nil => rfl
  | cons a as ih =>
    have h1 : ¬ v = a := fun e => h (by simp [e])
    have h2 : v ∉ as := fun e => h (List.mem_cons_of_mem _ e)
    simp [validateEnum, h1, ih h2]

/-! ### Claims on enum validation and on the long-flag parser -/

/-- C12: `validateEnum(n, v, L)` returns no error exactly when `v` is equal to
an element of `L` (string equality, so case matters); otherwise its message is
`invalid <n>: <v quoted> (try: oura webhook types)`. With `webhookDataTypes`
the accepted values are exactly the sixteen listed literals. -/
theorem validateEnum_spec (env : Env) (n v : String) (allowed : List String) :
    (validateEnum env n v allowed = .ok () ↔ v ∈ allowed) ∧
    (v ∉ allowed → validateEnum env n v allowed =
      .error ("invalid " ++ n ++ ": " ++ env.quote v ++ " (try: oura webhook types)")) ∧
    (validateEnum env n v webhookDataTypes = .ok () ↔
      v = "tag" ∨ v = "enhanced_tag" ∨ v = "workout" ∨ v = "session" ∨ v = "sleep" ∨
      v = "daily_sleep" ∨ v = "daily_readiness" ∨ v = "daily_activity" ∨ v = "daily_spo2" ∨
      v = "sleep_time" ∨ v = "rest_mode_period" ∨ v = "ring_configuration" ∨
      v = "daily_stress" ∨ v = "daily_cardiovascular_age" ∨ v = "daily_resilience" ∨
      v = "vo2_max") := by
  refine ⟨validateEnum_ok_iff env n v allowed, validateEnum_error env n v allowed, ?_⟩
  rw [validateEnum_ok_iff]
  simp [webhookDataTypes]

theorem validateEnum_spec_witness :
    validateEnum (exampleEnv 200 200 "{}" 3600) "data_type" "Sleep" webhookDataTypes =
      .error "invalid data_type: \"Sleep\" (try: oura webhook types)" :=
  (validateEnum_spec (exampleEnv 200 200 "{}" 3600) "data_type" "Sleep"
    webhookDataTypes).2.1 (by decide)

/-- C13: the two spellings of a long flag are equivalent. After any arguments
`a` that parse, and before any arguments `b`, `--n v` and `--n=v` give the same
result (flags, positionals or error), for a non-empty name `n` without `=`. -/
theorem parseLongFlags_grammars_agree (env : Env) (a b : List String) (n v : String)
    (f : Flags) (p : List String) (ha : parseLongFlags env a = .ok (f, p))
    (hn : n ≠ "") (he : '=' ∉ n.data) :
    parseLongFlags env (a ++ ["--" ++ n, v] ++ b) =
      parseLongFlags env (a ++ ["--" ++ n ++ "=" ++ v] ++ b) := by
  rw [List.append_assoc, List.append_assoc, parseLongFlags_append env a _ f p ha,
    parseLongFlags_append env a _ f p ha]
  simp only [List.cons_append, List.nil_append]
  rw [parseLongFlagsLoop_flag_value env f p n v b hn he,
    parseLongFlagsLoop_flag_eq env f p n v b hn he]

theorem parseLongFlags_grammars_agree_witness :
    parseLongFlags (exampleEnv 200 200 "{}" 3600)
        (["x", "--end-date=2024-05-02"] ++ ["--" ++ "start-date", "2024-05-01"] ++ ["y"]) =
      parseLongFlags (exampleEnv 200 200 "{}" 3600)
        (["x", "--end-date=2024-05-02"] ++ ["--" ++ "start-date" ++ "=" ++ "2024-05-01"] ++
          ["y"]) :=
  parseLongFlags_grammars_agree (exampleEnv 200 200 "{}" 3600) ["x", "--end-date=2024-05-02"]
    ["y"] "start-date" "2024-05-01" ⟨[("end-date", "2024-05-02")]⟩ ["x"] rfl
    (by decide) (by decide)

/-- C14 (as stated, refuted): a token `--=v` in flag position is accepted. It
stores `v` under the empty flag name; no parse error is returned. -/
theorem parseLongFlags_empty_name_counterexample :
    parseLongFlags (exampleEnv 200 200 "{}" 3600) ["--=v"] = .ok (⟨[("", "v")]⟩, []) ∧
    ¬ ∀ (env : Env) (a b : List String) (v : String) (f : Flags) (p : List String),
        parseLongFlags env a = .ok (f, p) →
        ∃ msg, parseLongFlags env (a ++ ["--=" ++ v] ++ b) = .error msg := by
  refine ⟨rfl, ?_⟩
  intro hall
  obtain ⟨msg, hmsg⟩ := hall (exampleEnv 200 200 "{}" 3600) [] [] "v" {} [] rfl
  have h : parseLongFlags (exampleEnv 200 200 "{}" 3600) ([] ++ ["--=" ++ "v"] ++ []) =
      .ok (⟨[("", "v")]⟩, []) := rfl
  rw [h] at hmsg
  cases hmsg

/-- C14 (amended): a token that is exactly `--`, read in flag position, makes
`parseLongFlags` return the error `invalid flag: "--"` (rendered by `%q`) and
no flags. A token `--=v` is not rejected: it assigns `v` to the empty flag name
and parsing goes on with the remaining arguments. -/
theorem parseLongFlags_empty_name (env : Env) (a b : List String) (v : String)
    (f : Flags) (p : List String) (ha : parseLongFlags env a = .ok (f, p)) :
    parseLongFlags env (a ++ ["--"] ++ b) = .error ("invalid flag: " ++ env.quote "--") ∧
    parseLongFlags env (a ++ ["--=" ++ v] ++ b) = parseLongFlagsLoop env (f.set "" v) p b ∧
    parseLongFlags env (a ++ ["--=" ++ v]) = .ok (f.set "" v, p) := by
  have hloop : ∀ rest, parseLongFlagsLoop env f p (("--=" ++ v) :: rest) =
      parseLongFlagsLoop env (f.set "" v) p rest := by
    intro rest
    have hne : "=" ++ v ≠ "" := by
      intro h
      have hd := congrArg String.data h
      simp [String.data_append] at hd
    have hcut : cutStr ("=" ++ v) '=' = ("", v, true) := by
      simp [cutStr, cutChars, String.data_append]
    have hassoc : "--=" ++ v = "--" ++ ("=" ++ v) := by
      rw [← String.append_assoc]; rfl
    rw [hassoc, parseLongFlagsLoop]
    simp [hasPrefixStr_dashes, trimPrefixStr_dashes, hne, hcut]
  refine ⟨?_, ?_, ?_⟩
  · rw [List.append_assoc, parseLongFlags_append env a _ f p ha]
    simp only [List.cons_append, List.nil_append]
    rw [parseLongFlagsLoop]
    have h1 : hasPrefixStr "--" "--" = true := by decide
    have h2 : trimPrefixStr "--" "--" = "" := by decide
    simp [h1, h2]
  · rw [List.append_assoc, parseLongFlags_append env a _ f p ha]
    simp only [List.cons_append, List.nil_append]
    exact hloop b
  · rw [parseLongFlags_append env a _ f p ha, hloop []]
    rfl

theorem parseLongFlags_empty_name_witness :
    parseLongFlags (exampleEnv 200 200 "{}" 3600) (["x", "--a=b"] ++ ["--"] ++ ["--c", "d"]) =
      .error ("invalid flag: " ++ (exampleEnv 200 200 "{}" 3600).quote "--") :=
  (parseLongFlags_empty_name (exampleEnv 200 200 "{}" 3600) ["x", "--a=b"] ["--c", "d"] "v"
    ⟨[("a", "b")]⟩ ["x"] rfl).1

/-- C15: a flag without `=` and without a following token is a parse error.
After any arguments `a` that parse, a final `--n` (non-empty `n` without `=`)
gives the error `flag "--n" requires a value` (the flag rendered by `%q`), and
neither flags nor positionals. -/
theorem parseLongFlags_missing_value (env : Env) (a : List String) (n : String)
    (f : Flags) (p : List String) (ha : parseLongFlags env a = .ok (f, p))
    (hn : n ≠ "") (he : '=' ∉ n.data) :
    parseLongFlags env (a ++ ["--" ++ n]) =
      .error ("flag " ++ env.quote ("--" ++ n) ++ " requires a value") := by
  rw [parseLongFlags_append env a _ f p ha, parseLongFlagsLoop]
  simp [hasPrefixStr_dashes, trimPrefixStr_dashes, hn, cutStr_of_not_mem n he]

theorem parseLongFlags_missing_value_witness :
    parseLongFlags (exampleEnv 200 200 "{}" 3600) (["x", "--a=b"] ++ ["--" ++ "start-date"]) =
      .error "flag \"--start-date\" requires a value" :=
  parseLongFlags_missing_value (exampleEnv 200 200 "{}" 3600) ["x", "--a=b"] "start-date"
    ⟨[("a", "b")]⟩ ["x"] rfl (by decide) (by decide)

/-! ### Lemmas on the webhook handlers -/

theorem eventsSince_self (w : World) : eventsSince w w = [] := by
  simp [eventsSince]

theorem Flags.get_set (f : Flags) (n v k : String) :
    (f.set n v).get k = if k = n then some v else f.get k := by
  by_cases h : k = n
  · subst h
    simp only [Flags.get, Flags.set, List.find?_append, find_filter_ne_self, if_true]
    simp
  · have h2 : n ≠ k := fun e => h e.symm
    simp only [Flags.get, Flags.set, List.find?_append, find_filter_ne_other _ _ _ h2, if_neg h]
    rw [List.find?_cons_of_neg _ (by simpa using h2)]
    simp

/-- A non-empty result of `firstFlag` is the value stored under one of the keys. -/
theorem firstFlag_ne_empty (flags : Flags) (keys : List String)
    (h : firstFlag flags keys ≠ "") :
    ∃ k ∈ keys, flags.get k = some (firstFlag flags keys) := by
  induction keys with
  | nil => exact absurd rfl h
  | cons k ks ih =>
    cases hk : flags.get k with
    | some v =>
      refine ⟨k, List.mem_cons_self _ _, ?_⟩
      simp [firstFlag, hk]
    | none =>
      have h2 : firstFlag flags (k :: ks) = firstFlag flags ks := by simp [firstFlag, hk]
      rw [h2] at h ⊢
      obtain ⟨k2, hk2, hv⟩ := ih h
      exact ⟨k2, List.mem_cons_of_mem _ hk2, hv⟩

/-- Log of `webhookDo`: the built request is appended, and nothing else. -/
theorem webhookDo_log (env : Env) (w : World) (method endpoint : String)
    (payload : Option Payload) :
    (webhookDo env w method endpoint payload).2.log = w.log ++
      match webhookDoRequest env method endpoint payload with
      | .error _ => []
      | .ok req => [Event.send req] := by
  unfold webhookDo
  cases hreq : webhookDoRequest env method endpoint payload with
  | error err => simp
  | ok req =>
    simp only [clientDo]
    cases hrt : env.roundTrip req with
    | error err => rfl
    | ok resp =>
      cases hre : resp.readErr with
      | some err => simp [hre]
      | none =>
        by_cases hs : resp.status < 200 ∨ resp.status > 299
        · simp [hre, hs]
        · simp [hre, hs]

/-- Log of `writeJSON`: only prints are appended. -/
theorem writeJSON_log (w : World) (body : String) :
    ∃ l, (writeJSON w body).log = w.log ++ l ∧ ∀ e ∈ l, ∃ t, e = Event.print t := by
  unfold writeJSON
  by_cases h : body.data.length = 0 ∨ body.data.getLast? ≠ some '\n'
  · exact ⟨[Event.print body, Event.print "\n"], by simp only [if_pos h]; simp, by simp⟩
  · exact ⟨[Event.print body], by simp only [if_neg h]; simp, by simp⟩

/-- Log of `webhookReport`: only prints are appended. -/
theorem webhookReport_log (env : Env) (w : World) (opts : Options) (title body : String) :
    ∃ l, (webhookReport env w opts title body).2.log = w.log ++ l ∧
      ∀ e ∈ l, ∃ t, e = Event.print t := by
  unfold webhookReport
  by_cases hj : opts.JSON = true
  · simp only [hj, if_true]
    exact writeJSON_log w body
  · simp only [hj, if_false]
    cases hd : env.decodeSubscription body with
    | error err => exact ⟨[], by simp, by simp⟩
    | ok s => exact ⟨printSubscription title s, by simp, by simp [printSubscription]⟩

/-- The part of `webhookCreate` and `webhookUpdate` after validation: the
request goes through `webhookDo` and the answer is reported. -/
theorem webhookSend_log (env : Env) (w : World) (opts : Options) (method endpoint title : String)
    (payload : Option Payload) :
    ∃ l, ((match webhookDo env w method endpoint payload with
        | (r, w1) =>
          match r.err with
          | some err => ((.error err : Except String Unit), w1)
          | none => webhookReport env w1 opts title (r.respBody.getD "")).2).log =
      (w.log ++
        match webhookDoRequest env method endpoint payload with
        | .error _ => []
        | .ok req => [Event.send req]) ++ l ∧
      ∀ e ∈ l, ∃ t, e = Event.print t := by
  have hlog := webhookDo_log env w method endpoint payload
  rcases hdo : webhookDo env w method endpoint payload with ⟨r, w1⟩
  rw [hdo] at hlog
  simp only at hlog ⊢
  cases he : r.err with
  | some err => exact ⟨[], by simp [hlog], by simp⟩
  | none =>
    obtain ⟨l, hl, hp⟩ := webhookReport_log env w1 opts title (r.respBody.getD "")
    exact ⟨l, by rw [hl, hlog], hp⟩

theorem webhookDoRequest_method_url (env : Env) (method endpoint : String)
    (payload : Option Payload) (req : Request)
    (h : webhookDoRequest env method endpoint payload = .ok req) :
    req.method = (if method = "" then "GET" else method) ∧
    req.url = webhookBase ++ endpoint := by
  cases payload with
  | none =>
    simp only [webhookDoRequest, newRequest] at h
    cases hn : env.newRequestErr method (webhookBase ++ endpoint) with
    | some err => simp [hn] at h
    | none =>
      simp only [hn, Except.ok.injEq] at h
      subst h
      exact ⟨rfl, rfl⟩
  | some p =>
    simp only [webhookDoRequest, newRequest] at h
    cases hm : env.marshal p with
    | error err => simp [hm] at h
    | ok b =>
      cases hn : env.newRequestErr method (webhookBase ++ endpoint) with
      | some err => simp [hm, hn] at h
      | none =>
        simp only [hm, hn, Except.ok.injEq] at h
        subst h
        exact ⟨rfl, rfl⟩

/-- What `webhookCreate` does on complete flags: it calls `webhookDo` with the
`POST` of the payload and reports the answer. -/
theorem webhookCreate_of_complete (env : Env) (w : World) (args : List String)
    (opts : Options) (flags : Flags) (hp : parseLongFlags env args = .ok (flags, []))
    (hc : createFlagsComplete flags) :
    webhookCreate env w args opts =
      match webhookDo env w "POST" "/subscription" (some (createPayload flags)) with
      | (r, w1) =>
        match r.err with
        | some err => (.error err, w1)
        | none =>
          webhookReport env w1 opts "Created webhook subscription" (r.respBody.getD "") := by
  obtain ⟨h1, h2, h3, h4, h5, h6⟩ := hc
  have he := (validateEnum_ok_iff env "event_type" _ webhookOperations).2 h5
  have hd := (validateEnum_ok_iff env "data_type" _ webhookDataTypes).2 h6
  simp only [webhookCreate, hp, List.length_nil, ne_eq, not_true_eq_false, if_false,
    h1, h2, h3, h4, or_self, he, hd, createPayload]

/-- What `webhookCreate` does on anything else: an error, and the world is
left as it was. -/
theorem webhookCreate_of_incomplete (env : Env) (w : World) (args : List String)
    (opts : Options)
    (hn : ¬ ∃ flags, parseLongFlags env args = .ok (flags, []) ∧ createFlagsComplete flags) :
    (∃ msg, (webhookCreate env w args opts).1 = .error msg) ∧
    (webhookCreate env w args opts).2 = w := by
  unfold webhookCreate
  cases hp : parseLongFlags env args with
  | error err => exact ⟨⟨err, rfl⟩, rfl⟩
  | ok fp =>
    obtain ⟨flags, pos⟩ := fp
    by_cases hpos : pos.length ≠ 0
    · simp only []
      rw [if_pos hpos]
      exact ⟨⟨_, rfl⟩, rfl⟩
    · have hnil : pos = [] := by
        cases pos with
        | nil => rfl
        | cons x xs => simp at hpos
      subst hnil
      simp only []
      rw [if_neg hpos]
      by_cases hempty : firstFlag flags ["callback-url", "callback_url"] = "" ∨
          firstFlag flags ["verification-token", "verification_token"] = "" ∨
          firstFlag flags ["event-type", "event_type"] = "" ∨
          firstFlag flags ["data-type", "data_type"] = ""
      · rw [if_pos hempty]
        exact ⟨⟨_, rfl⟩, rfl⟩
      · rw [if_neg hempty]
        have hne : firstFlag flags ["callback-url", "callback_url"] ≠ "" ∧
            firstFlag flags ["verification-token", "verification_token"] ≠ "" ∧
            firstFlag flags ["event-type", "event_type"] ≠ "" ∧
            firstFlag flags ["data-type", "data_type"] ≠ "" := by
          refine ⟨?_, ?_, ?_, ?_⟩ <;> intro h <;> exact hempty (by simp [h])
        by_cases hev : firstFlag flags ["event-type", "event_type"] ∈ webhookOperations
        · by_cases hdt : firstFlag flags ["data-type", "data_type"] ∈ webhookDataTypes
          · exact absurd ⟨flags, hp, hne.1, hne.2.1, hne.2.2.1, hne.2.2.2, hev, hdt⟩ hn
          · rw [(validateEnum_ok_iff env "event_type" _ webhookOperations).2 hev,
              validateEnum_error env "data_type" _ webhookDataTypes hdt]
            exact ⟨⟨_, rfl⟩, rfl⟩
        · rw [validateEnum_error env "event_type" _ webhookOperations hev]
          exact ⟨⟨_, rfl⟩, rfl⟩

/-! ### Claims on the webhook handlers -/

/-- C11: `webhookCreate` sends its `POST` only when the arguments parse to
complete flags (all four fields given with non-empty values, event type among
create/update/delete, data type among the sixteen). In every other case it
returns an error and nothing has happened, in particular no HTTP call. With all
four fields present and an event type `v` outside the set, the error is
`invalid event_type: ` followed by `v` rendered by `%q` and by the hint. -/
theorem webhookCreate_guard (env : Env) (w : World) (args : List String) (opts : Options) :
    ((∃ req, Event.send req ∈ eventsSince w (webhookCreate env w args opts).2) →
      ∃ flags, parseLongFlags env args = .ok (flags, []) ∧ createFlagsComplete flags) ∧
    ((¬ ∃ flags, parseLongFlags env args = .ok (flags, []) ∧ createFlagsComplete flags) →
      (∃ msg, (webhookCreate env w args opts).1 = .error msg) ∧
      (webhookCreate env w args opts).2 = w ∧
      eventsSince w (webhookCreate env w args opts).2 = []) ∧
    (∀ flags, parseLongFlags env args = .ok (flags, []) →
      firstFlag flags ["callback-url", "callback_url"] ≠ "" →
      firstFlag flags ["verification-token", "verification_token"] ≠ "" →
      firstFlag flags ["event-type", "event_type"] ≠ "" →
      firstFlag flags ["data-type", "data_type"] ≠ "" →
      firstFlag flags ["event-type", "event_type"] ∉ webhookOperations →
      webhookCreate env w args opts =
        (.error ("invalid event_type: " ++
          env.quote (firstFlag flags ["event-type", "event_type"]) ++
          " (try: oura webhook types)"), w)) ∧
    (∀ flags req, parseLongFlags env args = .ok (flags, []) → createFlagsComplete flags →
      webhookDoRequest env "POST" "/subscription" (some (createPayload flags)) = .ok req →
      req.method = "POST" ∧ req.url = webhookBase ++ "/subscription" ∧
      ∃ prints, eventsSince w (webhookCreate env w args opts).2 = Event.send req :: prints ∧
        ∀ e ∈ prints, ∃ t, e = Event.print t) ∧
    (∀ flags, createFlagsComplete flags →
      (∃ k ∈ ["callback-url", "callback_url"], ∃ v, flags.get k = some v ∧ v ≠ "") ∧
      (∃ k ∈ ["verification-token", "verification_token"], ∃ v,
        flags.get k = some v ∧ v ≠ "") ∧
      (∃ k ∈ ["event-type", "event_type"], ∃ v, flags.get k = some v ∧ v ≠ "") ∧
      (∃ k ∈ ["data-type", "data_type"], ∃ v, flags.get k = some v ∧ v ≠ "")) := by
  have hinc := webhookCreate_of_incomplete env w args opts
  refine ⟨?_, ?_, ?_, ?_, ?_⟩
  · rintro ⟨req, hmem⟩
    by_contra hn
    rw [(hinc hn).2, eventsSince_self] at hmem
    exact absurd hmem (List.not_mem_nil _)
  · intro hn
    refine ⟨(hinc hn).1, (hinc hn).2, ?_⟩
    rw [(hinc hn).2, eventsSince_self]
  · intro flags hp h1 h2 h3 h4 hev
    have hempty : ¬ (firstFlag flags ["callback-url", "callback_url"] = "" ∨
          firstFlag flags ["verification-token", "verification_token"] = "" ∨
          firstFlag flags ["event-type", "event_type"] = "" ∨
          firstFlag flags ["data-type", "data_type"] = "") := by
      rintro (h | h | h | h)
      · exact h1 h
      · exact h2 h
      · exact h3 h
      · exact h4 h
    have hs : "invalid " ++ "event_type" ++ ": " = "invalid event_type: " := by decide
    simp only [webhookCreate, hp, List.length_nil, ne_eq, not_true_eq_false, if_false,
      hempty, validateEnum_error env "event_type" _ webhookOperations hev, hs]
  · intro flags req hp hc hreq
    obtain ⟨hm, hu⟩ := webhookDoRequest_method_url env "POST" "/subscription" _ req hreq
    refine ⟨by simpa using hm, hu, ?_⟩
    rw [webhookCreate_of_complete env w args opts flags hp hc]
    obtain ⟨l, hl, hprint⟩ := webhookSend_log env w opts "POST" "/subscription"
      "Created webhook subscription" (some (createPayload flags))
    rw [hreq] at hl
    refine ⟨l, ?_, hprint⟩
    apply eventsSince_append
    rw [hl]
    simp
  · intro flags hc
    obtain ⟨h1, h2, h3, h4, _, _⟩ := hc
    refine ⟨?_, ?_, ?_, ?_⟩
    · obtain ⟨k, hk, hv⟩ := firstFlag_ne_empty flags _ h1
      exact ⟨k, hk, _, hv, h1⟩
    · obtain ⟨k, hk, hv⟩ := firstFlag_ne_empty flags _ h2
      exact ⟨k, hk, _, hv, h2⟩
    · obtain ⟨k, hk, hv⟩ := firstFlag_ne_empty flags _ h3
      exact ⟨k, hk, _, hv, h3⟩
    · obtain ⟨k, hk, hv⟩ := firstFlag_ne_empty flags _ h4
      exact ⟨k, hk, _, hv, h4⟩

theorem webhookCreate_guard_witness :
    webhookCreate (exampleEnv 200 200 "{}" 3600) (exampleWorld 1000)
        ["--callback-url", "https://x", "--verification-token", "t", "--event-type", "bogus",
         "--data-type", "sleep"] {} =
      (.error "invalid event_type: \"bogus\" (try: oura webhook types)", exampleWorld 1000) :=
  (webhookCreate_guard (exampleEnv 200 200 "{}" 3600) (exampleWorld 1000)
    ["--callback-url", "https://x", "--verification-token", "t", "--event-type", "bogus",
     "--data-type", "sleep"] {}).2.2.1
    ⟨[("callback-url", "https://x"), ("verification-token", "t"), ("event-type", "bogus"),
      ("data-type", "sleep")]⟩ rfl (by decide) (by decide) (by decide) (by decide) (by decide)

/-! ### Lemmas on flags that a handler does not read -/

theorem firstFlag_congr (f1 f2 : Flags) (keys : List String)
    (h : ∀ key ∈ keys, f1.get key = f2.get key) :
    firstFlag f1 keys = firstFlag f2 keys := by
  induction keys with
  | nil => rfl
  | cons k ks ih =>
    have hk : f1.get k = f2.get k := h k (List.mem_cons_self _ _)
    have hks : ∀ key ∈ ks, f1.get key = f2.get key :=
      fun key hm => h key (List.mem_cons_of_mem _ hm)
    simp only [firstFlag, hk, ih hks]

theorem Flags.set_agree (keys : List String) (f1 f2 : Flags) (n v : String)
    (h : ∀ key ∈ keys, f1.get key = f2.get key) :
    ∀ key ∈ keys, (f1.set n v).get key = (f2.set n v).get key := by
  intro key hk
  rw [Flags.get_set, Flags.get_set, h key hk]

/-- Parsing the same arguments from two flag maps that agree on `keys` gives
results that agree on `keys`. -/
theorem parseLongFlagsLoop_agree (env : Env) (keys : List String) :
    ∀ (k : Nat) (args : List String) (f1 f2 : Flags) (p : List String), args.length = k →
      (∀ key ∈ keys, f1.get key = f2.get key) →
      ResultAgree keys (parseLongFlagsLoop env f1 p args) (parseLongFlagsLoop env f2 p args) := by
  intro k
  induction k using Nat.strong_induction_on with
  | _ k ih =>
    intro args f1 f2 p hk h
    match args, hk with
    | [], _ => exact ⟨rfl, h⟩
    | x :: xs, hk =>
      simp only [List.length_cons] at hk
      rw [parseLongFlagsLoop, parseLongFlagsLoop]
      by_cases hpre : hasPrefixStr x "--" = true
      · simp only [hpre, Bool.not_true, Bool.false_eq_true, if_false]
        by_cases hnv : trimPrefixStr x "--" = ""
        · simp only [hnv, if_true]
          exact rfl
        · simp only [hnv, if_false]
          by_cases hcut : (cutStr (trimPrefixStr x "--") '=').2.2 = true
          · simp only [hcut, Bool.not_true, Bool.false_eq_true, if_false]
            exact ih xs.length (by omega) xs _ _ p rfl (Flags.set_agree keys f1 f2 _ _ h)
          · simp only [hcut, Bool.not_false, if_true]
            match xs, hk with
            | [], _ => exact rfl
            | v :: ys, hk =>
              simp only [List.length_cons] at hk
              exact ih ys.length (by omega) ys _ _ p rfl (Flags.set_agree keys f1 f2 _ _ h)
      · simp only [hpre, Bool.not_false, if_true]
        exact ih xs.length (by omega) xs f1 f2 _ rfl h

/-- A well-formed flag whose name is not among `keys` leaves the parse result
unchanged as far as `keys` are concerned. -/
theorem parseLongFlags_unread_flag (env : Env) (keys : List String) (a b : List String)
    (n v : String) (f : Flags) (p : List String) (ha : parseLongFlags env a = .ok (f, p))
    (hn : n ≠ "") (he : '=' ∉ n.data) (hk : n ∉ keys) :
    ResultAgree keys (parseLongFlags env (a ++ ["--" ++ n, v] ++ b))
      (parseLongFlags env (a ++ b)) := by
  rw [List.append_assoc, parseLongFlags_append env a _ f p ha,
    parseLongFlags_append env a _ f p ha]
  simp only [List.cons_append, List.nil_append]
  rw [parseLongFlagsLoop_flag_value env f p n v b hn he]
  apply parseLongFlagsLoop_agree env keys b.length b _ _ p rfl
  intro key hkey
  rw [Flags.get_set]
  have hne : key ≠ n := fun e => hk (e ▸ hkey)
  simp [hne]

theorem webhookCreate_congr (env : Env) (w : World) (args1 args2 : List String)
    (opts : Options)
    (h : ResultAgree webhookFlagNames (parseLongFlags env args1) (parseLongFlags env args2)) :
    webhookCreate env w args1 opts = webhookCreate env w args2 opts := by
  unfold webhookCreate
  cases h1 : parseLongFlags env args1 with
  | error e1 =>
    cases h2 : parseLongFlags env args2 with
    | error e2 => rw [h1, h2] at h; simp only [ResultAgree] at h; rw [h]
    | ok r2 => rw [h1, h2] at h; exact absurd h (by simp [ResultAgree])
  | ok r1 =>
    cases h2 : parseLongFlags env args2 with
    | error e2 => rw [h1, h2] at h; exact absurd h (by simp [ResultAgree])
    | ok r2 =>
      obtain ⟨g1, p1⟩ := r1
      obtain ⟨g2, p2⟩ := r2
      rw [h1, h2] at h
      obtain ⟨hp, hg⟩ := h
      subst hp
      have e1 : firstFlag g1 ["callback-url", "callback_url"] =
          firstFlag g2 ["callback-url", "callback_url"] :=
        firstFlag_congr _ _ _ (fun key hm => hg key
          ((by decide : ∀ key ∈ ["callback-url", "callback_url"], key ∈ webhookFlagNames) key hm))
      have e2 : firstFlag g1 ["verification-token", "verification_token"] =
          firstFlag g2 ["verification-token", "verification_token"] :=
        firstFlag_congr _ _ _ (fun key hm => hg key
          ((by decide : ∀ key ∈ ["verification-token", "verification_token"], key ∈ webhookFlagNames) key hm))
      have e3 : firstFlag g1 ["event-type", "event_type"] =
          firstFlag g2 ["event-type", "event_type"] :=
        firstFlag_congr _ _ _ (fun key hm => hg key
          ((by decide : ∀ key ∈ ["event-type", "event_type"], key ∈ webhookFlagNames) key hm))
      have e4 : firstFlag g1 ["data-type", "data_type"] =
          firstFlag g2 ["data-type", "data_type"] :=
        firstFlag_congr _ _ _ (fun key hm => hg key
          ((by decide : ∀ key ∈ ["data-type", "data_type"], key ∈ webhookFlagNames) key hm))
      simp only [e1, e2, e3, e4]

theorem webhookUpdate_congr (env : Env) (w : World) (id : String) (args1 args2 : List String)
    (opts : Options)
    (h : ResultAgree webhookFlagNames (parseLongFlags env args1) (parseLongFlags env args2)) :
    webhookUpdate env w id args1 opts = webhookUpdate env w id args2 opts := by
  unfold webhookUpdate
  cases h1 : parseLongFlags env args1 with
  | error e1 =>
    cases h2 : parseLongFlags env args2 with
    | error e2 => rw [h1, h2] at h; simp only [ResultAgree] at h; rw [h]
    | ok r2 => rw [h1, h2] at h; exact absurd h (by simp [ResultAgree])
  | ok r1 =>
    cases h2 : parseLongFlags env args2 with
    | error e2 => rw [h1, h2] at h; exact absurd h (by simp [ResultAgree])
    | ok r2 =>
      obtain ⟨g1, p1⟩ := r1
      obtain ⟨g2, p2⟩ := r2
      rw [h1, h2] at h
      obtain ⟨hp, hg⟩ := h
      subst hp
      have e1 : firstFlag g1 ["callback-url", "callback_url"] =
          firstFlag g2 ["callback-url", "callback_url"] :=
        firstFlag_congr _ _ _ (fun key hm => hg key
          ((by decide : ∀ key ∈ ["callback-url", "callback_url"], key ∈ webhookFlagNames) key hm))
      have e2 : firstFlag g1 ["verification-token", "verification_token"] =
          firstFlag g2 ["verification-token", "verification_token"] :=
        firstFlag_congr _ _ _ (fun key hm => hg key
          ((by decide : ∀ key ∈ ["verification-token", "verification_token"], key ∈ webhookFlagNames) key hm))
      have e3 : firstFlag g1 ["event-type", "event_type"] =
          firstFlag g2 ["event-type", "event_type"] :=
        firstFlag_congr _ _ _ (fun key hm => hg key
          ((by decide : ∀ key ∈ ["event-type", "event_type"], key ∈ webhookFlagNames) key hm))
      have e4 : firstFlag g1 ["data-type", "data_type"] =
          firstFlag g2 ["data-type", "data_type"] :=
        firstFlag_congr _ _ _ (fun key hm => hg key
          ((by decide : ∀ key ∈ ["data-type", "data_type"], key ∈ webhookFlagNames) key hm))
      simp only [e1, e2, e3, e4]

theorem parseRangeQueryFlags_congr (env : Env) (args1 args2 : List String)
    (h : ResultAgree rangeFlagNames (parseLongFlags env args1) (parseLongFlags env args2)) :
    parseRangeQueryFlags env args1 = parseRangeQueryFlags env args2 := by
  unfold parseRangeQueryFlags
  cases h1 : parseLongFlags env args1 with
  | error e1 =>
    cases h2 : parseLongFlags env args2 with
    | error e2 => rw [h1, h2] at h; simp only [ResultAgree] at h; rw [h]
    | ok r2 => rw [h1, h2] at h; exact absurd h (by simp [ResultAgree])
  | ok r1 =>
    cases h2 : parseLongFlags env args2 with
    | error e2 => rw [h1, h2] at h; exact absurd h (by simp [ResultAgree])
    | ok r2 =>
      obtain ⟨g1, p1⟩ := r1
      obtain ⟨g2, p2⟩ := r2
      rw [h1, h2] at h
      obtain ⟨hp, hg⟩ := h
      subst hp
      have e1 : firstFlag g1 ["start-date", "start_date"] =
          firstFlag g2 ["start-date", "start_date"] :=
        firstFlag_congr _ _ _ (fun key hm => hg key
          ((by decide : ∀ key ∈ ["start-date", "start_date"], key ∈ rangeFlagNames) key hm))
      have e2 : firstFlag g1 ["end-date", "end_date"] =
          firstFlag g2 ["end-date", "end_date"] :=
        firstFlag_congr _ _ _ (fun key hm => hg key
          ((by decide : ∀ key ∈ ["end-date", "end_date"], key ∈ rangeFlagNames) key hm))
      have e3 : firstFlag g1 ["next-token", "next_token"] =
          firstFlag g2 ["next-token", "next_token"] :=
        firstFlag_congr _ _ _ (fun key hm => hg key
          ((by decide : ∀ key ∈ ["next-token", "next_token"], key ∈ rangeFlagNames) key hm))
      simp only [e1, e2, e3]

theorem handleListGet_list (env : Env) (w : World) (kind : String) (args : List String)
    (opts : Options) (hh : opts.Help = false) :
    handleListGet env w kind ("list" :: args) opts =
      match parseRangeQueryFlags env args with
      | .error err => (exitErr err, w)
      | .ok (params, extra) =>
        if extra.length ≠ 0 then
          (exitErr ("unexpected args: " ++ joinSpace extra), w)
        else if kind = "tag" then listAndPrint env w kind "/tag" params opts
        else if kind = "enhanced_tag" then listAndPrint env w kind "/enhanced_tag" params opts
        else if kind = "session" then listAndPrint env w kind "/session" params opts
        else (Outcome.returned, w) := by
  have hpre : hasPrefixStr "list" "--" = false := by decide
  simp [handleListGet, hh, hpre]

/-! ### Claims on flags that a handler does not recognise -/

/-- C16 (as stated, refuted): `--bogus x` is a well-formed long flag that no
handler recognises, yet no handler fails. `tag --bogus x` returns normally after
sending the `GET` of `/tag`, and `webhook create` with the four fields and
`--bogus x` sends its `POST`. -/
theorem unknown_flag_counterexample :
    handleListGet (exampleEnv 200 200 "{}" 3600) (exampleWorld 1000000000000000) "tag"
        ["--bogus", "x"] {} =
      (Outcome.returned,
        { clock := 1007, ticks := [],
          tokenFile := .stored
            { AccessToken := "a1", RefreshToken := "r1", ExpiresAt := 1000000000000000 },
          log := [Event.send ⟨"GET", "https://api.ouraring.com/v2/usercollection/tag",
            ⟨[("Authorization", "Bearer a1")]⟩, none⟩, Event.print ""] }) ∧
    (webhookCreate (exampleEnv 200 200 "{}" 3600) (exampleWorld 1000)
        ["--callback-url", "https://x", "--verification-token", "t", "--event-type", "create",
         "--data-type", "sleep", "--bogus", "x"] { JSON := true }).1 = .ok () ∧
    eventsSince (exampleWorld 1000)
        (webhookCreate (exampleEnv 200 200 "{}" 3600) (exampleWorld 1000)
          ["--callback-url", "https://x", "--verification-token", "t", "--event-type",
           "create", "--data-type", "sleep", "--bogus", "x"] { JSON := true }).2 =
      [Event.send ⟨"POST", "https://api.ouraring.com/v2/webhook/subscription",
          ⟨[("X-Client-Id", "cid"), ("X-Client-Secret", "sec"),
            ("Content-Type", "application/json")]⟩, some "{}"⟩,
        Event.print "{}", Event.print "\n"] ∧
    ¬ ∀ (env : Env) (w : World) (kind : String) (a b : List String) (n v : String)
        (f : Flags) (p : List String), parseLongFlags env a = .ok (f, p) → n ≠ "" →
        '=' ∉ n.data → n ∉ rangeFlagNames →
        ∃ msg, handleListGet env w kind (a ++ ["--" ++ n, v] ++ b) {} =
          (exitErr ("unexpected args: " ++ msg), w) := by
  refine ⟨rfl, rfl, by decide, ?_⟩
  intro hall
  obtain ⟨msg, hmsg⟩ := hall (exampleEnv 200 200 "{}" 3600) (exampleWorld 1000000000000000)
    "tag" [] [] "bogus" "x" {} [] rfl (by decide) (by decide) (by decide)
  have h : (handleListGet (exampleEnv 200 200 "{}" 3600) (exampleWorld 1000000000000000)
      "tag" ([] ++ ["--" ++ "bogus", "x"] ++ []) {}).1 = Outcome.returned := rfl
  rw [hmsg] at h
  cases h

/-- C16 (amended): what makes these handlers fail with `unexpected args: ...`
is a leftover positional argument: when the arguments parse with positionals
`pos`, not empty, `webhook create`, `webhook update` and the `list` subcommand
fail with `unexpected args: ` followed by `pos` joined by spaces, and nothing
has happened before. A well-formed long flag `--n v` whose name the handler
does not look up is accepted and ignored: the handler behaves as if the flag
were not there. -/
theorem unknown_flag_ignored (env : Env) (w : World) (opts : Options) :
    (∀ args flags pos, parseLongFlags env args = .ok (flags, pos) → pos ≠ [] →
      webhookCreate env w args opts = (.error ("unexpected args: " ++ joinSpace pos), w) ∧
      (∀ id, webhookUpdate env w id args opts =
        (.error ("unexpected args: " ++ joinSpace pos), w)) ∧
      (opts.Help = false → ∀ kind, handleListGet env w kind ("list" :: args) opts =
        (exitErr ("unexpected args: " ++ joinSpace pos), w))) ∧
    (∀ a b n v f p, parseLongFlags env a = .ok (f, p) → n ≠ "" → '=' ∉ n.data →
      (n ∉ webhookFlagNames →
        webhookCreate env w (a ++ ["--" ++ n, v] ++ b) opts =
          webhookCreate env w (a ++ b) opts ∧
        ∀ id, webhookUpdate env w id (a ++ ["--" ++ n, v] ++ b) opts =
          webhookUpdate env w id (a ++ b) opts) ∧
      (n ∉ rangeFlagNames → opts.Help = false →
        ∀ kind, handleListGet env w kind ("list" :: (a ++ ["--" ++ n, v] ++ b)) opts =
          handleListGet env w kind ("list" :: (a ++ b)) opts)) := by
  constructor
  · intro args flags pos hp hpos
    have hlen : pos.length ≠ 0 := by
      cases pos with
      | nil => exact absurd rfl hpos
      | cons x xs => simp
    refine ⟨?_, ?_, ?_⟩
    · simp only [webhookCreate, hp]
      rw [if_pos hlen]
    · intro id
      simp only [webhookUpdate, hp]
      rw [if_pos hlen]
    · intro hh kind
      rw [handleListGet_list env w kind args opts hh]
      simp only [parseRangeQueryFlags, hp]
      rw [if_pos hlen]
  · intro a b n v f p ha hn he
    constructor
    · intro hk
      have hagree := parseLongFlags_unread_flag env webhookFlagNames a b n v f p ha hn he hk
      exact ⟨webhookCreate_congr env w _ _ opts hagree,
        fun id => webhookUpdate_congr env w id _ _ opts hagree⟩
    · intro hk hh kind
      have hagree := parseLongFlags_unread_flag env rangeFlagNames a b n v f p ha hn he hk
      rw [handleListGet_list env w kind _ opts hh, handleListGet_list env w kind _ opts hh,
        parseRangeQueryFlags_congr env _ _ hagree]

theorem unknown_flag_ignored_witness :
    (webhookCreate (exampleEnv 200 200 "{}" 3600) (exampleWorld 1000)
        ["--event-type", "create", "stray", "--data-type=sleep", "more"] {} =
      (.error ("unexpected args: " ++ joinSpace ["stray", "more"]), exampleWorld 1000)) ∧
    (webhookCreate (exampleEnv 200 200 "{}" 3600) (exampleWorld 1000)
        (["--callback-url", "https://x", "--verification-token", "t"] ++
          ["--" ++ "bogus", "x"] ++ ["--event-type", "create", "--data-type", "sleep"]) {} =
      webhookCreate (exampleEnv 200 200 "{}" 3600) (exampleWorld 1000)
        (["--callback-url", "https://x", "--verification-token", "t"] ++
          ["--event-type", "create", "--data-type", "sleep"]) {}) :=
  ⟨((unknown_flag_ignored (exampleEnv 200 200 "{}" 3600) (exampleWorld 1000) {}).1
      ["--event-type", "create", "stray", "--data-type=sleep", "more"]
      ⟨[("event-type", "create"), ("data-type", "sleep")]⟩ ["stray", "more"] rfl
      (by decide)).1,
    (((unknown_flag_ignored (exampleEnv 200 200 "{}" 3600) (exampleWorld 1000) {}).2
      ["--callback-url", "https://x", "--verification-token", "t"]
      ["--event-type", "create", "--data-type", "sleep"] "bogus" "x"
      ⟨[("callback-url", "https://x"), ("verification-token", "t")]⟩ [] rfl (by decide)
      (by decide)).1 (by decide)).1⟩

/-! ### Claims on the authorization callback -/

/-- C20: the callback handler decides in this order. A state different from the
pending state gives HTTP 400 `State mismatch` and an error signal, whatever the
code is; otherwise an empty code gives HTTP 400 `No code` and an error signal;
otherwise the reply is HTTP 200 and the signal carries exactly the code. Success
is never signalled for a request whose state differs from the pending state. -/
theorem callbackHandler_order (p s c : String) :
    (s ≠ p → callbackHandler p s c =
      ({ status := 400, contentType := "text/plain; charset=utf-8",
         body := "State mismatch\n" }, AuthSignal.error "state mismatch")) ∧
    (s = p → c = "" → callbackHandler p s c =
      ({ status := 400, contentType := "text/plain; charset=utf-8", body := "No code\n" },
        AuthSignal.error "no code in callback")) ∧
    (s = p → c ≠ "" → (callbackHandler p s c).1.status = 200 ∧
      (callbackHandler p s c).2 = AuthSignal.code c) ∧
    (∀ code, (callbackHandler p s c).2 = AuthSignal.code code → s = p ∧ code = c ∧ c ≠ "") := by
  refine ⟨?_, ?_, ?_, ?_⟩
  · intro h
    simp only [callbackHandler, if_pos h, httpError]
    rfl
  · intro h hc
    have h2 : ¬ s ≠ p := fun e => e h
    simp only [callbackHandler, if_neg h2, if_pos hc, httpError]
    rfl
  · intro h hc
    have h2 : ¬ s ≠ p := fun e => e h
    simp only [callbackHandler, if_neg h2, if_neg hc]
    refine ⟨?_, ?_⟩ <;> trivial
  · intro code hcode
    by_cases h : s ≠ p
    · simp [callbackHandler, h] at hcode
    · by_cases hc : c = ""
      · simp [callbackHandler, h, hc] at hcode
      · simp only [callbackHandler, if_neg h, if_neg hc, AuthSignal.code.injEq] at hcode
        exact ⟨not_not.mp h, hcode.symm, hc⟩

theorem callbackHandler_order_witness :
    callbackHandler "Y" "X" "abc" =
      ({ status := 400, contentType := "text/plain; charset=utf-8",
         body := "State mismatch\n" }, AuthSignal.error "state mismatch") :=
  (callbackHandler_order "Y" "X" "abc").1 (by decide)

/-! ### Lemmas on calendar arithmetic -/

theorem ediv_of_decomp (a b q r : Int) (h : a = b * q + r) (h0 : 0 ≤ r) (h1 : r < b) :
    a / b = q := by
  have hb : b ≠ 0 := by omega
  rw [h, Int.add_comm, Int.add_mul_ediv_left _ _ hb, Int.ediv_eq_zero_of_lt h0 h1]
  simp

theorem isLeap_iff (year : Int) :
    isLeap year = true ↔ year % 4 = 0 ∧ (year % 100 ≠ 0 ∨ year % 400 = 0) := by
  simp [isLeap]

/-- The year count from the absolute epoch splits into 400-, 100-, 4- and
1-year parts, and `daysSinceEpoch` adds up the days of the parts. -/
theorem daysSinceEpoch_of_decomp (year q400 q100 q4 r4 : Int)
    (h100 : 0 ≤ q100 ∧ q100 ≤ 3) (h4 : 0 ≤ q4 ∧ q4 ≤ 24) (h1 : 0 ≤ r4 ∧ r4 ≤ 3)
    (hy : year = 400 * q400 + 100 * q100 + 4 * q4 + r4 + absoluteZeroYear) :
    daysSinceEpoch year = 146097 * q400 + 36524 * q100 + 1461 * q4 + 365 * r4 := by
  have e1 : (year - absoluteZeroYear) / 400 = q400 :=
    ediv_of_decomp _ _ _ (100 * q100 + 4 * q4 + r4) (by omega) (by omega) (by omega)
  have e2 : (year - absoluteZeroYear - 400 * q400) / 100 = q100 :=
    ediv_of_decomp _ _ _ (4 * q4 + r4) (by omega) (by omega) (by omega)
  have e3 : (year - absoluteZeroYear - 400 * q400 - 100 * q100) / 4 = q4 :=
    ediv_of_decomp _ _ _ r4 (by omega) (by omega) (by omega)
  simp only [daysSinceEpoch, e1, e2, e3]
  clear e1 e2 e3
  omega

theorem year_decompose (year : Int) :
    ∃ q400 q100 q4 r4 : Int, (0 ≤ q100 ∧ q100 ≤ 3) ∧ (0 ≤ q4 ∧ q4 ≤ 24) ∧ (0 ≤ r4 ∧ r4 ≤ 3) ∧
      year = 400 * q400 + 100 * q100 + 4 * q4 + r4 + absoluteZeroYear := by
  refine ⟨(year - absoluteZeroYear) / 400, (year - absoluteZeroYear) % 400 / 100,
    (year - absoluteZeroYear) % 100 / 4, (year - absoluteZeroYear) % 4, ?_, ?_, ?_, ?_⟩ <;>
    omega

theorem isLeap_of_decomp (year q400 q100 q4 r4 : Int)
    (h100 : 0 ≤ q100 ∧ q100 ≤ 3) (h4 : 0 ≤ q4 ∧ q4 ≤ 24) (h1 : 0 ≤ r4 ∧ r4 ≤ 3)
    (hy : year = 400 * q400 + 100 * q100 + 4 * q4 + r4 + absoluteZeroYear) :
    isLeap year = true ↔ r4 = 3 ∧ (q4 ≠ 24 ∨ q100 = 3) := by
  rw [isLeap_iff]
  simp only [absoluteZeroYear] at hy
  omega

theorem absYear_decomposed (q400 q100 q4 r4 yday : Int)
    (h100 : 0 ≤ q100 ∧ q100 ≤ 3) (h4 : 0 ≤ q4 ∧ q4 ≤ 24) (h1 : 0 ≤ r4 ∧ r4 ≤ 3) (h0 : 0 ≤ yday)
    (hb : yday ≤ 364 ∨ (yday = 365 ∧ r4 = 3 ∧ (q4 ≠ 24 ∨ q100 = 3))) :
    absYear (146097 * q400 + 36524 * q100 + 1461 * q4 + 365 * r4 + yday) =
      (400 * q400 + 100 * q100 + 4 * q4 + r4 + absoluteZeroYear, yday) := by
  have e1 : (146097 * q400 + 36524 * q100 + 1461 * q4 + 365 * r4 + yday) / 146097 = q400 :=
    ediv_of_decomp _ _ _ (36524 * q100 + 1461 * q4 + 365 * r4 + yday) (by omega) (by omega)
      (by omega)
  have e2 : (146097 * q400 + 36524 * q100 + 1461 * q4 + 365 * r4 + yday - 146097 * q400)
      / 36524 - (146097 * q400 + 36524 * q100 + 1461 * q4 + 365 * r4 + yday - 146097 * q400)
      / 36524 / 4 = q100 := by
    by_cases hlast : 1461 * q4 + 365 * r4 + yday ≤ 36523
    · have e : (146097 * q400 + 36524 * q100 + 1461 * q4 + 365 * r4 + yday - 146097 * q400)
          / 36524 = q100 :=
        ediv_of_decomp _ _ _ (1461 * q4 + 365 * r4 + yday) (by omega) (by omega) (by omega)
      rw [e]
      omega
    · have hq : q100 = 3 := by omega
      have e : (146097 * q400 + 36524 * q100 + 1461 * q4 + 365 * r4 + yday - 146097 * q400)
          / 36524 = 4 :=
        ediv_of_decomp _ _ _ 0 (by omega) (by omega) (by omega)
      rw [e, hq]
      decide
  have e3 : (146097 * q400 + 36524 * q100 + 1461 * q4 + 365 * r4 + yday - 146097 * q400 -
      36524 * q100) / 1461 = q4 :=
    ediv_of_decomp _ _ _ (365 * r4 + yday) (by omega) (by omega) (by omega)
  have e4 : (146097 * q400 + 36524 * q100 + 1461 * q4 + 365 * r4 + yday - 146097 * q400 -
      36524 * q100 - 1461 * q4) / 365 - (146097 * q400 + 36524 * q100 + 1461 * q4 + 365 * r4 +
      yday - 146097 * q400 - 36524 * q100 - 1461 * q4) / 365 / 4 = r4 := by
    by_cases hlast : yday ≤ 364
    · have e : (146097 * q400 + 36524 * q100 + 1461 * q4 + 365 * r4 + yday - 146097 * q400 -
          36524 * q100 - 1461 * q4) / 365 = r4 :=
        ediv_of_decomp _ _ _ yday (by omega) (by omega) (by omega)
      rw [e]
      omega
    · have hq : r4 = 3 := by omega
      have e : (146097 * q400 + 36524 * q100 + 1461 * q4 + 365 * r4 + yday - 146097 * q400 -
          36524 * q100 - 1461 * q4) / 365 = 4 :=
        ediv_of_decomp _ _ _ 0 (by omega) (by omega) (by omega)
      rw [e, hq]
      decide
  simp only [absYear, e1, e2, e3, e4, Prod.mk.injEq]
  clear e1 e2 e3 e4
  exact ⟨trivial, by omega⟩

/-- A day of a year is mapped back to the year and to the day within it. -/
theorem absYear_daysSinceEpoch (year yday : Int) (h0 : 0 ≤ yday)
    (h1 : yday < (if isLeap year = true then 366 else 365)) :
    absYear (daysSinceEpoch year + yday) = (year, yday) := by
  obtain ⟨q400, q100, q4, r4, h100, h4, hr, hyear⟩ := year_decompose year
  have hl := isLeap_of_decomp year q400 q100 q4 r4 h100 h4 hr hyear
  have hb : yday ≤ 364 ∨ (yday = 365 ∧ r4 = 3 ∧ (q4 ≠ 24 ∨ q100 = 3)) := by
    by_cases hleap : isLeap year = true
    · rw [if_pos hleap] at h1
      have := hl.1 hleap
      omega
    · rw [if_neg hleap] at h1
      omega
  rw [daysSinceEpoch_of_decomp year q400 q100 q4 r4 h100 h4 hr hyear,
    absYear_decomposed q400 q100 q4 r4 yday h100 h4 hr h0 hb, hyear]

/-- The next year starts one year length later. -/
theorem daysSinceEpoch_succ (year : Int) :
    daysSinceEpoch (year + 1) =
      daysSinceEpoch year + (if isLeap year = true then 366 else 365) := by
  obtain ⟨q400, q100, q4, r4, h100, h4, hr, hyear⟩ := year_decompose year
  have hl := isLeap_of_decomp year q400 q100 q4 r4 h100 h4 hr hyear
  rw [daysSinceEpoch_of_decomp year q400 q100 q4 r4 h100 h4 hr hyear]
  by_cases c1 : r4 < 3
  · have hnl : ¬ isLeap year = true := fun h => by have := hl.1 h; omega
    rw [if_neg hnl, daysSinceEpoch_of_decomp (year + 1) q400 q100 q4 (r4 + 1) h100 h4
      (by omega) (by omega)]
    omega
  · by_cases c2 : q4 < 24
    · have hleap : isLeap year = true := hl.2 (by omega)
      rw [if_pos hleap, daysSinceEpoch_of_decomp (year + 1) q400 q100 (q4 + 1) 0 h100
        (by omega) (by omega) (by omega)]
      omega
    · by_cases c3 : q100 < 3
      · have hnl : ¬ isLeap year = true := fun h => by have := hl.1 h; omega
        rw [if_neg hnl, daysSinceEpoch_of_decomp (year + 1) q400 (q100 + 1) 0 0 (by omega)
          (by omega) (by omega) (by omega)]
        omega
      · have hleap : isLeap year = true := hl.2 (by omega)
        rw [if_pos hleap, daysSinceEpoch_of_decomp (year + 1) (q400 + 1) 0 0 0 (by omega)
          (by omega) (by omega) (by omega)]
        omega

theorem monthDayOfYear_spec (m d day : Int) (hm : 1 ≤ m ∧ m ≤ 12)
    (hd : 1 ≤ d ∧ d ≤ daysBefore m - daysBefore (m - 1))
    (hday : day = daysBefore (m - 1) + (d - 1)) :
    monthDayOfYear day = (m, d) := by
  have h12 : m = 1 ∨ m = 2 ∨ m = 3 ∨ m = 4 ∨ m = 5 ∨ m = 6 ∨ m = 7 ∨ m = 8 ∨ m = 9 ∨
      m = 10 ∨ m = 11 ∨ m = 12 := by omega
  rcases h12 with h | h | h | h | h | h | h | h | h | h | h | h <;>
    (simp only [h] at hd hday
     simp [daysBefore] at hd hday
     have hq : day / 31 = m - 2 ∨ day / 31 = m - 1 := by omega
     rcases hq with hq | hq <;>
       (simp only [monthDayOfYear, hq, h]
        simp only [daysBefore]
        norm_num
        split_ifs <;> refine Prod.ext ?_ ?_ <;> dsimp only <;> omega))

theorem daysBefore_bounds (m : Int) (hm : 1 ≤ m ∧ m ≤ 12) :
    28 ≤ daysBefore m - daysBefore (m - 1) ∧ daysBefore m - daysBefore (m - 1) ≤ 31 ∧
    0 ≤ daysBefore (m - 1) ∧ daysBefore m ≤ 365 ∧
    (m ≤ 2 → daysBefore m ≤ 59) ∧ (3 ≤ m → 59 ≤ daysBefore (m - 1)) ∧
    (m = 2 → daysBefore m = 59 ∧ daysBefore (m - 1) = 31) := by
  have h12 : m = 1 ∨ m = 2 ∨ m = 3 ∨ m = 4 ∨ m = 5 ∨ m = 6 ∨ m = 7 ∨ m = 8 ∨ m = 9 ∨
      m = 10 ∨ m = 11 ∨ m = 12 := by omega
  rcases h12 with h | h | h | h | h | h | h | h | h | h | h | h <;>
    (subst h; simp [daysBefore])

theorem monthDayOfYearDay_spec (leap : Bool) (m d yday : Int) (hm : 1 ≤ m ∧ m ≤ 12)
    (hd : 1 ≤ d ∧ d ≤ (if m = 2 ∧ leap = true then 29 else daysBefore m - daysBefore (m - 1)))
    (hy : yday = daysBefore (m - 1) + (if leap = true ∧ m ≥ 3 then 1 else 0) + (d - 1)) :
    monthDayOfYearDay leap yday = (m, d) := by
  obtain ⟨b1, b2, b3, b4, b5, b6, b7⟩ := daysBefore_bounds m hm
  cases leap with
  | false =>
    simp only [Bool.false_eq_true, and_false, false_and, if_false] at hd hy
    simp only [monthDayOfYearDay, Bool.false_eq_true, false_and, if_false]
    exact monthDayOfYear_spec m d yday hm hd (by omega)
  | true =>
    simp only [true_and, and_true] at hd hy
    simp only [monthDayOfYearDay, true_and]
    by_cases h3 : m ≥ 3
    · have hm2 : ¬ m = 2 := by omega
      rw [if_neg hm2] at hd
      rw [if_pos h3] at hy
      have hne : ¬ yday = 31 + 29 - 1 := by have := b6 h3; omega
      have hgt : yday > 31 + 29 - 1 := by have := b6 h3; omega
      rw [if_neg hne, if_pos hgt]
      exact monthDayOfYear_spec m d (yday - 1) hm hd (by omega)
    · rw [if_neg h3] at hy
      by_cases h29 : m = 2 ∧ d = 29
      · obtain ⟨hm2, hd29⟩ := h29
        have hy59 : yday = 31 + 29 - 1 := by have := b7 hm2; omega
        rw [if_pos hy59, hm2, hd29]
      · have hdle : d ≤ daysBefore m - daysBefore (m - 1) := by
          by_cases hm2 : m = 2
          · rw [if_pos hm2] at hd
            have := b7 hm2
            omega
          · rw [if_neg hm2] at hd
            exact hd.2
        have hne : ¬ yday = 31 + 29 - 1 := by have := b5 (by omega); omega
        have hgt : ¬ yday > 31 + 29 - 1 := by have := b5 (by omega); omega
        rw [if_neg hne, if_neg hgt]
        exact monthDayOfYear_spec m d yday hm ⟨hd.1, hdle⟩ (by omega)

theorem dateDays_of_month (y m d : Int) (hm : 1 ≤ m ∧ m ≤ 12) :
    dateDays y m d = daysSinceEpoch y + daysBefore (m - 1) +
      (if isLeap y = true ∧ m ≥ 3 then 1 else 0) + (d - 1) := by
  have e1 : (m - 1) / 12 = 0 := ediv_of_decomp _ _ _ (m - 1) (by omega) (by omega) (by omega)
  have e2 : (m - 1) % 12 = m - 1 := by omega
  simp only [dateDays, e1, e2]
  simp

theorem daysIn_eq (m y : Int) :
    daysIn m y = if m = 2 ∧ isLeap y = true then 29 else daysBefore m - daysBefore (m - 1) :=
  rfl

/-- The conversions are inverse to each other on the dates of the calendar. -/
theorem absDate_dateDays (y m d : Int) (hv : validDate y m d) :
    absDate (dateDays y m d) = (y, m, d) := by
  obtain ⟨hm1, hm2, hd1, hd2⟩ := hv
  obtain ⟨b1, b2, b3, b4, b5, b6, b7⟩ := daysBefore_bounds m ⟨hm1, hm2⟩
  rw [daysIn_eq] at hd2
  have hyd0 : 0 ≤ daysBefore (m - 1) + (if isLeap y = true ∧ m ≥ 3 then 1 else 0) + (d - 1) := by
    split_ifs <;> omega
  have hyd1 : daysBefore (m - 1) + (if isLeap y = true ∧ m ≥ 3 then 1 else 0) + (d - 1) <
      (if isLeap y = true then 366 else 365) := by
    by_cases hl : isLeap y = true
    · simp only [hl, true_and, and_true, if_true] at hd2 ⊢
      by_cases hm : m = 2
      · rw [if_pos hm] at hd2
        have := b7 hm
        split_ifs <;> omega
      · rw [if_neg hm] at hd2
        split_ifs <;> omega
    · simp only [hl, false_and, and_false, if_false, Bool.false_eq_true] at hd2 ⊢
      omega
  have hdays : dateDays y m d = daysSinceEpoch y +
      (daysBefore (m - 1) + (if isLeap y = true ∧ m ≥ 3 then 1 else 0) + (d - 1)) := by
    rw [dateDays_of_month y m d ⟨hm1, hm2⟩]
    omega
  have hyear := absYear_daysSinceEpoch y _ hyd0 hyd1
  simp only [absDate, hdays, hyear]
  rw [monthDayOfYearDay_spec (isLeap y) m d _ ⟨hm1, hm2⟩ ⟨hd1, hd2⟩ rfl]

theorem nextDay_valid (y m d : Int) (hv : validDate y m d) :
    validDate (nextDay y m d).1 (nextDay y m d).2.1 (nextDay y m d).2.2 := by
  obtain ⟨hm1, hm2, hd1, hd2⟩ := hv
  unfold nextDay validDate
  by_cases h1 : d < daysIn m y
  · rw [if_pos h1]
    dsimp only
    exact ⟨hm1, hm2, by omega, by omega⟩
  · rw [if_neg h1]
    by_cases h2 : m < 12
    · rw [if_pos h2]
      dsimp only
      obtain ⟨b1, _⟩ := daysBefore_bounds (m + 1) ⟨by omega, by omega⟩
      refine ⟨by omega, by omega, le_refl _, ?_⟩
      rw [daysIn_eq]
      split_ifs <;> omega
    · rw [if_neg h2]
      dsimp only
      refine ⟨le_refl _, by omega, le_refl _, ?_⟩
      simp [daysIn, daysBefore]

theorem dateDays_nextDay (y m d : Int) (hv : validDate y m d) :
    dateDays (nextDay y m d).1 (nextDay y m d).2.1 (nextDay y m d).2.2 = dateDays y m d + 1 := by
  obtain ⟨hm1, hm2, hd1, hd2⟩ := hv
  unfold nextDay
  by_cases h1 : d < daysIn m y
  · rw [if_pos h1]
    dsimp only
    rw [dateDays_of_month y m _ ⟨hm1, hm2⟩, dateDays_of_month y m _ ⟨hm1, hm2⟩]
    omega
  · rw [if_neg h1]
    have hdeq : d = daysIn m y := by omega
    by_cases h2 : m < 12
    · rw [if_pos h2]
      dsimp only
      rw [dateDays_of_month y (m + 1) _ ⟨by omega, by omega⟩,
        dateDays_of_month y m _ ⟨hm1, hm2⟩, hdeq, daysIn_eq]
      have h12 : m = 1 ∨ m = 2 ∨ m = 3 ∨ m = 4 ∨ m = 5 ∨ m = 6 ∨ m = 7 ∨ m = 8 ∨ m = 9 ∨
          m = 10 ∨ m = 11 := by omega
      by_cases hl : isLeap y = true <;>
        rcases h12 with h | h | h | h | h | h | h | h | h | h | h <;>
          (subst h; simp [daysBefore, hl]; omega)
    · rw [if_neg h2]
      have hm12 : m = 12 := by omega
      dsimp only
      rw [dateDays_of_month (y + 1) 1 _ ⟨by omega, by omega⟩,
        dateDays_of_month y m _ ⟨hm1, hm2⟩, hdeq, daysIn_eq, daysSinceEpoch_succ, hm12]
      by_cases hl : isLeap y = true
      · simp [daysBefore, hl]
        omega
      · simp [daysBefore, hl]
        omega

theorem prevDay_valid (y m d : Int) (hv : validDate y m d) :
    validDate (prevDay y m d).1 (prevDay y m d).2.1 (prevDay y m d).2.2 := by
  obtain ⟨hm1, hm2, hd1, hd2⟩ := hv
  unfold prevDay validDate
  by_cases h1 : 1 < d
  · rw [if_pos h1]
    dsimp only
    exact ⟨hm1, hm2, by omega, by omega⟩
  · rw [if_neg h1]
    by_cases h2 : 1 < m
    · rw [if_pos h2]
      dsimp only
      obtain ⟨b1, _⟩ := daysBefore_bounds (m - 1) ⟨by omega, by omega⟩
      refine ⟨by omega, by omega, ?_, le_refl _⟩
      rw [daysIn_eq]
      split_ifs <;> omega
    · rw [if_neg h2]
      dsimp only
      refine ⟨by omega, le_refl _, by omega, ?_⟩
      simp [daysIn, daysBefore]

theorem dateDays_prevDay (y m d : Int) (hv : validDate y m d) :
    dateDays (prevDay y m d).1 (prevDay y m d).2.1 (prevDay y m d).2.2 = dateDays y m d - 1 := by
  obtain ⟨hm1, hm2, hd1, hd2⟩ := hv
  unfold prevDay
  by_cases h1 : 1 < d
  · rw [if_pos h1]
    dsimp only
    rw [dateDays_of_month y m _ ⟨hm1, hm2⟩, dateDays_of_month y m _ ⟨hm1, hm2⟩]
    omega
  · rw [if_neg h1]
    have hdeq : d = 1 := by omega
    by_cases h2 : 1 < m
    · rw [if_pos h2]
      dsimp only
      rw [dateDays_of_month y (m - 1) _ ⟨by omega, by omega⟩,
        dateDays_of_month y m _ ⟨hm1, hm2⟩, hdeq, daysIn_eq]
      have h12 : m = 2 ∨ m = 3 ∨ m = 4 ∨ m = 5 ∨ m = 6 ∨ m = 7 ∨ m = 8 ∨ m = 9 ∨
          m = 10 ∨ m = 11 ∨ m = 12 := by omega
      by_cases hl : isLeap y = true <;>
        rcases h12 with h | h | h | h | h | h | h | h | h | h | h <;>
          (subst h; simp [daysBefore, hl]; omega)
    · rw [if_neg h2]
      have hm1' : m = 1 := by omega
      have hsucc := daysSinceEpoch_succ (y - 1)
      rw [show y - 1 + 1 = y by omega] at hsucc
      dsimp only
      rw [dateDays_of_month (y - 1) 12 _ ⟨by omega, by omega⟩,
        dateDays_of_month y m _ ⟨hm1, hm2⟩, hdeq, hsucc, hm1']
      by_cases hl : isLeap (y - 1) = true
      · simp [daysBefore, hl]
        omega
      · simp [daysBefore, hl]
        omega

/-- Adding days to a calendar date adds them to its day count. -/
theorem addDays_dateDays (y m d k : Int) (hv : validDate y m d) :
    addDays (dateDays y m d) k = dateDays y m d + k := by
  simp only [addDays, absDate_dateDays y m d hv]
  rw [dateDays_of_month y m _ ⟨hv.1, hv.2.1⟩, dateDays_of_month y m _ ⟨hv.1, hv.2.1⟩]
  omega

theorem absDate_next (y m d : Int) (hv : validDate y m d) :
    absDate (addDays (dateDays y m d) 1) = nextDay y m d := by
  rw [addDays_dateDays y m d 1 hv, ← dateDays_nextDay y m d hv,
    absDate_dateDays _ _ _ (nextDay_valid y m d hv)]

theorem absDate_prev (y m d : Int) (hv : validDate y m d) :
    absDate (addDays (dateDays y m d) (-1)) = prevDay y m d := by
  rw [addDays_dateDays y m d (-1) hv, show dateDays y m d + -1 = dateDays y m d - 1 by omega,
    ← dateDays_prevDay y m d hv, absDate_dateDays _ _ _ (prevDay_valid y m d hv)]

theorem digitVal_bound (c : Char) (k : Int) (h : digitVal c = some k) : 0 ≤ k ∧ k ≤ 9 := by
  unfold digitVal at h
  split_ifs at h <;> simp at h <;> omega

theorem digitVal_digitChar (k : Nat) (h : k < 10) : digitVal (digitChar k) = some (k : Int) := by
  interval_cases k <;> rfl

/-- What `parseDate` accepts is a date of the calendar with a year from 0 to 9999. -/
theorem parseDate_valid (s : String) (y m d : Int) (h : parseDate s = some (y, m, d)) :
    validDate y m d ∧ 0 ≤ y ∧ y ≤ 9999 := by
  unfold parseDate at h
  split at h
  · split at h
    · split at h
      · rename_i a b c e f g i j ha hb hc he hf hg hi hj
        dsimp only at h
        split at h
        · rename_i hvalid
          simp only [Option.some.injEq, Prod.mk.injEq] at h
          obtain ⟨h1, h2, h3⟩ := h
          have ba := digitVal_bound _ _ ha
          have bb := digitVal_bound _ _ hb
          have bc := digitVal_bound _ _ hc
          have be := digitVal_bound _ _ he
          subst h1 h2 h3
          exact ⟨hvalid, by omega, by omega⟩
        · cases h
      · cases h
    · cases h
  · cases h

theorem appendInt_four (y : Nat) (h : y < 10000) :
    appendInt (y : Int) 4 =
      [digitChar (y / 1000), digitChar (y / 100 % 10), digitChar (y / 10 % 10),
       digitChar (y % 10)] := by
  have hneg : ¬ ((y : Int) < 0) := by omega
  simp [appendInt, hneg, h]

theorem appendInt_two (n : Nat) (h : n < 100) :
    appendInt (n : Int) 2 = [digitChar (n / 10), digitChar (n % 10)] := by
  have hneg : ¬ ((n : Int) < 0) := by omega
  simp [appendInt, hneg, h]

/-- Every date of the calendar with a year from 0 to 9999 is written by
`formatDate` in a form that `parseDate` reads back. -/
theorem parseDate_formatDate (y m d : Int) (hv : validDate y m d) (hy0 : 0 ≤ y)
    (hy1 : y ≤ 9999) : parseDate (formatDate (y, m, d)) = some (y, m, d) := by
  obtain ⟨hm1, hm2, hd1, hd2⟩ := hv
  have hd31 : d ≤ 31 := by
    obtain ⟨b1, b2, _⟩ := daysBefore_bounds m ⟨hm1, hm2⟩
    rw [daysIn_eq] at hd2
    split_ifs at hd2 <;> omega
  have hvalid : 1 ≤ m ∧ m ≤ 12 ∧ 1 ≤ d ∧ d ≤ daysIn m y := ⟨hm1, hm2, hd1, hd2⟩
  lift y to Nat using hy0
  lift m to Nat using (by omega : 0 ≤ m)
  lift d to Nat using (by omega : 0 ≤ d)
  have e1 := digitVal_digitChar (y / 1000) (by omega)
  have e2 := digitVal_digitChar (y / 100 % 10) (by omega)
  have e3 := digitVal_digitChar (y / 10 % 10) (by omega)
  have e4 := digitVal_digitChar (y % 10) (by omega)
  have e5 := digitVal_digitChar (m / 10) (by omega)
  have e6 := digitVal_digitChar (m % 10) (by omega)
  have e7 := digitVal_digitChar (d / 10) (by omega)
  have e8 := digitVal_digitChar (d % 10) (by omega)
  have hyear : 1000 * ((y / 1000 : Nat) : Int) + 100 * ((y / 100 % 10 : Nat) : Int) +
      10 * ((y / 10 % 10 : Nat) : Int) + ((y % 10 : Nat) : Int) = (y : Int) := by omega
  have hmonth : 10 * ((m / 10 : Nat) : Int) + ((m % 10 : Nat) : Int) = (m : Int) := by omega
  have hday : 10 * ((d / 10 : Nat) : Int) + ((d % 10 : Nat) : Int) = (d : Int) := by omega
  simp only [formatDate, appendInt_four y (by omega), appendInt_two m (by omega),
    appendInt_two d (by omega), parseDate, List.cons_append, List.nil_append, and_self,
    if_true, e1, e2, e3, e4, e5, e6, e7, e8, hyear, hmonth, hday]
  rw [if_pos hvalid]

/-! ### Lemmas on the JSON mode of the date commands -/

theorem filter_ne_of_not_mem (l : List (String × EndpointResult)) (name : String)
    (h : name ∉ l.map (fun e => e.1)) :
    l.filter (fun e => e.1 ≠ name) = l := by
  rw [List.filter_eq_self]
  intro e he
  have : e.1 ≠ name := fun heq => h (by rw [← heq]; exact List.mem_map_of_mem _ he)
  simpa using this

/-- The map built by the loop: the entries present before, followed by one
entry per endpoint in order, when the names are new and distinct. -/
theorem fetchEndpointsLoop_eq (env : Env) (params : Values) :
    ∀ (eps : List String) (m : EndpointMap) (w : World),
      (eps.map endpointName).Nodup →
      (∀ n ∈ eps.map endpointName, n ∉ m.keys) →
      fetchEndpointsLoop env params m w eps =
        ({ entries := m.entries ++
            (eps.map endpointName).zip ((apiGetEach env params w eps).1.map endpointResultOf) },
          (apiGetEach env params w eps).2) := by
  intro eps
  induction eps with
  | nil => intro m w _ _; simp [fetchEndpointsLoop, apiGetEach]
  | cons ep rest ih =>
    intro m w hnd hnew
    rw [List.map_cons, List.nodup_cons] at hnd
    have hname : endpointName ep ∉ m.keys := hnew _ (by simp)
    rcases hget : apiGet env w ep params with ⟨r, w1⟩
    have hset : (m.set (endpointName ep) (endpointResultOf r)).entries =
        m.entries ++ [(endpointName ep, endpointResultOf r)] := by
      simp only [EndpointMap.set]
      rw [filter_ne_of_not_mem m.entries _ hname]
    have hnew2 : ∀ n ∈ rest.map endpointName,
        n ∉ (m.set (endpointName ep) (endpointResultOf r)).keys := by
      intro n hn hmem
      simp only [EndpointMap.keys, hset, List.map_append, List.map_cons, List.map_nil,
        List.mem_append, List.mem_singleton] at hmem
      rcases hmem with hmem | hmem
      · exact hnew n (by simp only [List.map_cons]; exact List.mem_cons_of_mem _ hn) hmem
      · exact hnd.1 (hmem ▸ hn)
    have hstep := ih (m.set (endpointName ep) (endpointResultOf r)) w1 hnd.2 hnew2
    simp only [fetchEndpointsLoop, apiGetEach, hget]
    have hname2 : trimPrefixStr ep "/" = endpointName ep := rfl
    rw [hname2, hstep, hset]
    rcases hrest : apiGetEach env params w1 rest with ⟨rs, w2⟩
    simp [List.append_assoc]

theorem apiGetEach_length (env : Env) (params : Values) :
    ∀ (eps : List String) (w : World), (apiGetEach env params w eps).1.length = eps.length := by
  intro eps
  induction eps with
  | nil => intro w; rfl
  | cons ep rest ih =>
    intro w
    rcases hget : apiGet env w ep params with ⟨r, w1⟩
    have := ih w1
    rcases hrest : apiGetEach env params w1 rest with ⟨rs, w2⟩
    rw [hrest] at this
    simp only [apiGetEach, hget, hrest, List.length_cons]
    simpa using this

theorem endpointResultOf_shape (r : Except String String) :
    (∃ body, r = .ok body ∧ endpointResultOf r = { Data := some body, Error := "" }) ∨
    (∃ err, r = .error err ∧ endpointResultOf r = { Data := none, Error := err }) := by
  cases r with
  | ok body => exact Or.inl ⟨body, rfl, rfl⟩
  | error err => exact Or.inr ⟨err, rfl, rfl⟩

/-- The output value of `fetchEndpointsJSON` for endpoints with distinct names. -/
theorem fetchEndpointsJSONOutput_eq (env : Env) (w : World)
    (command date sd ed : String) (eps : List String)
    (hnd : (eps.map endpointName).Nodup) :
    fetchEndpointsJSONOutput env w command date sd ed eps =
      ({ Command := command, Date := date, StartDate := sd, EndDate := ed,
         Endpoints := EndpointMap.mk ((eps.map endpointName).zip
           ((apiGetEach env (rangeParams sd ed) w eps).1.map endpointResultOf)) },
        (apiGetEach env (rangeParams sd ed) w eps).2) := by
  have h := fetchEndpointsLoop_eq env (rangeParams sd ed) eps {} w hnd
    (by intro n _ hmem; simp [EndpointMap.keys] at hmem)
  simp only [fetchEndpointsJSONOutput]
  have hp : (({} : Values).set "start_date" sd).set "end_date" ed = rangeParams sd ed := rfl
  rw [hp, h]
  simp

/-- The JSON branch of each date command is `fetchEndpointsJSON` on the
endpoint list of the command, with the range padded or not. -/
theorem dateCommandJSON_eq (env : Env) (w : World) (c : String) (eps : List String)
    (date : String) (h : (c, eps) ∈ commandEndpoints) :
    dateCommandJSON env w c date =
      some (fetchEndpointsJSON env w c date
        (if c ∈ paddedCommands then (paddedDateRange date 1 1).1 else date)
        (if c ∈ paddedCommands then (paddedDateRange date 1 1).2 else date) eps) := by
  simp only [commandEndpoints, List.mem_cons, Prod.mk.injEq, List.mem_singleton,
    List.not_mem_nil, or_false] at h
  rcases h with h | h | h | h | h | h | h | h | h | h | h <;>
    (obtain ⟨h1, h2⟩ := h; subst h1 h2; rfl)

theorem apiGetEach_append (env : Env) (params : Values) :
    ∀ (pre post : List String) (w : World),
      apiGetEach env params w (pre ++ post) =
        ((apiGetEach env params w pre).1 ++
            (apiGetEach env params (apiGetEach env params w pre).2 post).1,
          (apiGetEach env params (apiGetEach env params w pre).2 post).2) := by
  intro pre
  induction pre with
  | nil => intro post w; simp [apiGetEach]
  | cons ep rest ih =>
    intro post w
    rcases hget : apiGet env w ep params with ⟨r, w1⟩
    simp only [List.cons_append, apiGetEach, hget]
    have h := ih post w1
    simp only [List.append_eq] at h ⊢
    rw [h]

theorem find_zip_of_nodup (pre post : List String) (name : String)
    (rpre rpost : List EndpointResult) (r : EndpointResult)
    (hlen : rpre.length = pre.length) (hnot : name ∉ pre) :
    ((pre ++ name :: post).zip (rpre ++ r :: rpost)).find? (fun e => e.1 = name) =
      some (name, r) := by
  rw [List.zip_append hlen.symm, List.find?_append]
  have hnone : (pre.zip rpre).find? (fun e => decide (e.1 = name)) = none := by
    rw [List.find?_eq_none]
    intro e he
    have := (List.of_mem_zip he).1
    simp only [decide_eq_true_eq]
    intro heq
    exact hnot (heq ▸ this)
  rw [hnone]
  simp

/-- The entry stored for an endpoint of a list with distinct names is the
result of `apiGet` on it, called in the world left by the endpoints before. -/
theorem fetchEndpointsJSONOutput_get (env : Env) (w : World)
    (command date sd ed : String) (pre post : List String) (ep : String)
    (hnd : ((pre ++ ep :: post).map endpointName).Nodup) :
    (fetchEndpointsJSONOutput env w command date sd ed (pre ++ ep :: post)).1.Endpoints.get
        (endpointName ep) =
      some (endpointResultOf
        (apiGet env (apiGetEach env (rangeParams sd ed) w pre).2 ep (rangeParams sd ed)).1) := by
  rw [fetchEndpointsJSONOutput_eq env w command date sd ed _ hnd]
  simp only [EndpointMap.get]
  rw [apiGetEach_append]
  rcases hpre : apiGetEach env (rangeParams sd ed) w pre with ⟨rpre, w1⟩
  rcases hget : apiGet env w1 ep (rangeParams sd ed) with ⟨r, w2⟩
  rcases hpost : apiGetEach env (rangeParams sd ed) w2 post with ⟨rpost, w3⟩
  have hlen : (rpre.map endpointResultOf).length = (pre.map endpointName).length := by
    have := apiGetEach_length env (rangeParams sd ed) pre w
    rw [hpre] at this
    simpa using this
  have hnot : endpointName ep ∉ pre.map endpointName := by
    rw [List.map_append, List.map_cons] at hnd
    have := (List.nodup_append.mp hnd).2.2
    intro hmem
    exact this hmem (List.mem_cons_self _ _)
  simp only [apiGetEach, hget, hpost, List.map_append, List.map_cons]
  rw [find_zip_of_nodup _ _ _ _ _ _ hlen hnot]
  rfl

/-- C17: in JSON mode, every date command `c` with the endpoint list `eps` of
the table runs `fetchEndpointsJSON` on that list; every path of the list is
`/` followed by its name; the keys of the `endpoints` map are exactly the
names, one per endpoint; one request result exists for every endpoint of the
list, so that a failing endpoint does not stop the later ones; the entry of
each endpoint is built from the result of `apiGet` on it, called in the world
left by the endpoints before it whatever their results were: the body as
`Data` and an empty `Error` on success, the error text as `Error` and no
`Data` on failure. -/
theorem fetchEndpointsJSON_endpoints (env : Env) (w : World) (c : String) (eps : List String)
    (date : String) (h : (c, eps) ∈ commandEndpoints) :
    ∃ sd ed : String,
      dateCommandJSON env w c date = some (fetchEndpointsJSON env w c date sd ed eps) ∧
      fetchEndpointsJSON env w c date sd ed eps =
        writeJSONToStdout env (fetchEndpointsJSONOutput env w c date sd ed eps).2
          (fetchEndpointsJSONOutput env w c date sd ed eps).1 ∧
      (∀ ep ∈ eps, "/" ++ endpointName ep = ep) ∧
      (eps.map endpointName).Nodup ∧
      (fetchEndpointsJSONOutput env w c date sd ed eps).1.Endpoints.keys =
        eps.map endpointName ∧
      (apiGetEach env (rangeParams sd ed) w eps).1.length = eps.length ∧
      (∀ (pre post : List String) (ep : String), eps = pre ++ ep :: post →
        ∀ r : Except String String,
          r = (apiGet env (apiGetEach env (rangeParams sd ed) w pre).2 ep
            (rangeParams sd ed)).1 →
          (fetchEndpointsJSONOutput env w c date sd ed eps).1.Endpoints.get (endpointName ep) =
            some (endpointResultOf r) ∧
          (∀ body, r = .ok body →
            endpointResultOf r = { Data := some body, Error := "" }) ∧
          (∀ err, r = .error err →
            endpointResultOf r = { Data := none, Error := err })) := by
  have hnd : (eps.map endpointName).Nodup ∧ ∀ ep ∈ eps, "/" ++ endpointName ep = ep := by
    simp only [commandEndpoints, List.mem_cons, Prod.mk.injEq, List.mem_singleton,
      List.not_mem_nil, or_false] at h
    rcases h with h | h | h | h | h | h | h | h | h | h | h <;>
      (obtain ⟨_, h2⟩ := h; subst h2; decide)
  refine ⟨_, _, dateCommandJSON_eq env w c eps date h, rfl, hnd.2, hnd.1, ?_,
    apiGetEach_length env _ eps w, ?_⟩
  · rw [fetchEndpointsJSONOutput_eq env w c date _ _ eps hnd.1]
    simp only [EndpointMap.keys]
    rw [List.map_fst_zip]
    rw [List.length_map, List.length_map, apiGetEach_length]
  · intro pre post ep heq r hr
    subst heq
    refine ⟨?_, ?_, ?_⟩
    · rw [hr]
      exact fetchEndpointsJSONOutput_get env w c date _ _ pre post ep hnd.1
    · intro body hb; rw [hb]; rfl
    · intro err he; rw [he]; rfl

theorem fetchEndpointsJSON_endpoints_witness :
    ("sleep", ["/sleep", "/daily_sleep"]) ∈ commandEndpoints ∧
    (fetchEndpointsJSONOutput (mixedEnv "\x7b\"ok\":1\x7d" "/sleep") freshWorld "sleep" "2024-05-01"
      "2024-04-30" "2024-05-02" ["/sleep", "/daily_sleep"]).1.Endpoints.entries =
      [("sleep", { Data := none, Error := "API error 500: down" }),
       ("daily_sleep", { Data := some "\x7b\"ok\":1\x7d", Error := "" })] ∧
    ∃ sd ed : String,
      dateCommandJSON (mixedEnv "\x7b\"ok\":1\x7d" "/sleep") freshWorld "sleep" "2024-05-01" =
        some (fetchEndpointsJSON (mixedEnv "\x7b\"ok\":1\x7d" "/sleep") freshWorld "sleep"
          "2024-05-01" sd ed ["/sleep", "/daily_sleep"]) ∧
      (fetchEndpointsJSONOutput (mixedEnv "\x7b\"ok\":1\x7d" "/sleep") freshWorld "sleep" "2024-05-01"
        sd ed ["/sleep", "/daily_sleep"]).1.Endpoints.keys = ["sleep", "daily_sleep"] := by
  refine ⟨by decide, by decide, ?_⟩
  obtain ⟨sd, ed, h1, _, _, _, h5, _⟩ :=
    fetchEndpointsJSON_endpoints (mixedEnv "\x7b\"ok\":1\x7d" "/sleep") freshWorld "sleep"
      ["/sleep", "/daily_sleep"] "2024-05-01" (by decide)
  exact ⟨sd, ed, h1, h5⟩

/-! ### Claims on the date range of the JSON mode -/

theorem fetchEndpointsLoop_world (env : Env) (params : Values) :
    ∀ (eps : List String) (m : EndpointMap) (w : World),
      (fetchEndpointsLoop env params m w eps).2 = (apiGetEach env params w eps).2 := by
  intro eps
  induction eps with
  | nil => intro m w; rfl
  | cons ep rest ih =>
    intro m w
    rcases hget : apiGet env w ep params with ⟨r, w1⟩
    simp only [fetchEndpointsLoop, apiGetEach, hget]
    exact ih _ w1

theorem fetchEndpointsJSONOutput_range (env : Env) (w : World)
    (command date sd ed : String) (eps : List String) :
    (fetchEndpointsJSONOutput env w command date sd ed eps).1.StartDate = sd ∧
    (fetchEndpointsJSONOutput env w command date sd ed eps).1.EndDate = ed ∧
    (fetchEndpointsJSONOutput env w command date sd ed eps).2 =
      (apiGetEach env (rangeParams sd ed) w eps).2 ∧
    (rangeParams sd ed).entries = [("start_date", sd), ("end_date", ed)] := by
  refine ⟨rfl, rfl, ?_, ?_⟩
  · exact fetchEndpointsLoop_world env (rangeParams sd ed) eps {} w
  · simp [rangeParams, Values.set]

theorem paddedDateRange_of_parse (s : String) (y m d : Int)
    (h : parseDate s = some (y, m, d)) :
    paddedDateRange s 1 1 = (formatDate (prevDay y m d), formatDate (nextDay y m d)) := by
  have hv := (parseDate_valid s y m d h).1
  simp only [paddedDateRange, h]
  rw [absDate_prev y m d hv, absDate_next y m d hv]

theorem prevDay_year (y m d : Int) :
    (prevDay y m d).1 = y ∨ ((prevDay y m d).1 = y - 1 ∧ m ≤ 1 ∧ d ≤ 1) := by
  unfold prevDay
  split_ifs
  · exact Or.inl rfl
  · exact Or.inl rfl
  · exact Or.inr ⟨rfl, by omega, by omega⟩

theorem nextDay_year (y m d : Int) (hv : validDate y m d) :
    (nextDay y m d).1 = y ∨ ((nextDay y m d).1 = y + 1 ∧ m = 12 ∧ d = 31) := by
  obtain ⟨hm1, hm2, hd1, hd2⟩ := hv
  unfold nextDay
  split_ifs with h1 h2
  · exact Or.inl rfl
  · exact Or.inl rfl
  · have hm : m = 12 := by omega
    subst hm
    have hd : daysIn 12 y = 31 := by rw [daysIn_eq]; simp [daysBefore]
    exact Or.inr ⟨rfl, rfl, by omega⟩

/-- C19: for a date text `s` that parses as the calendar date `(y, m, d)`,
`paddedDateRange s 1 1` is the calendar day before and the calendar day after,
each written by the date layout; unless the day before falls before year 0 or
the day after falls after year 9999, these texts have the form `YYYY-MM-DD` and
read back as those days. In JSON mode `sleep`, `activity`, `readiness`, `hrv`
and `all` run `fetchEndpointsJSON` with that pair as start and end date, and
`heartrate`, `stress`, `spo2`, `resilience`, `vo2` and `workout` run it with
`s` for both. The start and end date given to `fetchEndpointsJSON` are the
fields of the output and the `start_date` and `end_date` of every request.
Every valid date of the years 0 to 9999, written by the layout, parses as
itself. -/
theorem paddedDateRange_spec (env : Env) (w : World) (s : String) (y m d : Int)
    (h : parseDate s = some (y, m, d)) :
    paddedDateRange s 1 1 = (formatDate (prevDay y m d), formatDate (nextDay y m d)) ∧
    ((y, m, d) ≠ (0, 1, 1) → parseDate (paddedDateRange s 1 1).1 = some (prevDay y m d)) ∧
    ((y, m, d) ≠ (9999, 12, 31) →
      parseDate (paddedDateRange s 1 1).2 = some (nextDay y m d)) ∧
    (∀ c ∈ paddedCommands, ∃ eps, (c, eps) ∈ commandEndpoints ∧
      dateCommandJSON env w c s = some (fetchEndpointsJSON env w c s
        (formatDate (prevDay y m d)) (formatDate (nextDay y m d)) eps)) ∧
    (∀ c ∈ unpaddedCommands, ∃ eps, (c, eps) ∈ commandEndpoints ∧
      dateCommandJSON env w c s = some (fetchEndpointsJSON env w c s s s eps)) ∧
    (∀ (c sd ed : String) (eps : List String),
      (fetchEndpointsJSONOutput env w c s sd ed eps).1.StartDate = sd ∧
      (fetchEndpointsJSONOutput env w c s sd ed eps).1.EndDate = ed ∧
      (fetchEndpointsJSONOutput env w c s sd ed eps).2 =
        (apiGetEach env (rangeParams sd ed) w eps).2 ∧
      (rangeParams sd ed).entries = [("start_date", sd), ("end_date", ed)]) ∧
    (∀ y1 m1 d1 : Int, validDate y1 m1 d1 → 0 ≤ y1 → y1 ≤ 9999 →
      parseDate (formatDate (y1, m1, d1)) = some (y1, m1, d1)) := by
  obtain ⟨hv, hy0, hy1⟩ := parseDate_valid s y m d h
  have hpad := paddedDateRange_of_parse s y m d h
  refine ⟨hpad, ?_, ?_, ?_, ?_, ?_, ?_⟩
  · intro hne
    rw [hpad]
    have hpv := prevDay_valid y m d hv
    have hyr : 0 ≤ (prevDay y m d).1 ∧ (prevDay y m d).1 ≤ 9999 := by
      rcases prevDay_year y m d with e | ⟨e, e1, e2⟩
      · rw [e]; exact ⟨hy0, hy1⟩
      · rw [e]
        refine ⟨?_, by omega⟩
        by_contra hlt
        have hy : y = 0 := by omega
        have hm : m = 1 := by have := hv.1; omega
        have hd : d = 1 := by have := hv.2.2.1; omega
        exact hne (by rw [hy, hm, hd])
    exact parseDate_formatDate _ _ _ hpv hyr.1 hyr.2
  · intro hne
    rw [hpad]
    have hnv := nextDay_valid y m d hv
    have hyr : 0 ≤ (nextDay y m d).1 ∧ (nextDay y m d).1 ≤ 9999 := by
      rcases nextDay_year y m d hv with e | ⟨e, e1, e2⟩
      · rw [e]; exact ⟨hy0, hy1⟩
      · rw [e]
        refine ⟨by omega, ?_⟩
        by_contra hlt
        have hy : y = 9999 := by omega
        exact hne (by rw [hy, e1, e2])
    exact parseDate_formatDate _ _ _ hnv hyr.1 hyr.2
  · intro c hc
    simp only [paddedCommands, List.mem_cons, List.mem_singleton, List.not_mem_nil,
      or_false] at hc
    rcases hc with hc | hc | hc | hc | hc <;> subst hc
    · have hmem : ("sleep", ["/sleep", "/daily_sleep"]) ∈ commandEndpoints := by decide
      refine ⟨_, hmem, ?_⟩
      rw [dateCommandJSON_eq env w _ _ s hmem, if_pos (by decide), if_pos (by decide), hpad]
    · have hmem : ("activity", ["/daily_activity"]) ∈ commandEndpoints := by decide
      refine ⟨_, hmem, ?_⟩
      rw [dateCommandJSON_eq env w _ _ s hmem, if_pos (by decide), if_pos (by decide), hpad]
    · have hmem : ("readiness", ["/daily_readiness"]) ∈ commandEndpoints := by decide
      refine ⟨_, hmem, ?_⟩
      rw [dateCommandJSON_eq env w _ _ s hmem, if_pos (by decide), if_pos (by decide), hpad]
    · have hmem : ("hrv", ["/sleep", "/daily_sleep", "/daily_readiness"]) ∈ commandEndpoints := by decide
      refine ⟨_, hmem, ?_⟩
      rw [dateCommandJSON_eq env w _ _ s hmem, if_pos (by decide), if_pos (by decide), hpad]
    · have hmem : ("all", ["/sleep", "/daily_sleep", "/daily_activity", "/daily_readiness",
          "/heartrate", "/daily_stress", "/daily_spo2", "/daily_resilience", "/vO2_max",
          "/workout"]) ∈ commandEndpoints := by decide
      refine ⟨_, hmem, ?_⟩
      rw [dateCommandJSON_eq env w _ _ s hmem, if_pos (by decide), if_pos (by decide), hpad]
  · intro c hc
    simp only [unpaddedCommands, List.mem_cons, List.mem_singleton, List.not_mem_nil,
      or_false] at hc
    rcases hc with hc | hc | hc | hc | hc | hc <;> subst hc
    · exact ⟨["/heartrate"], by decide, rfl⟩
    · exact ⟨["/daily_stress"], by decide, rfl⟩
    · exact ⟨["/daily_spo2"], by decide, rfl⟩
    · exact ⟨["/daily_resilience"], by decide, rfl⟩
    · exact ⟨["/vO2_max"], by decide, rfl⟩
    · exact ⟨["/workout"], by decide, rfl⟩
  · intro c sd ed eps
    exact fetchEndpointsJSONOutput_range env w c s sd ed eps
  · intro y1 m1 d1 hv1 h0 h1
    exact parseDate_formatDate y1 m1 d1 hv1 h0 h1

theorem paddedDateRange_spec_witness :
    parseDate "2024-02-29" = some (2024, 2, 29) ∧
    paddedDateRange "2024-02-29" 1 1 = ("2024-02-28", "2024-03-01") :=
  ⟨by decide,
    (paddedDateRange_spec (exampleEnv 200 200 "{}" 3600) freshWorld "2024-02-29" 2024 2 29
      (by decide)).1.trans (by decide)⟩

/-- The two ends of the range of years: the day after the last day of year 9999
and the day before the first day of year 0, as the date layout writes them. -/
theorem paddedDateRange_year_ends :
    paddedDateRange "9999-12-31" 1 1 = ("9999-12-30", "10000-01-01") ∧
    paddedDateRange "0000-01-01" 1 1 = ("-0001-12-31", "0000-01-02") ∧
    paddedDateRange "2023-12-31" 1 1 = ("2023-12-30", "2024-01-01") ∧
    paddedDateRange "2023-03-01" 1 1 = ("2023-02-28", "2023-03-02") ∧
    paddedDateRange "2023-02-29" 1 1 = ("2023-02-29", "2023-02-29") := by
  decide

/-! ### Claims on the bytes of the JSON mode -/

theorem indentLoop_append (a b : List Char) :
    ∀ st : IndentState, indentLoop st (a ++ b) =
      match indentLoop st a with
      | none => none
      | some (st1, out1) =>
        match indentLoop st1 b with
        | none => none
        | some (st2, out2) => some (st2, out1 ++ out2) := by
  induction a with
  | nil =>
    intro st
    simp only [List.nil_append, indentLoop]
    cases indentLoop st b with
    | none => rfl
    | some r => rfl
  | cons c cs ih =>
    intro st
    simp only [List.cons_append, indentLoop]
    cases hstep : indentStep st c with
    | none => rfl
    | some r =>
      obtain ⟨st1, out1⟩ := r
      simp only [List.append_eq]
      rw [ih st1]
      cases indentLoop st1 cs with
      | none => rfl
      | some r2 =>
        obtain ⟨st2, out2⟩ := r2
        simp only []
        cases indentLoop st2 b with
        | none => rfl
        | some r3 => simp [List.append_assoc]

theorem digit_toNat (c : Char) (hc : '0' ≤ c ∧ c ≤ '9') : 48 ≤ c.toNat ∧ c.toNat ≤ 57 := by
  obtain ⟨h1, h2⟩ := hc
  rw [Char.le_def] at h1 h2
  exact ⟨h1, h2⟩

theorem digit_ne (c d : Char) (hc : '0' ≤ c ∧ c ≤ '9') (hd : d.toNat < 48 ∨ 57 < d.toNat) :
    c ≠ d := by
  intro h
  have := digit_toNat c hc
  rw [h] at this
  omega

theorem scanStep_state1_digit (s : Scanner) (hs : s.step = ScanStep.state1) (c : Char)
    (hc : '0' ≤ c ∧ c ≤ '9') : scanStep s c = (ScanCode.scanContinue, s) := by
  obtain ⟨step, ps, et, er⟩ := s
  simp only at hs
  subst hs
  simp only [scanStep, if_pos hc]

theorem jsonCompactLoop_digits (s : Scanner) (hs : s.step = ScanStep.state1) (rest : List Char) :
    ∀ ds : List Char, (∀ c ∈ ds, '0' ≤ c ∧ c ≤ '9') →
      jsonCompactLoop s (ds ++ rest) =
        match jsonCompactLoop s rest with
        | none => none
        | some (out, s2) => some (ds ++ out, s2) := by
  intro ds
  induction ds with
  | nil =>
    intro _
    simp only [List.nil_append]
    cases jsonCompactLoop s rest with
    | none => rfl
    | some r => rfl
  | cons c cs ih =>
    intro hds
    have hc := hds c (List.mem_cons_self _ _)
    have hcs := ih (fun x hx => hds x (List.mem_cons_of_mem _ hx))
    have ht := digit_toNat c hc
    have n1 : ¬ (c = '<' ∨ c = '>' ∨ c = '&') := by
      intro h
      rcases h with h | h | h <;> exact digit_ne c _ hc (by decide) h
    have n2 : ¬ (c.toNat = 0x2028 ∨ c.toNat = 0x2029) := by omega
    simp only [List.cons_append, jsonCompactLoop, scanStep_state1_digit s hs c hc, if_neg n1,
      if_neg n2, List.append_eq]
    rw [hcs]
    cases jsonCompactLoop s rest with
    | none => simp
    | some r => simp

theorem scanStep_begin_digit (s : Scanner) (hs : s.step = ScanStep.stateBeginValue) (c : Char)
    (hc : '1' ≤ c ∧ c ≤ '9') :
    scanStep s c = (ScanCode.scanBeginLiteral, { s with step := ScanStep.state1 }) := by
  have hc0 : '0' ≤ c ∧ c ≤ '9' := ⟨le_trans (by decide) hc.1, hc.2⟩
  have hne : ∀ d : Char, (d.toNat < 48 ∨ 57 < d.toNat) → ¬ c = d :=
    fun d hd => digit_ne c d hc0 hd
  have h0 : ¬ c = '0' := by
    intro h
    rw [h] at hc
    exact absurd hc.1 (by decide)
  have hsp : jsonIsSpace c = false := by
    simp only [jsonIsSpace, Bool.or_eq_false_iff, decide_eq_false_iff_not]
    exact ⟨⟨⟨hne _ (by decide), hne _ (by decide)⟩, hne _ (by decide)⟩, hne _ (by decide)⟩
  simp only [scanStep, hs, stateBeginValue, hsp, Bool.false_eq_true, if_false,
    if_neg (hne '\x7b' (by decide)), if_neg (hne '[' (by decide)), if_neg (hne '"' (by decide)),
    if_neg (hne '-' (by decide)), if_neg h0, if_neg (hne 't' (by decide)),
    if_neg (hne 'f' (by decide)), if_neg (hne 'n' (by decide)), if_pos hc]

theorem jsonCompact_digits (d : Char) (ds : List Char) (hd : '1' ≤ d ∧ d ≤ '9')
    (hds : ∀ c ∈ ds, '0' ≤ c ∧ c ≤ '9') : jsonCompact (d :: ds) = some (d :: ds) := by
  have hd0 : '0' ≤ d ∧ d ≤ '9' := ⟨le_trans (by decide) hd.1, hd.2⟩
  have ht := digit_toNat d hd0
  have n1 : ¬ (d = '<' ∨ d = '>' ∨ d = '&') := by
    intro h
    rcases h with h | h | h <;> exact digit_ne d _ hd0 (by decide) h
  have n2 : ¬ (d.toNat = 0x2028 ∨ d.toNat = 0x2029) := by omega
  have hrun := jsonCompactLoop_digits { step := ScanStep.state1 } rfl [] ds hds
  rw [List.append_nil] at hrun
  simp only [jsonCompact, jsonCompactLoop, scanStep_begin_digit {} rfl d hd, if_neg n1,
    if_neg n2, hrun]
  simp [scanEOF, scanStep, state0, stateEndValue, stateEndTop, jsonIsSpace]

theorem indentStep_state1_digit (st : IndentState) (hs : st.scan.step = ScanStep.state1)
    (hn : st.needIndent = false) (c : Char) (hc : '0' ≤ c ∧ c ≤ '9') :
    indentStep st c = some (st, [c]) := by
  obtain ⟨scan, need, depth⟩ := st
  simp only at hs hn
  subst hn
  simp [indentStep, scanStep_state1_digit scan hs c hc]

theorem indentLoop_digits (st : IndentState) (hs : st.scan.step = ScanStep.state1)
    (hn : st.needIndent = false) (rest : List Char) :
    ∀ ds : List Char, (∀ c ∈ ds, '0' ≤ c ∧ c ≤ '9') →
      indentLoop st (ds ++ rest) =
        match indentLoop st rest with
        | none => none
        | some (st2, out) => some (st2, ds ++ out) := by
  intro ds
  induction ds with
  | nil =>
    intro _
    simp only [List.nil_append]
    cases indentLoop st rest with
    | none => rfl
    | some r => rfl
  | cons c cs ih =>
    intro hds
    have hc := hds c (List.mem_cons_self _ _)
    have hcs := ih (fun x hx => hds x (List.mem_cons_of_mem _ hx))
    simp only [List.cons_append, indentLoop, indentStep_state1_digit st hs hn c hc,
      List.append_eq]
    rw [hcs]
    cases indentLoop st rest with
    | none => simp
    | some r => simp

theorem indentStep_data_digit (c : Char) (hc : '1' ≤ c ∧ c ≤ '9') :
    indentStep dataState c =
      some ({ scan := { step := ScanStep.state1,
                        parseState := [ParseState.parseObjectValue,
                          ParseState.parseObjectValue, ParseState.parseObjectValue] },
              needIndent := false, depth := 3 }, [c]) := by
  have hc0 : '0' ≤ c ∧ c ≤ '9' := ⟨le_trans (by decide) hc.1, hc.2⟩
  have hne : ∀ d : Char, (d.toNat < 48 ∨ 57 < d.toNat) → ¬ c = d :=
    fun d hd => digit_ne c d hc0 hd
  have hstep := scanStep_begin_digit dataState.scan rfl c hc
  simp only [dataState] at hstep
  simp [indentStep, dataState, hstep,
    hne '\x7b' (by decide), hne '[' (by decide), hne ',' (by decide), hne ':' (by decide),
    hne '\x7d' (by decide), hne ']' (by decide)]

/-- The indentation of a digit run followed by the end of the document. -/
theorem indentLoop_data_digits (d : Char) (ds : List Char) (hd : '1' ≤ d ∧ d ≤ '9')
    (hds : ∀ c ∈ ds, '0' ≤ c ∧ c ≤ '9') :
    indentLoop dataState (d :: ds ++ "\x7d\x7d\x7d\n".data) =
      some ({ scan := { step := ScanStep.stateEndTop, endTop := true }, depth := 0 },
        d :: ds ++ "\n    \x7d\n  \x7d\n\x7d\n".data) := by
  have hrun := indentLoop_digits
    { scan := { step := ScanStep.state1,
                parseState := [ParseState.parseObjectValue,
                  ParseState.parseObjectValue, ParseState.parseObjectValue] },
      needIndent := false, depth := 3 } rfl rfl
    "\x7d\x7d\x7d\n".data ds hds
  have htail : indentLoop
      { scan := { step := ScanStep.state1,
                  parseState := [ParseState.parseObjectValue,
                    ParseState.parseObjectValue, ParseState.parseObjectValue] },
        needIndent := false, depth := 3 }
      "\x7d\x7d\x7d\n".data =
      some ({ scan := { step := ScanStep.stateEndTop, endTop := true }, depth := 0 },
        "\n    \x7d\n  \x7d\n\x7d\n".data) := by
    decide
  rw [htail] at hrun
  rw [List.cons_append, indentLoop, indentStep_data_digit d hd]
  dsimp only
  rw [hrun]
  rfl

theorem jsonIsHex_hexChar (n : Nat) : jsonIsHex (hexChar n) = true := by
  by_cases h : n < 16
  · interval_cases n <;> decide
  · have : hexChar n = '0' := by
      unfold hexChar
      rw [List.getD_eq_default]
      simp only [List.length_cons, List.length_nil]
      omega
    rw [this]
    decide

theorem indentStep_continue (st : IndentState) (c : Char) (s1 : Scanner)
    (hn : st.needIndent = false) (hr : scanStep st.scan c = (ScanCode.scanContinue, s1)) :
    indentStep st c = some ({ st with scan := s1 }, [c]) := by
  obtain ⟨scan, need, depth⟩ := st
  simp only at hn hr
  subst hn
  simp [indentStep, hr]

/-- Inside a string the indentation loop copies the characters of an escaped
character and comes back to the state it was in. -/
theorem indentLoop_escapeChar (ps : List ParseState) (et er : Bool) (depth : Nat) (c : Char)
    (rest : List Char) :
    indentLoop ⟨⟨ScanStep.stateInString, ps, et, er⟩, false, depth⟩ (jsonEscapeChar c ++ rest) =
      match indentLoop ⟨⟨ScanStep.stateInString, ps, et, er⟩, false, depth⟩ rest with
      | none => none
      | some (st2, out) => some (st2, jsonEscapeChar c ++ out) := by
  have hx := jsonIsHex_hexChar
  unfold jsonEscapeChar
  split_ifs with h1 h2 h3 h4 h5 h6 h7 h8
  · cases hrest : indentLoop ⟨⟨ScanStep.stateInString, ps, et, er⟩, false, depth⟩ rest <;>
      rcases h1 with h1 | h1 <;> subst h1 <;>
      simp [indentLoop, indentStep, scanStep, hrest]
  · cases hrest : indentLoop ⟨⟨ScanStep.stateInString, ps, et, er⟩, false, depth⟩ rest <;>
      simp [indentLoop, indentStep, scanStep, hrest]
  · cases hrest : indentLoop ⟨⟨ScanStep.stateInString, ps, et, er⟩, false, depth⟩ rest <;>
      simp [indentLoop, indentStep, scanStep, hrest]
  · cases hrest : indentLoop ⟨⟨ScanStep.stateInString, ps, et, er⟩, false, depth⟩ rest <;>
      simp [indentLoop, indentStep, scanStep, hrest]
  · cases hrest : indentLoop ⟨⟨ScanStep.stateInString, ps, et, er⟩, false, depth⟩ rest <;>
      simp [indentLoop, indentStep, scanStep, hrest]
  · cases hrest : indentLoop ⟨⟨ScanStep.stateInString, ps, et, er⟩, false, depth⟩ rest <;>
      simp [indentLoop, indentStep, scanStep, hrest]
  · have h0 : jsonIsHex '0' = true := by decide
    cases hrest : indentLoop ⟨⟨ScanStep.stateInString, ps, et, er⟩, false, depth⟩ rest <;>
      simp [indentLoop, indentStep, scanStep, hx, h0, hrest]
  · have h0 : jsonIsHex '0' = true := by decide
    have h2 : jsonIsHex '2' = true := by decide
    cases hrest : indentLoop ⟨⟨ScanStep.stateInString, ps, et, er⟩, false, depth⟩ rest <;>
      simp [indentLoop, indentStep, scanStep, hx, h0, h2, hrest]
  · have hq : ¬ c = '"' := fun h => h1 (Or.inr h)
    have hb : ¬ c = '\\' := fun h => h1 (Or.inl h)
    have hlt : ¬ c.toNat < 32 := fun h => h7 (Or.inl h)
    cases hrest : indentLoop ⟨⟨ScanStep.stateInString, ps, et, er⟩, false, depth⟩ rest <;>
      simp [indentLoop, indentStep, scanStep, hq, hb, hlt, hrest]

theorem indentLoop_escaped (ps : List ParseState) (et er : Bool) (depth : Nat)
    (rest : List Char) :
    ∀ cs : List Char,
      indentLoop ⟨⟨ScanStep.stateInString, ps, et, er⟩, false, depth⟩
          ((cs.map jsonEscapeChar).flatten ++ rest) =
        match indentLoop ⟨⟨ScanStep.stateInString, ps, et, er⟩, false, depth⟩ rest with
        | none => none
        | some (st2, out) => some (st2, (cs.map jsonEscapeChar).flatten ++ out) := by
  intro cs
  induction cs with
  | nil =>
    simp only [List.map_nil, List.flatten_nil, List.nil_append]
    cases indentLoop ⟨⟨ScanStep.stateInString, ps, et, er⟩, false, depth⟩ rest with
    | none => rfl
    | some r => rfl
  | cons c cs ih =>
    simp only [List.map_cons, List.flatten_cons, List.append_assoc]
    rw [indentLoop_escapeChar, ih]
    cases indentLoop ⟨⟨ScanStep.stateInString, ps, et, er⟩, false, depth⟩ rest with
    | none => rfl
    | some r => rfl

set_option maxRecDepth 1000000 in
/-- The indentation of the document of a command with one endpoint, up to the
name of the endpoint: the printed text up to there, and the state `keyState`. -/
theorem indentLoop_documentStart (command date sd ed name : String) :
    indentLoop {} (documentStart command date sd ed name) =
      some (keyState, printedStart command date sd ed name) := by
  have hdoc : documentStart command date sd ed name =
      "\x7b\"command\":\"".data ++ ((command.data.map jsonEscapeChar).flatten ++
      ("\",\"date\":\"".data ++ ((date.data.map jsonEscapeChar).flatten ++
      ("\",\"start_date\":\"".data ++ ((sd.data.map jsonEscapeChar).flatten ++
      ("\",\"end_date\":\"".data ++ ((ed.data.map jsonEscapeChar).flatten ++
      ("\",\"endpoints\":\x7b\"".data ++ ((name.data.map jsonEscapeChar).flatten ++
      "\"".data))))))))) := by
    simp [documentStart, jsonString, List.append_assoc]
  have hhead : printedStart command date sd ed name =
      "\x7b\n  \"command\": \"".data ++ ((command.data.map jsonEscapeChar).flatten ++
      ("\",\n  \"date\": \"".data ++ ((date.data.map jsonEscapeChar).flatten ++
      ("\",\n  \"start_date\": \"".data ++ ((sd.data.map jsonEscapeChar).flatten ++
      ("\",\n  \"end_date\": \"".data ++ ((ed.data.map jsonEscapeChar).flatten ++
      ("\",\n  \"endpoints\": \x7b\n    \"".data ++ ((name.data.map jsonEscapeChar).flatten ++
      "\"".data))))))))) := by
    simp [printedStart, jsonString, List.append_assoc]
  have r6 : indentLoop
      ⟨⟨ScanStep.stateInString, [ParseState.parseObjectKey, ParseState.parseObjectValue],
        false, false⟩, false, 2⟩ "\"".data =
      some (keyState, "\"".data) := by decide
  have r5 : indentLoop
      ⟨⟨ScanStep.stateInString, [ParseState.parseObjectValue], false, false⟩, false, 1⟩
      "\",\"endpoints\":\x7b\"".data =
      some (⟨⟨ScanStep.stateInString, [ParseState.parseObjectKey, ParseState.parseObjectValue],
        false, false⟩, false, 2⟩, "\",\n  \"endpoints\": \x7b\n    \"".data) := by decide
  have r4 : indentLoop
      ⟨⟨ScanStep.stateInString, [ParseState.parseObjectValue], false, false⟩, false, 1⟩
      "\",\"end_date\":\"".data =
      some (⟨⟨ScanStep.stateInString, [ParseState.parseObjectValue], false, false⟩, false, 1⟩,
        "\",\n  \"end_date\": \"".data) := by decide
  have r3 : indentLoop
      ⟨⟨ScanStep.stateInString, [ParseState.parseObjectValue], false, false⟩, false, 1⟩
      "\",\"start_date\":\"".data =
      some (⟨⟨ScanStep.stateInString, [ParseState.parseObjectValue], false, false⟩, false, 1⟩,
        "\",\n  \"start_date\": \"".data) := by decide
  have r2 : indentLoop
      ⟨⟨ScanStep.stateInString, [ParseState.parseObjectValue], false, false⟩, false, 1⟩
      "\",\"date\":\"".data =
      some (⟨⟨ScanStep.stateInString, [ParseState.parseObjectValue], false, false⟩, false, 1⟩,
        "\",\n  \"date\": \"".data) := by decide
  have r1 : indentLoop {} "\x7b\"command\":\"".data =
      some (⟨⟨ScanStep.stateInString, [ParseState.parseObjectValue], false, false⟩, false, 1⟩,
        "\x7b\n  \"command\": \"".data) := by decide
  rw [hdoc, hhead, indentLoop_append, r1]
  dsimp only
  rw [indentLoop_escaped, indentLoop_append, r2]
  dsimp only
  rw [indentLoop_escaped, indentLoop_append, r3]
  dsimp only
  rw [indentLoop_escaped, indentLoop_append, r4]
  dsimp only
  rw [indentLoop_escaped, indentLoop_append, r5]
  dsimp only
  rw [indentLoop_escaped, r6]

theorem string_ne_empty (body : String) (h : body ≠ "") : body.data.length ≠ 0 := by
  intro hl
  apply h
  have hd : body.data = [] := List.length_eq_zero.mp hl
  exact String.ext hd

theorem single_output (env : Env) (w w1 : World) (command date sd ed ep body : String)
    (h : apiGet env w ep (rangeParams sd ed) = (.ok body, w1)) :
    fetchEndpointsJSON env w command date sd ed [ep] =
      writeJSONToStdout env w1
        { Command := command, Date := date, StartDate := sd, EndDate := ed,
          Endpoints := EndpointMap.mk [(endpointName ep, { Data := some body, Error := "" })] } := by
  rw [fetchEndpointsJSON, fetchEndpointsJSONOutput_eq env w _ _ _ _ _ (by simp)]
  simp only [apiGetEach, h]
  rfl

theorem marshal_single (env : Env) (command date sd ed name body : String) (c : List Char)
    (hne : body.data.length ≠ 0) (hc : jsonCompact body.data = some c) :
    marshalJSONOutput env
        { Command := command, Date := date, StartDate := sd, EndDate := ed,
          Endpoints := EndpointMap.mk [(name, { Data := some body, Error := "" })] } =
      .ok (documentStart command date sd ed name ++
        (":\x7b\"data\":".data ++ (c ++ "\x7d\x7d\x7d".data))) := by
  simp only [marshalJSONOutput, sortEntries, List.foldr, insertEntry, marshalEntries,
    marshalEndpointResult, Option.getD, if_neg hne, hc, if_true, List.intercalate,
    documentStart]
  simp only [List.intersperse, List.flatten, List.append_assoc, List.cons_append,
    List.nil_append, List.append_nil]

theorem marshal_single_empty (env : Env) (command date sd ed name : String) :
    marshalJSONOutput env
        { Command := command, Date := date, StartDate := sd, EndDate := ed,
          Endpoints := EndpointMap.mk [(name, { Data := some "", Error := "" })] } =
      .ok (documentStart command date sd ed name ++ ":\x7b\x7d\x7d\x7d".data) := by
  simp only [marshalJSONOutput, sortEntries, List.foldr, insertEntry, marshalEntries,
    marshalEndpointResult, Option.getD, List.intercalate, documentStart]
  simp [List.intersperse, List.append_assoc]

set_option maxRecDepth 1000000 in
/-- C18, counterexample: the remote answers `\x7b"ok":1\x7d` to `heartrate`, and
the same to every endpoint of `all`; the command returns, and the text it prints
holds the value of `data` spread over three lines with eight and six spaces of
indentation and a space after the colon, so that the body does not occur in the
printed text. A body `"<b>"` is printed with `<` and `>` replaced by escapes,
and a body `[1, 2]` is printed over four lines. -/
theorem json_data_counterexample :
    (apiGet (exampleEnv 200 200 "\x7b\"ok\":1\x7d" 3600) freshWorld "/heartrate"
      (rangeParams "2024-05-01" "2024-05-01")).1 = .ok "\x7b\"ok\":1\x7d" ∧
    (fetchHeartRateJSON (exampleEnv 200 200 "\x7b\"ok\":1\x7d" 3600) freshWorld
      "2024-05-01").1 = Outcome.returned ∧
    printedTexts (fetchHeartRateJSON (exampleEnv 200 200 "\x7b\"ok\":1\x7d" 3600) freshWorld
      "2024-05-01").2 =
      ["\x7b\n  \"command\": \"heartrate\",\n  \"date\": \"2024-05-01\",\n" ++
       "  \"start_date\": \"2024-05-01\",\n  \"end_date\": \"2024-05-01\",\n" ++
       "  \"endpoints\": \x7b\n    \"heartrate\": \x7b\n      \"data\": \x7b\n" ++
       "        \"ok\": 1\n      \x7d\n    \x7d\n  \x7d\n\x7d\n"] ∧
    (∀ text ∈ printedTexts (fetchHeartRateJSON (exampleEnv 200 200 "\x7b\"ok\":1\x7d" 3600)
      freshWorld "2024-05-01").2, occursIn "\x7b\"ok\":1\x7d".data text.data = false) ∧
    (∀ text ∈ printedTexts (fetchAllJSON (exampleEnv 200 200 "\x7b\"ok\":1\x7d" 3600)
      freshWorld "2024-05-01").2, occursIn "\x7b\"ok\":1\x7d".data text.data = false) ∧
    printedTexts (fetchHeartRateJSON (exampleEnv 200 200 "\"<b>\"" 3600) freshWorld
      "2024-05-01").2 =
      ["\x7b\n  \"command\": \"heartrate\",\n  \"date\": \"2024-05-01\",\n" ++
       "  \"start_date\": \"2024-05-01\",\n  \"end_date\": \"2024-05-01\",\n" ++
       "  \"endpoints\": \x7b\n    \"heartrate\": \x7b\n" ++
       "      \"data\": \"\\u003cb\\u003e\"\n    \x7d\n  \x7d\n\x7d\n"] ∧
    printedTexts (fetchHeartRateJSON (exampleEnv 200 200 "[1, 2]" 3600) freshWorld
      "2024-05-01").2 =
      ["\x7b\n  \"command\": \"heartrate\",\n  \"date\": \"2024-05-01\",\n" ++
       "  \"start_date\": \"2024-05-01\",\n  \"end_date\": \"2024-05-01\",\n" ++
       "  \"endpoints\": \x7b\n    \"heartrate\": \x7b\n" ++
       "      \"data\": [\n        1,\n        2\n      ]\n    \x7d\n  \x7d\n\x7d\n"] := by
  refine ⟨rfl, by decide, by decide, by decide, by decide, by decide, by decide⟩


set_option maxRecDepth 1000000 in
theorem indentLoop_keyState :
    indentLoop keyState ":\x7b\"data\":".data =
      some (dataState, ": \x7b\n      \"data\": ".data) ∧
    indentLoop keyState ":\x7b\x7d\x7d\x7d\n".data =
      some ({ scan := { step := ScanStep.stateEndTop, endTop := true }, depth := 0 },
        ": \x7b\x7d\n  \x7d\n\x7d\n".data) := by
  decide

/-- C18: a date command with one endpoint `ep`, whose request is answered
with the body `body`. An empty body gives an entry without `data`. A body that
is not one JSON value makes the command exit with status 1 after `Error: ...`
on standard error, and nothing is printed. Otherwise the value of `data` is
the compact form of the body (white space outside strings dropped, `<`, `>`,
`&`, U+2028 and U+2029 replaced by escapes) indented anew from depth 3
together with the end of the document. A body that is a run of digits not
starting with `0` is printed unchanged. The date commands with one endpoint
run `fetchEndpointsJSON` in this way. -/
theorem json_data_reindented (env : Env) (w w1 : World)
    (command date sd ed ep body : String)
    (h : apiGet env w ep (rangeParams sd ed) = (.ok body, w1)) :
    (body = "" →
      fetchEndpointsJSON env w command date sd ed [ep] =
        (Outcome.returned, { w1 with log := w1.log ++ [Event.print (String.mk
          (printedStart command date sd ed (endpointName ep) ++
            ": \x7b\x7d\n  \x7d\n\x7d\n".data))] })) ∧
    (body ≠ "" → jsonCompact body.data = none →
      fetchEndpointsJSON env w command date sd ed [ep] =
        (Outcome.exited 1 ("Error: " ++
          ("json: error calling MarshalJSON for type json.RawMessage: " ++
            env.jsonSyntaxError body) ++ "\n"), w1)) ∧
    (∀ c : List Char, body ≠ "" → jsonCompact body.data = some c →
      fetchEndpointsJSON env w command date sd ed [ep] =
        match indentLoop dataState (c ++ "\x7d\x7d\x7d\n".data) with
        | none =>
          (Outcome.exited 1 ("Error: " ++
            env.jsonSyntaxError (String.mk
              (documentStart command date sd ed (endpointName ep) ++
                (":\x7b\"data\":".data ++ (c ++ "\x7d\x7d\x7d".data)))) ++ "\n"), w1)
        | some (st, text) =>
          if scanEOF st.scan then
            (Outcome.returned, { w1 with log := w1.log ++ [Event.print (String.mk
              (printedStart command date sd ed (endpointName ep) ++
                (": \x7b\n      \"data\": ".data ++ text)))] })
          else
            (Outcome.exited 1 ("Error: " ++
              env.jsonSyntaxError (String.mk
                (documentStart command date sd ed (endpointName ep) ++
                  (":\x7b\"data\":".data ++ (c ++ "\x7d\x7d\x7d".data)))) ++ "\n"), w1)) ∧
    (∀ (d : Char) (ds : List Char), body.data = d :: ds → ('1' ≤ d ∧ d ≤ '9') →
      (∀ x ∈ ds, '0' ≤ x ∧ x ≤ '9') →
      fetchEndpointsJSON env w command date sd ed [ep] =
        (Outcome.returned, { w1 with log := w1.log ++ [Event.print (String.mk
          (printedStart command date sd ed (endpointName ep) ++
            (": \x7b\n      \"data\": ".data ++
              (body.data ++ "\n    \x7d\n  \x7d\n\x7d\n".data))))] })) ∧
    (∀ name path day : String, (name, [path]) ∈ commandEndpoints →
      ∃ first last : String, dateCommandJSON env w name day =
        some (fetchEndpointsJSON env w name day first last [path])) := by
  have hout := single_output env w w1 command date sd ed ep body h
  have hgen : ∀ c : List Char, body ≠ "" → jsonCompact body.data = some c →
      fetchEndpointsJSON env w command date sd ed [ep] =
        match indentLoop dataState (c ++ "\x7d\x7d\x7d\n".data) with
        | none =>
          (Outcome.exited 1 ("Error: " ++
            env.jsonSyntaxError (String.mk
              (documentStart command date sd ed (endpointName ep) ++
                (":\x7b\"data\":".data ++ (c ++ "\x7d\x7d\x7d".data)))) ++ "\n"), w1)
        | some (st, text) =>
          if scanEOF st.scan then
            (Outcome.returned, { w1 with log := w1.log ++ [Event.print (String.mk
              (printedStart command date sd ed (endpointName ep) ++
                (": \x7b\n      \"data\": ".data ++ text)))] })
          else
            (Outcome.exited 1 ("Error: " ++
              env.jsonSyntaxError (String.mk
                (documentStart command date sd ed (endpointName ep) ++
                  (":\x7b\"data\":".data ++ (c ++ "\x7d\x7d\x7d".data)))) ++ "\n"), w1) := by
    intro c hne hc
    have hm := marshal_single env command date sd ed (endpointName ep) body c
      (string_ne_empty body hne) hc
    have happ : documentStart command date sd ed (endpointName ep) ++
          (":\x7b\"data\":".data ++ (c ++ "\x7d\x7d\x7d".data)) ++ ['\n'] =
        documentStart command date sd ed (endpointName ep) ++
          (":\x7b\"data\":".data ++ (c ++ "\x7d\x7d\x7d\n".data)) := by
      rw [List.append_assoc, List.append_assoc, List.append_assoc]
      rfl
    rw [hout, writeJSONToStdout, hm]
    dsimp only
    rw [jsonIndent, happ, indentLoop_append, indentLoop_documentStart]
    dsimp only
    rw [indentLoop_append, indentLoop_keyState.1]
    dsimp only
    cases indentLoop dataState (c ++ "\x7d\x7d\x7d\n".data) with
    | none => rfl
    | some r =>
      obtain ⟨st, text⟩ := r
      dsimp only
      by_cases he : scanEOF st.scan = true
      · rw [if_pos he, if_pos he]
      · rw [if_neg he, if_neg he]
  refine ⟨?_, ?_, hgen, ?_, ?_⟩
  · intro hb
    subst hb
    have happ : documentStart command date sd ed (endpointName ep) ++
          ":\x7b\x7d\x7d\x7d".data ++ ['\n'] =
        documentStart command date sd ed (endpointName ep) ++ ":\x7b\x7d\x7d\x7d\n".data := by
      rw [List.append_assoc]
      rfl
    rw [hout, writeJSONToStdout, marshal_single_empty env]
    dsimp only
    rw [jsonIndent, happ, indentLoop_append, indentLoop_documentStart]
    dsimp only
    rw [indentLoop_keyState.2]
    rfl
  · intro hne hc
    have hl := string_ne_empty body hne
    have hm : marshalJSONOutput env
        { Command := command, Date := date, StartDate := sd, EndDate := ed,
          Endpoints := EndpointMap.mk
            [(endpointName ep, { Data := some body, Error := "" })] } =
        .error ("json: error calling MarshalJSON for type json.RawMessage: " ++
          env.jsonSyntaxError body) := by
      simp only [marshalJSONOutput, sortEntries, List.foldr, insertEntry, marshalEntries,
        marshalEndpointResult, Option.getD, if_neg hl, hc]
    rw [hout, writeJSONToStdout, hm]
  · intro d ds hbody hd hds
    have hne : body ≠ "" := by
      intro hb
      rw [hb] at hbody
      exact absurd hbody (by simp)
    have hc : jsonCompact body.data = some body.data := by
      rw [hbody]
      exact jsonCompact_digits d ds hd hds
    rw [hgen body.data hne hc, hbody, indentLoop_data_digits d ds hd hds]
    rfl
  · intro name path day hmem
    exact ⟨_, _, dateCommandJSON_eq env w name [path] day hmem⟩

set_option maxRecDepth 1000000 in
theorem json_data_reindented_witness :
    apiGet (exampleEnv 200 200 "120" 3600) freshWorld "/heartrate"
        (rangeParams "2024-05-01" "2024-05-01") =
      (.ok "120", { freshWorld with log := [Event.send
        { method := "GET",
          url := "https://api.ouraring.com/v2/usercollection/heartrate" ++
            "?start_date=2024-05-01&end_date=2024-05-01",
          header := { entries := [("Authorization", "Bearer a1")] } }] }) ∧
    printedTexts (fetchHeartRateJSON (exampleEnv 200 200 "120" 3600) freshWorld
      "2024-05-01").2 =
      ["\x7b\n  \"command\": \"heartrate\",\n  \"date\": \"2024-05-01\",\n" ++
       "  \"start_date\": \"2024-05-01\",\n  \"end_date\": \"2024-05-01\",\n" ++
       "  \"endpoints\": \x7b\n    \"heartrate\": \x7b\n" ++
       "      \"data\": 120\n    \x7d\n  \x7d\n\x7d\n"] := by
  refine ⟨rfl, ?_⟩
  rw [fetchHeartRateJSON,
    (json_data_reindented (exampleEnv 200 200 "120" 3600) freshWorld _ "heartrate"
      "2024-05-01" "2024-05-01" "2024-05-01" "/heartrate" "120" rfl).2.2.2.1
      '1' ['2', '0'] rfl (by decide) (by decide)]
  decide

/-! ### Claims on the status check of the token endpoint -/

/-- C21, counterexample: the token endpoint answers 201 with a well-formed
token body. `refreshToken` returns the error `token refresh failed: ...` with
the body, `exchangeCode` exits with status 1 after `Token exchange failed: ...`;
the request is the only effect of either and the token file stays as it was. -/
theorem token_status_counterexample :
    (tokenEnv 201).roundTrip
        (postFormRequest (tokenEnv 201) tokenURL (refreshForm (tokenEnv 201) "r1")) =
      .ok { status := 201,
            body := "\x7b\"access_token\":\"a2\",\"refresh_token\":\"r2\"," ++
              "\"expires_in\":3600,\"token_type\":\"bearer\"\x7d" } ∧
    (refreshToken (tokenEnv 201) freshWorld "r1").1 =
      .error ("token refresh failed: " ++
        ("\x7b\"access_token\":\"a2\",\"refresh_token\":\"r2\"," ++
          "\"expires_in\":3600,\"token_type\":\"bearer\"\x7d")) ∧
    (refreshToken (tokenEnv 201) freshWorld "r1").2.tokenFile = freshWorld.tokenFile ∧
    (refreshToken (tokenEnv 201) freshWorld "r1").2.log =
      [Event.send (postFormRequest (tokenEnv 201) tokenURL (refreshForm (tokenEnv 201) "r1"))] ∧
    (exchangeCode (tokenEnv 201) freshWorld "c1").1 =
      Outcome.exited 1 ("Token exchange failed: " ++
        ("\x7b\"access_token\":\"a2\",\"refresh_token\":\"r2\"," ++
          "\"expires_in\":3600,\"token_type\":\"bearer\"\x7d") ++ "\n") ∧
    (exchangeCode (tokenEnv 201) freshWorld "c1").2.tokenFile = freshWorld.tokenFile ∧
    (exchangeCode (tokenEnv 201) freshWorld "c1").2.log =
      [Event.send
        (postFormRequest (tokenEnv 201) tokenURL (exchangeForm (tokenEnv 201) "c1"))] := by
  refine ⟨rfl, rfl, rfl, rfl, rfl, rfl, rfl⟩

/-- C21: both calls to the token endpoint take status 200 alone as success.
With any other status, 201 to 299 included, `refreshToken` returns
`token refresh failed: ` followed by the body and `exchangeCode` exits with
status 1 after `Token exchange failed: ` followed by the body; the request is
the only effect and the token file stays as it was. With status 200, a body
that decodes and a write that succeeds, the token with
`expires_at = now + expires_in` seconds is written, `refreshToken` returns it
and `exchangeCode` returns after its message. -/
theorem token_status_200 (env : Env) (w : World) (refresh code : String)
    (resp1 resp2 : Response)
    (h1 : env.roundTrip (postFormRequest env tokenURL (refreshForm env refresh)) = .ok resp1)
    (h2 : env.roundTrip (postFormRequest env tokenURL (exchangeForm env code)) = .ok resp2) :
    (resp1.status ≠ 200 →
      refreshToken env w refresh =
        (.error ("token refresh failed: " ++ resp1.body),
          { w with log := w.log ++
            [Event.send (postFormRequest env tokenURL (refreshForm env refresh))] })) ∧
    (resp2.status ≠ 200 →
      exchangeCode env w code =
        (Outcome.exited 1 ("Token exchange failed: " ++ resp2.body ++ "\n"),
          { w with log := w.log ++
            [Event.send (postFormRequest env tokenURL (exchangeForm env code))] })) ∧
    (∀ tr : TokenResponse, resp1.status = 200 → env.decodeTokenResponse resp1 = .ok tr →
      env.writeTokenErr (storedTokenOf tr w.clock) = none →
      (refreshToken env w refresh).1 = .ok (storedTokenOf tr w.clock) ∧
      (refreshToken env w refresh).2.tokenFile = TokenFile.stored (storedTokenOf tr w.clock) ∧
      eventsSince w (refreshToken env w refresh).2 =
        [Event.send (postFormRequest env tokenURL (refreshForm env refresh)),
         Event.writeToken (storedTokenOf tr w.clock)]) ∧
    (∀ tr : TokenResponse, resp2.status = 200 → env.decodeTokenResponse resp2 = .ok tr →
      env.writeTokenErr (storedTokenOf tr w.clock) = none →
      (exchangeCode env w code).1 = Outcome.returned ∧
      (exchangeCode env w code).2.tokenFile = TokenFile.stored (storedTokenOf tr w.clock) ∧
      ∃ text, eventsSince w (exchangeCode env w code).2 =
        [Event.send (postFormRequest env tokenURL (exchangeForm env code)),
         Event.writeToken (storedTokenOf tr w.clock), Event.print text]) := by
  refine ⟨?_, ?_, ?_, ?_⟩
  · intro hs
    simp [refreshToken, clientDo, h1, hs]
  · intro hs
    simp [exchangeCode, clientDo, h2, hs]
  · intro tr hs hd hw
    unfold storedTokenOf at hw
    simp [refreshToken, clientDo, h1, hs, hd, timeNow, saveToken, hw, eventsSince,
      storedTokenOf]
  · intro tr hs hd hw
    unfold storedTokenOf at hw
    simp [exchangeCode, clientDo, h2, hs, hd, timeNow, saveToken, hw, eventsSince,
      storedTokenOf]

theorem token_status_200_witness :
    (refreshToken (tokenEnv 299) freshWorld "r1").1 =
      .error ("token refresh failed: " ++
        ("\x7b\"access_token\":\"a2\",\"refresh_token\":\"r2\"," ++
          "\"expires_in\":3600,\"token_type\":\"bearer\"\x7d")) ∧
    (refreshToken (tokenEnv 200) freshWorld "r1").1 =
      .ok { AccessToken := "a2", RefreshToken := "r2", ExpiresAt := 1000 + 3600 * Second } :=
  ⟨congrArg Prod.fst ((token_status_200 (tokenEnv 299) freshWorld "r1" "c1" _ _ rfl rfl).1
      (by decide)),
    ((token_status_200 (tokenEnv 200) freshWorld "r1" "c1" _ _ rfl rfl).2.2.1
      { AccessToken := "a2", RefreshToken := "r2", ExpiresIn := 3600, TokenType := "bearer" }
      rfl rfl rfl).1⟩

/-! ### Claims on global options at the head of the command line -/

/-- C22, counterexample: a `--json` or `-j` directly after the program name is
taken as the command name and does not set `Opts.JSON`; after `--help` the
rest of the line is not read, so a later `--json` does not set it either. -/
theorem parseArgs_json_first_counterexample :
    parseArgs ["oura", "--json"] = some { Command := "--json", Args := [], Opts := {} } ∧
    parseArgs ["oura", "--json", "sleep"] =
      some { Command := "--json", Args := ["sleep"], Opts := { JSON := false } } ∧
    parseArgs ["oura", "-j", "sleep", "2024-05-01"] =
      some { Command := "-j", Args := ["sleep", "2024-05-01"], Opts := { JSON := false } } ∧
    parseArgs ["oura", "--help", "--json"] =
      some { Command := "help", Args := [], Opts := { JSON := false, Help := true } } := by
  decide

/-- C22: global options are read among the arguments after the command. For
an argument vector whose second element `cmd` is neither `--help` nor `-h`
and in which a later element `a` is `--json` or `-j`, `parseArgs` succeeds with
`Opts.JSON = true`, and neither spelling is left in the positional list. The
second element itself is always the command (`json` standing for `all`), also
when it is `--json` or `-j`; `Opts.JSON` is then set only by `json` or by a
later `--json` or `-j`. -/
theorem parseArgs_json_after_command (p cmd a : String) (rest : List String)
    (hc : cmd ≠ "--help" ∧ cmd ≠ "-h") (ha : a ∈ rest) (hj : a = "--json" ∨ a = "-j") :
    ∃ pa, parseArgs (p :: cmd :: rest) = some pa ∧
      pa.Opts.JSON = true ∧ "--json" ∉ pa.Args ∧ "-j" ∉ pa.Args ∧
      pa.Command = (if cmd = "json" then "all" else cmd) ∧
      (∀ (q c : String) (r : List String), c ≠ "--help" ∧ c ≠ "-h" →
        ∃ pb, parseArgs (q :: c :: r) = some pb ∧
          pb.Command = (if c = "json" then "all" else c) ∧
          (pb.Opts.JSON = true ↔ c = "json" ∨ ∃ b ∈ r, b = "--json" ∨ b = "-j")) := by
  have hstrip : ∀ (r : List String) (t : String), (t = "--json" ∨ t = "-j") →
      t ∉ stripGlobal r := by
    intro r t ht hmem
    rw [stripGlobal_eq_filter, List.mem_filter] at hmem
    have h := hmem.2
    simp only [decide_eq_true_eq] at h
    rcases ht with ht | ht
    · exact h.2.2.2.1 ht
    · exact h.2.2.2.2 ht
  refine ⟨_, parseArgs_cons_cons p cmd rest hc, ?_, hstrip rest _ (Or.inl rfl),
    hstrip rest _ (Or.inr rfl), rfl, ?_⟩
  · have hany : rest.any isJSONToken = true := (any_isJSONToken_iff rest).2 ⟨a, ha, hj⟩
    simp only [hany, Bool.or_true]
  · intro q c r hcr
    refine ⟨_, parseArgs_cons_cons q c r hcr, rfl, ?_⟩
    simp only [Bool.or_eq_true, decide_eq_true_eq, any_isJSONToken_iff]

theorem parseArgs_json_after_command_witness :
    ("sleep" ≠ "--help" ∧ "sleep" ≠ "-h") ∧ "-j" ∈ ["2024-05-01", "-j"] ∧
    ∃ pa, parseArgs ["oura", "sleep", "2024-05-01", "-j"] = some pa ∧
      pa.Opts.JSON = true ∧ pa.Args = ["2024-05-01"] ∧ pa.Command = "sleep" := by
  refine ⟨by decide, by decide, ?_⟩
  obtain ⟨pa, h1, h2, _, _, h5, _⟩ :=
    parseArgs_json_after_command "oura" "sleep" "-j" ["2024-05-01", "-j"] (by decide)
      (by decide) (Or.inr rfl)
  refine ⟨pa, h1, h2, ?_, h5⟩
  have h : parseArgs ["oura", "sleep", "2024-05-01", "-j"] =
      some { Command := "sleep", Args := ["2024-05-01"], Opts := { JSON := true } } := by
    decide
  rw [h] at h1
  cases h1
  rfl

/-! ### Claims on the help option at the head -/

/-- C23: for an argument vector whose second element is `--help` or `-h`,
`parseArgs` succeeds and returns exactly the command `help` with `Help` set,
`JSON` not set and no positionals, whatever follows. -/
theorem parseArgs_help_first (p cmd : String) (rest : List String)
    (h : cmd = "--help" ∨ cmd = "-h") :
    parseArgs (p :: cmd :: rest) =
      some { Command := "help", Args := [], Opts := { JSON := false, Help := true } } := by
  simp only [parseArgs, if_pos h]

theorem parseArgs_help_first_witness :
    ("-h" = "--help" ∨ "-h" = "-h") ∧
    parseArgs ["oura", "-h", "sleep", "--json", "x"] =
      some { Command := "help", Args := [], Opts := { JSON := false, Help := true } } :=
  ⟨Or.inr rfl, parseArgs_help_first "oura" "-h" ["sleep", "--json", "x"] (Or.inr rfl)⟩

/-! ### Claims on the list flags -/

theorem parseRangeQueryFlags_of_flags (env : Env) (args : List String) (flags : Flags)
    (pos : List String) (h : parseLongFlags env args = .ok (flags, pos)) :
    parseRangeQueryFlags env args =
      .ok ((if firstFlag flags ["next-token", "next_token"] ≠ "" then
          fun p : Values => p.set "next_token" (firstFlag flags ["next-token", "next_token"])
        else id)
        ((if firstFlag flags ["end-date", "end_date"] ≠ "" then
          fun p : Values => p.set "end_date" (firstFlag flags ["end-date", "end_date"])
        else id)
        ((if firstFlag flags ["start-date", "start_date"] ≠ "" then
          fun p : Values => p.set "start_date" (firstFlag flags ["start-date", "start_date"])
        else id) {})), pos) := by
  simp only [parseRangeQueryFlags, h]
  by_cases h1 : firstFlag flags ["start-date", "start_date"] = "" <;>
    by_cases h2 : firstFlag flags ["end-date", "end_date"] = "" <;>
    by_cases h3 : firstFlag flags ["next-token", "next_token"] = "" <;>
    simp [h1, h2, h3]

theorem Values.set_keys (p : Values) (k v : String) (keys : List String) (hk : k ∈ keys)
    (h : ∀ e ∈ p.entries, e.1 ∈ keys) : ∀ e ∈ (p.set k v).entries, e.1 ∈ keys := by
  intro e he
  simp only [Values.set, List.mem_append, List.mem_filter, List.mem_singleton] at he
  rcases he with he | he
  · exact h e he.1
  · rw [he]; exact hk

theorem parseRangeQueryFlags_single (env : Env) (n key v : String) (flags : Flags)
    (hget : ∀ k, flags.get k = if k = n then some v else none)
    (hv : v ≠ "")
    (hn : (n, key) ∈ [("start-date", "start_date"), ("start_date", "start_date"),
      ("end-date", "end_date"), ("end_date", "end_date"),
      ("next-token", "next_token"), ("next_token", "next_token")])
    (args : List String) (h : parseLongFlags env args = .ok (flags, [])) :
    parseRangeQueryFlags env args = .ok ({ entries := [(key, v)] }, []) := by
  rw [parseRangeQueryFlags_of_flags env args flags [] h]
  simp only [List.mem_cons, Prod.mk.injEq, List.mem_singleton, List.not_mem_nil, or_false] at hn
  rcases hn with ⟨h1, h2⟩ | ⟨h1, h2⟩ | ⟨h1, h2⟩ | ⟨h1, h2⟩ | ⟨h1, h2⟩ | ⟨h1, h2⟩ <;>
    subst h1 <;> subst h2 <;>
    simp [firstFlag, hget, hv, Values.set]

theorem Flags.get_single (n v k : String) :
    (({} : Flags).set n v).get k = if k = n then some v else none := by
  rw [Flags.get_set]
  rfl

/-- C24: each list flag is read under its hyphen and its underscore spelling.
Given alone with a non-empty value `v`, as `--name v` or as `--name=v`, either
spelling yields the query with the one key of the flag set to `v` and no
leftover arguments. For every accepted argument list the query has no key
other than `start_date`, `end_date` and `next_token`. -/
theorem parseRangeQueryFlags_aliases (env : Env) (hy us key v : String)
    (hmem : (hy, us, key) ∈ rangeFlagAliases) (hv : v ≠ "") :
    parseRangeQueryFlags env ["--" ++ hy, v] = .ok ({ entries := [(key, v)] }, []) ∧
    parseRangeQueryFlags env ["--" ++ us, v] = .ok ({ entries := [(key, v)] }, []) ∧
    parseRangeQueryFlags env ["--" ++ hy ++ "=" ++ v] = .ok ({ entries := [(key, v)] }, []) ∧
    parseRangeQueryFlags env ["--" ++ us ++ "=" ++ v] = .ok ({ entries := [(key, v)] }, []) ∧
    (∀ (args : List String) (params : Values) (rest : List String),
      parseRangeQueryFlags env args = .ok (params, rest) →
      ∀ e ∈ params.entries, e.1 ∈ ["start_date", "end_date", "next_token"]) := by
  have hval : ∀ n : String, n ≠ "" → '=' ∉ n.data →
      parseLongFlags env ["--" ++ n, v] = .ok (({} : Flags).set n v, []) := by
    intro n hn he
    rw [parseLongFlags, parseLongFlagsLoop_flag_value env {} [] n v [] hn he]
    rfl
  have heq : ∀ n : String, n ≠ "" → '=' ∉ n.data →
      parseLongFlags env ["--" ++ n ++ "=" ++ v] = .ok (({} : Flags).set n v, []) := by
    intro n hn he
    rw [parseLongFlags, parseLongFlagsLoop_flag_eq env {} [] n v [] hn he]
    rfl
  have hone : ∀ n : String, n ≠ "" → '=' ∉ n.data →
      (n, key) ∈ [("start-date", "start_date"), ("start_date", "start_date"),
        ("end-date", "end_date"), ("end_date", "end_date"),
        ("next-token", "next_token"), ("next_token", "next_token")] →
      parseRangeQueryFlags env ["--" ++ n, v] = .ok ({ entries := [(key, v)] }, []) ∧
      parseRangeQueryFlags env ["--" ++ n ++ "=" ++ v] =
        .ok ({ entries := [(key, v)] }, []) := by
    intro n hn he hk
    exact ⟨parseRangeQueryFlags_single env n key v _ (Flags.get_single n v) hv hk _
        (hval n hn he),
      parseRangeQueryFlags_single env n key v _ (Flags.get_single n v) hv hk _ (heq n hn he)⟩
  have hkeys : ∀ (args : List String) (params : Values) (rest : List String),
      parseRangeQueryFlags env args = .ok (params, rest) →
      ∀ e ∈ params.entries, e.1 ∈ ["start_date", "end_date", "next_token"] := by
    intro args params rest h
    cases hp : parseLongFlags env args with
    | error err => simp [parseRangeQueryFlags, hp] at h
    | ok r =>
      obtain ⟨flags, pos⟩ := r
      rw [parseRangeQueryFlags_of_flags env args flags pos hp] at h
      injection h with h
      injection h with h1 h2
      rw [← h1]
      have h0 : ∀ e ∈ ({} : Values).entries, e.1 ∈ ["start_date", "end_date", "next_token"] := by
        intro e he
        cases he
      have step : ∀ (c : Prop) [Decidable c] (k x : String) (q : Values),
          k ∈ ["start_date", "end_date", "next_token"] →
          (∀ e ∈ q.entries, e.1 ∈ ["start_date", "end_date", "next_token"]) →
          ∀ e ∈ ((if c then fun p : Values => p.set k x else id) q).entries,
            e.1 ∈ ["start_date", "end_date", "next_token"] := by
        intro c _ k x q hk hq
        by_cases hc : c
        · rw [if_pos hc]
          exact Values.set_keys q k x _ hk hq
        · rw [if_neg hc]
          exact hq
      exact step _ _ _ _ (by decide) (step _ _ _ _ (by decide) (step _ _ _ _ (by decide) h0))
  simp only [rangeFlagAliases, List.mem_cons, Prod.mk.injEq, List.mem_singleton,
    List.not_mem_nil, or_false] at hmem
  rcases hmem with ⟨e1, e2, e3⟩ | ⟨e1, e2, e3⟩ | ⟨e1, e2, e3⟩ <;> subst e1 <;> subst e2 <;>
    subst e3
  · exact ⟨(hone _ (by decide) (by decide) (by decide)).1,
      (hone _ (by decide) (by decide) (by decide)).1,
      (hone _ (by decide) (by decide) (by decide)).2,
      (hone _ (by decide) (by decide) (by decide)).2, hkeys⟩
  · exact ⟨(hone _ (by decide) (by decide) (by decide)).1,
      (hone _ (by decide) (by decide) (by decide)).1,
      (hone _ (by decide) (by decide) (by decide)).2,
      (hone _ (by decide) (by decide) (by decide)).2, hkeys⟩
  · exact ⟨(hone _ (by decide) (by decide) (by decide)).1,
      (hone _ (by decide) (by decide) (by decide)).1,
      (hone _ (by decide) (by decide) (by decide)).2,
      (hone _ (by decide) (by decide) (by decide)).2, hkeys⟩

theorem parseRangeQueryFlags_aliases_witness :
    ("end-date", "end_date", "end_date") ∈ rangeFlagAliases ∧ "2024-05-01" ≠ "" ∧
    parseRangeQueryFlags (exampleEnv 200 200 "" 3600) ["--end-date", "2024-05-01"] =
      .ok ({ entries := [("end_date", "2024-05-01")] }, []) ∧
    parseRangeQueryFlags (exampleEnv 200 200 "" 3600) ["--end_date=2024-05-01"] =
      .ok ({ entries := [("end_date", "2024-05-01")] }, []) :=
  ⟨by decide, by decide,
    (parseRangeQueryFlags_aliases (exampleEnv 200 200 "" 3600) "end-date" "end_date" "end_date"
      "2024-05-01" (by decide) (by decide)).1,
    (parseRangeQueryFlags_aliases (exampleEnv 200 200 "" 3600) "end-date" "end_date" "end_date"
      "2024-05-01" (by decide) (by decide)).2.2.2.1⟩

/-! ### Claims on the default subcommand -/

theorem handleListGet_run (env : Env) (w : World) (kind : String) (args : List String)
    (opts : Options) :
    handleListGet env w kind args opts =
      if opts.Help then
        (Outcome.returned, { w with log := w.log ++ [Event.print (helpUsageText kind)] })
      else
        match args with
        | a :: rest =>
          if hasPrefixStr a "--" = true then runSubcommand env w kind "list" args opts
          else runSubcommand env w kind a rest opts
        | [] => runSubcommand env w kind "list" [] opts := by
  unfold handleListGet runSubcommand
  by_cases hh : opts.Help = true
  · rw [if_pos hh, if_pos hh]
  · rw [if_neg hh, if_neg hh]
    cases args with
    | nil => rfl
    | cons a rest =>
      by_cases hp : hasPrefixStr a "--" = true
      · simp only [hp, Bool.not_true, Bool.false_eq_true, if_false, if_true]
      · have hp2 : hasPrefixStr a "--" = false := by simpa using hp
        simp only [hp2, Bool.not_false, if_true, Bool.false_eq_true, if_false]

/-- C25: the subcommand of the list/get handler defaults to `list`. For every
subject, `tag`, `enhanced_tag` and `session` among them, and arguments that
are empty or begin with a flag (a token starting with `--`), the handler does
exactly what it does with `list` put in front. A first argument that is not a
flag is the subcommand, and the arguments after it are the arguments of the
subcommand. -/
theorem handleListGet_default_list (env : Env) (w : World) (kind : String)
    (args : List String) (opts : Options)
    (h : args = [] ∨ ∃ a rest, args = a :: rest ∧ hasPrefixStr a "--" = true) :
    handleListGet env w kind args opts = handleListGet env w kind ("list" :: args) opts ∧
    (opts.Help = false →
      handleListGet env w kind args opts = runSubcommand env w kind "list" args opts) ∧
    (∀ (sub : String) (rest : List String), hasPrefixStr sub "--" = false →
      opts.Help = false →
      handleListGet env w kind (sub :: rest) opts = runSubcommand env w kind sub rest opts) := by
  have hlist : hasPrefixStr "list" "--" = false := by decide
  have hsub : ∀ (sub : String) (rest : List String), hasPrefixStr sub "--" = false →
      opts.Help = false →
      handleListGet env w kind (sub :: rest) opts = runSubcommand env w kind sub rest opts := by
    intro sub rest hs hh
    rw [handleListGet_run]
    simp only [hh, Bool.false_eq_true, if_false, hs]
  have hdef : opts.Help = false →
      handleListGet env w kind args opts = runSubcommand env w kind "list" args opts := by
    intro hh
    rw [handleListGet_run]
    simp only [hh, Bool.false_eq_true, if_false]
    rcases h with h | ⟨a, rest, h, hp⟩
    · subst h; rfl
    · subst h
      simp only [hp, if_true]
  refine ⟨?_, hdef, hsub⟩
  by_cases hh : opts.Help = true
  · rw [handleListGet_run, handleListGet_run env w kind ("list" :: args)]
    simp only [hh, if_true]
  · have hh2 : opts.Help = false := by simpa using hh
    rw [hdef hh2, hsub "list" args hlist hh2]

theorem handleListGet_default_list_witness :
    hasPrefixStr "--start-date" "--" = true ∧
    handleListGet (exampleEnv 200 200 "[]" 3600) freshWorld "tag"
        ["--start-date", "2024-05-01"] { JSON := true } =
      handleListGet (exampleEnv 200 200 "[]" 3600) freshWorld "tag"
        ["list", "--start-date", "2024-05-01"] { JSON := true } ∧
    printedTexts (handleListGet (exampleEnv 200 200 "[]" 3600) freshWorld "tag"
        ["--start-date", "2024-05-01"] { JSON := true }).2 = ["[]", "\n"] :=
  ⟨by decide,
    (handleListGet_default_list (exampleEnv 200 200 "[]" 3600) freshWorld "tag"
      ["--start-date", "2024-05-01"] { JSON := true }
      (Or.inr ⟨"--start-date", ["2024-05-01"], rfl, by decide⟩)).1,
    by decide⟩

/-! ### Claims on `webhook update` -/

/-- The order of the checks of `webhookUpdate` on three argument lists:
leftover arguments and a flag without value are reported before the missing
verification token, and the missing verification token before an event type
outside the set. Nothing is sent in any of them. -/
theorem webhookUpdate_order_examples :
    webhookUpdate (exampleEnv 200 200 "" 3600) freshWorld "id1" ["stray"] {} =
      (.error "unexpected args: stray", freshWorld) ∧
    webhookUpdate (exampleEnv 200 200 "" 3600) freshWorld "id1" ["--event-type", "bogus"] {} =
      (.error "missing required flag: --verification-token", freshWorld) ∧
    webhookUpdate (exampleEnv 200 200 "" 3600) freshWorld "id1" ["--callback-url"] {} =
      (.error "flag \"--callback-url\" requires a value", freshWorld) := by
  refine ⟨rfl, rfl, rfl⟩

/-- C26: `webhookUpdate` requires a verification token and takes the other
three fields as optional. For arguments that parse without leftover
positionals: an absent or empty verification token gives
`missing required flag: --verification-token`; with a token, a given event
type outside the three operations gives `invalid event_type: ...`, and then a
given data type outside the sixteen data types gives `invalid data_type: ...`;
otherwise the PUT request to `/subscription/<id>` is made with the
verification token and exactly those of callback URL, event type and data
type that were given a value. Arguments that do not parse give the parse
error and leftover positionals give `unexpected args: ...`. For every
argument list, whenever the token is absent or empty or a given event or data
type is outside its set, the call fails and the world is unchanged: nothing
is sent. -/
theorem webhookUpdate_checks (env : Env) (w : World) (id : String) (args : List String)
    (opts : Options) (flags : Flags) (hp : parseLongFlags env args = .ok (flags, [])) :
    (firstFlag flags ["verification-token", "verification_token"] = "" →
      webhookUpdate env w id args opts =
        (.error "missing required flag: --verification-token", w)) ∧
    (firstFlag flags ["verification-token", "verification_token"] ≠ "" →
      firstFlag flags ["event-type", "event_type"] ≠ "" →
      firstFlag flags ["event-type", "event_type"] ∉ webhookOperations →
      webhookUpdate env w id args opts =
        (.error ("invalid event_type: " ++
          env.quote (firstFlag flags ["event-type", "event_type"]) ++
          " (try: oura webhook types)"), w)) ∧
    (firstFlag flags ["verification-token", "verification_token"] ≠ "" →
      (firstFlag flags ["event-type", "event_type"] = "" ∨
        firstFlag flags ["event-type", "event_type"] ∈ webhookOperations) →
      firstFlag flags ["data-type", "data_type"] ≠ "" →
      firstFlag flags ["data-type", "data_type"] ∉ webhookDataTypes →
      webhookUpdate env w id args opts =
        (.error ("invalid data_type: " ++
          env.quote (firstFlag flags ["data-type", "data_type"]) ++
          " (try: oura webhook types)"), w)) ∧
    (firstFlag flags ["verification-token", "verification_token"] ≠ "" →
      (firstFlag flags ["event-type", "event_type"] = "" ∨
        firstFlag flags ["event-type", "event_type"] ∈ webhookOperations) →
      (firstFlag flags ["data-type", "data_type"] = "" ∨
        firstFlag flags ["data-type", "data_type"] ∈ webhookDataTypes) →
      webhookUpdate env w id args opts =
        match webhookDo env w "PUT" ("/subscription/" ++ env.pathEscape id)
            (some (updatePayload flags)) with
        | (r, w1) =>
          match r.err with
          | some err => (.error err, w1)
          | none =>
            webhookReport env w1 opts "Updated webhook subscription" (r.respBody.getD "")) ∧
    (∀ v : String, (optionalField v = some v ↔ v ≠ "") ∧ (optionalField v = none ↔ v = "")) ∧
    (∀ (args2 : List String) (err : String), parseLongFlags env args2 = .error err →
      webhookUpdate env w id args2 opts = (.error err, w)) ∧
    (∀ (args2 : List String) (flags2 : Flags) (pos : List String),
      parseLongFlags env args2 = .ok (flags2, pos) → pos ≠ [] →
      webhookUpdate env w id args2 opts =
        (.error ("unexpected args: " ++ joinSpace pos), w)) ∧
    (∀ args2 : List String,
      (∀ (flags2 : Flags) (pos : List String), parseLongFlags env args2 = .ok (flags2, pos) →
        firstFlag flags2 ["verification-token", "verification_token"] = "" ∨
        (firstFlag flags2 ["event-type", "event_type"] ≠ "" ∧
          firstFlag flags2 ["event-type", "event_type"] ∉ webhookOperations) ∨
        (firstFlag flags2 ["data-type", "data_type"] ≠ "" ∧
          firstFlag flags2 ["data-type", "data_type"] ∉ webhookDataTypes)) →
      (∃ msg, (webhookUpdate env w id args2 opts).1 = .error msg) ∧
      (webhookUpdate env w id args2 opts).2 = w) := by
  have hlen : ¬ (([] : List String).length ≠ 0) := by simp
  refine ⟨?_, ?_, ?_, ?_, ?_, ?_, ?_, ?_⟩
  · intro hv
    simp only [webhookUpdate, hp, if_neg hlen, if_pos hv]
  · intro hv he hne
    have hval := validateEnum_error env "event_type" _ webhookOperations hne
    have hs : "invalid " ++ "event_type" ++ ": " = "invalid event_type: " := by decide
    rw [hs] at hval
    simp only [webhookUpdate, hp, if_neg hlen, if_neg hv, if_pos he, hval]
  · intro hv he hd hne
    have hval := validateEnum_error env "data_type" _ webhookDataTypes hne
    have hs : "invalid " ++ "data_type" ++ ": " = "invalid data_type: " := by decide
    rw [hs] at hval
    have hev : (if firstFlag flags ["event-type", "event_type"] ≠ "" then
        validateEnum env "event_type" (firstFlag flags ["event-type", "event_type"])
          webhookOperations else .ok ()) = .ok () := by
      rcases he with he | he
      · rw [if_neg (by simpa using he)]
      · by_cases h0 : firstFlag flags ["event-type", "event_type"] = ""
        · rw [if_neg (by simpa using h0)]
        · rw [if_pos h0]
          exact (validateEnum_ok_iff env _ _ _).2 he
    simp only [webhookUpdate, hp, if_neg hlen, if_neg hv, hev, if_pos hd, hval]
  · intro hv he hd
    have hev : (if firstFlag flags ["event-type", "event_type"] ≠ "" then
        validateEnum env "event_type" (firstFlag flags ["event-type", "event_type"])
          webhookOperations else .ok ()) = .ok () := by
      rcases he with he | he
      · rw [if_neg (by simpa using he)]
      · by_cases h0 : firstFlag flags ["event-type", "event_type"] = ""
        · rw [if_neg (by simpa using h0)]
        · rw [if_pos h0]
          exact (validateEnum_ok_iff env _ _ _).2 he
    have hdv : (if firstFlag flags ["data-type", "data_type"] ≠ "" then
        validateEnum env "data_type" (firstFlag flags ["data-type", "data_type"])
          webhookDataTypes else .ok ()) = .ok () := by
      rcases hd with hd | hd
      · rw [if_neg (by simpa using hd)]
      · by_cases h0 : firstFlag flags ["data-type", "data_type"] = ""
        · rw [if_neg (by simpa using h0)]
        · rw [if_pos h0]
          exact (validateEnum_ok_iff env _ _ _).2 hd
    simp only [webhookUpdate, hp, if_neg hlen, if_neg hv, hev, hdv]
    rfl
  · intro v
    by_cases h0 : v = ""
    · simp [optionalField, h0]
    · simp [optionalField, h0]
  · intro args2 err h
    simp only [webhookUpdate, h]
  · intro args2 flags2 pos h hpos
    have hl : pos.length ≠ 0 := by
      intro h0
      exact hpos (List.length_eq_zero.mp h0)
    simp only [webhookUpdate, h, if_pos hl]
  · intro args2 hbad
    cases hp2 : parseLongFlags env args2 with
    | error err => simp only [webhookUpdate, hp2]; exact ⟨⟨err, rfl⟩, trivial⟩
    | ok r =>
      obtain ⟨flags2, pos⟩ := r
      by_cases hl : pos.length ≠ 0
      · simp only [webhookUpdate, hp2, if_pos hl]
        exact ⟨⟨_, rfl⟩, trivial⟩
      · by_cases hv : firstFlag flags2 ["verification-token", "verification_token"] = ""
        · simp only [webhookUpdate, hp2, if_neg hl, if_pos hv]
          exact ⟨⟨_, rfl⟩, trivial⟩
        · by_cases he : firstFlag flags2 ["event-type", "event_type"] ≠ "" ∧
              firstFlag flags2 ["event-type", "event_type"] ∉ webhookOperations
          · have hval := validateEnum_error env "event_type" _ webhookOperations he.2
            simp only [webhookUpdate, hp2, if_neg hl, if_neg hv, if_pos he.1, hval]
            exact ⟨⟨_, rfl⟩, trivial⟩
          · have hd : firstFlag flags2 ["data-type", "data_type"] ≠ "" ∧
                firstFlag flags2 ["data-type", "data_type"] ∉ webhookDataTypes := by
              rcases hbad flags2 pos hp2 with h1 | h1 | h1
              · exact absurd h1 hv
              · exact absurd h1 he
              · exact h1
            have hval := validateEnum_error env "data_type" _ webhookDataTypes hd.2
            have hev : (if firstFlag flags2 ["event-type", "event_type"] ≠ "" then
                validateEnum env "event_type" (firstFlag flags2 ["event-type", "event_type"])
                  webhookOperations else .ok ()) = .ok () := by
              by_cases h0 : firstFlag flags2 ["event-type", "event_type"] = ""
              · rw [if_neg (by simpa using h0)]
              · rw [if_pos h0]
                refine (validateEnum_ok_iff env _ _ _).2 ?_
                by_contra hn
                exact he ⟨h0, hn⟩
            simp only [webhookUpdate, hp2, if_neg hl, if_neg hv, hev, if_pos hd.1, hval]
            exact ⟨⟨_, rfl⟩, trivial⟩

theorem webhookUpdate_checks_witness :
    parseLongFlags marshalEnv ["--verification-token", "t1", "--event_type=update"] =
      .ok (⟨[("verification-token", "t1"), ("event_type", "update")]⟩, []) ∧
    eventsSince freshWorld (webhookUpdate marshalEnv freshWorld "id1"
      ["--verification-token", "t1", "--event_type=update"] { JSON := true }).2 =
      [Event.send
        { method := "PUT",
          url := "https://api.ouraring.com/v2/webhook/subscription/id1",
          header := { entries := [("X-Client-Id", "cid"), ("X-Client-Secret", "sec"),
            ("Content-Type", "application/json")] },
          body := some "\x7b\"verification_token\":\"t1\",\"event_type\":\"update\"\x7d" },
       Event.print "\x7b\x7d", Event.print "\n"] := by
  refine ⟨rfl, ?_⟩
  rw [(webhookUpdate_checks marshalEnv freshWorld "id1"
    ["--verification-token", "t1", "--event_type=update"] { JSON := true }
    ⟨[("verification-token", "t1"), ("event_type", "update")]⟩ rfl).2.2.2.1
    (by decide) (Or.inr (by decide)) (Or.inl (by decide))]
  decide

/-! ### Claims on `loadConfig` -/

theorem occursIn_append (a p b : List Char) : occursIn p (a ++ (p ++ b)) = true := by
  unfold occursIn
  rw [List.any_eq_true]
  refine ⟨p ++ b, ?_, ?_⟩
  · rw [List.mem_tails]
    exact List.suffix_append a (p ++ b)
  · rw [List.isPrefixOf_iff_prefix]
    exact List.prefix_append p b

/-- C27, counterexample: the config file exists and holds `not json`.
`loadConfig` returns the error of the decoder as it is; the path of the config
file does not occur in it. -/
theorem loadConfig_unparsable_counterexample :
    brokenConfigEnv.configFile = .ok "not json" ∧
    configPath brokenConfigEnv = "/home/user/.config/oura/config.json" ∧
    loadConfig brokenConfigEnv =
      .error "invalid character 'o' in literal null (expecting 'u')" ∧
    occursIn (configPath brokenConfigEnv).data
      "invalid character 'o' in literal null (expecting 'u')".data = false := by
  refine ⟨rfl, rfl, rfl, by decide⟩

/-- C27: when the config file cannot be read, `loadConfig` fails with
`missing config: ` followed by the path of the file and the template with
`client_id` and `client_secret`. When the file can be read, `loadConfig`
returns what the decoder returns for the content: on content that is not
JSON that is the error of the decoder, which sees the content and not the
path. -/
theorem loadConfig_errors (env : Env) (err : String) (h : env.configFile = .error err) :
    loadConfig env =
      .error ("missing config: " ++ configPath env ++
        "\nCreate it with:\n\x7b\n  \"client_id\": \"your-id\",\n" ++
        "  \"client_secret\": \"your-secret\"\n\x7d") ∧
    (∀ msg, loadConfig env = .error msg →
      occursIn (configPath env).data msg.data = true ∧
      occursIn "\"client_id\"".data msg.data = true ∧
      occursIn "\"client_secret\"".data msg.data = true) ∧
    (∀ (env2 : Env) (data : String), env2.configFile = .ok data →
      loadConfig env2 = env2.unmarshalConfig data) := by
  have hload : loadConfig env =
      .error ("missing config: " ++ configPath env ++
        "\nCreate it with:\n\x7b\n  \"client_id\": \"your-id\",\n" ++
        "  \"client_secret\": \"your-secret\"\n\x7d") := by
    simp only [loadConfig, h]
  refine ⟨hload, ?_, ?_⟩
  · intro msg hmsg
    rw [hload] at hmsg
    injection hmsg with hmsg
    subst hmsg
    refine ⟨?_, ?_, ?_⟩
    · have e : ("missing config: " ++ configPath env ++
          "\nCreate it with:\n\x7b\n  \"client_id\": \"your-id\",\n" ++
          "  \"client_secret\": \"your-secret\"\n\x7d").data =
          "missing config: ".data ++ ((configPath env).data ++
            ("\nCreate it with:\n\x7b\n  \"client_id\": \"your-id\",\n" ++
              "  \"client_secret\": \"your-secret\"\n\x7d").data) := by
        simp [String.data_append, List.append_assoc]
      rw [e]
      exact occursIn_append _ _ _
    · have e : ("missing config: " ++ configPath env ++
          "\nCreate it with:\n\x7b\n  \"client_id\": \"your-id\",\n" ++
          "  \"client_secret\": \"your-secret\"\n\x7d").data =
          ("missing config: ".data ++ (configPath env).data ++
            "\nCreate it with:\n\x7b\n  ".data) ++ ("\"client_id\"".data ++
            (": \"your-id\",\n" ++ "  \"client_secret\": \"your-secret\"\n\x7d").data) := by
        simp [String.data_append, List.append_assoc]
      rw [e]
      exact occursIn_append _ _ _
    · have e : ("missing config: " ++ configPath env ++
          "\nCreate it with:\n\x7b\n  \"client_id\": \"your-id\",\n" ++
          "  \"client_secret\": \"your-secret\"\n\x7d").data =
          ("missing config: ".data ++ (configPath env).data ++
            "\nCreate it with:\n\x7b\n  \"client_id\": \"your-id\",\n  ".data) ++
            ("\"client_secret\"".data ++ ": \"your-secret\"\n\x7d".data) := by
        simp [String.data_append, List.append_assoc]
      rw [e]
      exact occursIn_append _ _ _
  · intro env2 data h2
    simp only [loadConfig, h2]

theorem loadConfig_errors_witness :
    (exampleEnv 200 200 "" 3600).configFile = .error "no such file or directory" ∧
    loadConfig (exampleEnv 200 200 "" 3600) =
      .error ("missing config: /home/user/.config/oura/config.json" ++
        "\nCreate it with:\n\x7b\n  \"client_id\": \"your-id\",\n" ++
        "  \"client_secret\": \"your-secret\"\n\x7d") :=
  ⟨rfl, (loadConfig_errors (exampleEnv 200 200 "" 3600) "no such file or directory" rfl).1⟩

/-! ### Claims on the listener of the authorization flow -/

/-- C28, counterexample: the address of the server is `:8081`, not
`127.0.0.1:8081`; its host part is empty, so that the listener accepts
connections on every address of the machine, which a listener on
`127.0.0.1:8081` does not. -/
theorem authServer_addr_counterexample :
    authServerAddr = ":8081" ∧ authServerAddr ≠ "127.0.0.1:8081" ∧
    splitHostPort (listenAddr authServerAddr) = some ("", "8081") ∧
    listensOnAllAddresses (listenAddr authServerAddr) = true ∧
    splitHostPort "127.0.0.1:8081" = some ("127.0.0.1", "8081") ∧
    listensOnAllAddresses "127.0.0.1:8081" = false := by
  decide

/-- C28: the server of the authorization flow listens on the address that
`authServerAddr` splits into: the port is 8081 and the host is empty, which
stands for every address of the machine; the handler is registered under
`/callback`, and the redirect URI names the same port and path on
`localhost`. -/
theorem authServer_listener (host port : String)
    (h : splitHostPort (listenAddr authServerAddr) = some (host, port)) :
    host = "" ∧ port = "8081" ∧
    listensOnAllAddresses (listenAddr authServerAddr) = true ∧
    callbackPattern = "/callback" ∧
    redirectURI = "http://localhost" ++ authServerAddr ++ callbackPattern := by
  have h0 : splitHostPort (listenAddr authServerAddr) = some ("", "8081") := by decide
  rw [h0] at h
  injection h with h
  injection h with h1 h2
  exact ⟨h1.symm, h2.symm, by decide, rfl, by decide⟩

theorem authServer_listener_witness :
    splitHostPort (listenAddr authServerAddr) = some ("", "8081") ∧
    listensOnAllAddresses (listenAddr authServerAddr) = true :=
  ⟨by decide, (authServer_listener "" "8081" (by decide)).2.2.1⟩

/-! ### Claims on the positionals of `parseLongFlags` -/

/-- The positionals that the loop adds are, in order, some of the arguments
that do not begin with `--`. -/
theorem parseLongFlagsLoop_positionals (env : Env) :
    ∀ (k : Nat) (a : List String) (f : Flags) (p : List String) (f2 : Flags)
      (p2 : List String), a.length = k →
      parseLongFlagsLoop env f p a = .ok (f2, p2) →
      ∃ extra, p2 = p ++ extra ∧
        extra.Sublist (a.filter (fun t => !hasPrefixStr t "--")) := by
  intro k
  induction k using Nat.strong_induction_on with
  | _ k ih =>
    intro a f p f2 p2 hk h
    match a, hk with
    | [], _ =>
      simp only [parseLongFlagsLoop, Except.ok.injEq, Prod.mk.injEq] at h
      exact ⟨[], by simp [h.2], List.Sublist.refl _⟩
    | x :: xs, hk =>
      simp only [List.length_cons] at hk
      rw [parseLongFlagsLoop] at h
      by_cases hpre : hasPrefixStr x "--" = true
      · simp only [hpre, Bool.not_true, Bool.false_eq_true, if_false] at h
        have hfil : (x :: xs).filter (fun t => !hasPrefixStr t "--") =
            xs.filter (fun t => !hasPrefixStr t "--") := by
          simp [List.filter_cons, hpre]
        by_cases hnv : trimPrefixStr x "--" = ""
        · simp [hnv] at h
        · simp only [hnv, if_false] at h
          by_cases hcut : (cutStr (trimPrefixStr x "--") '=').2.2 = true
          · simp only [hcut, Bool.not_true, Bool.false_eq_true, if_false] at h
            obtain ⟨extra, he, hs⟩ := ih xs.length (by omega) xs _ _ f2 p2 rfl h
            exact ⟨extra, he, by rw [hfil]; exact hs⟩
          · simp only [hcut, Bool.not_false, if_true] at h
            match xs, hk, h with
            | [], _, h => simp at h
            | v :: ys, hk, h =>
              simp only [List.length_cons] at hk
              obtain ⟨extra, he, hs⟩ := ih ys.length (by omega) ys _ _ f2 p2 rfl h
              refine ⟨extra, he, ?_⟩
              rw [hfil]
              exact hs.trans ((List.sublist_cons_self v ys).filter _)
      · simp only [hpre, Bool.not_false, if_true] at h
        obtain ⟨extra, he, hs⟩ := ih xs.length (by omega) xs _ _ f2 p2 rfl h
        refine ⟨x :: extra, by rw [he]; simp, ?_⟩
        have hfil : (x :: xs).filter (fun t => !hasPrefixStr t "--") =
            x :: xs.filter (fun t => !hasPrefixStr t "--") := by
          simp [List.filter_cons, hpre]
        rw [hfil]
        exact hs.cons₂ x

/-- Without a token that begins with `--` the loop adds every argument to the
positionals and leaves the flags as they are. -/
theorem parseLongFlagsLoop_no_flags (env : Env) :
    ∀ (a : List String) (f : Flags) (p : List String),
      (∀ t ∈ a, hasPrefixStr t "--" = false) →
      parseLongFlagsLoop env f p a = .ok (f, p ++ a) := by
  intro a
  induction a with
  | nil => intro f p _; simp [parseLongFlagsLoop]
  | cons x xs ih =>
    intro f p h
    have hx := h x (List.mem_cons_self _ _)
    rw [parseLongFlagsLoop]
    simp only [hx, Bool.not_false, if_true]
    rw [ih f (p ++ [x]) (fun t ht => h t (List.mem_cons_of_mem _ ht))]
    simp

/-- C29: when `parseLongFlags` succeeds, its positionals are, in their order
and without repetition of a position, some of the input tokens that do not
begin with `--`; in particular no positional begins with `--`. The positionals
are the whole input, with no flag stored, exactly when no input token begins
with `--`; and in that case `parseLongFlags` does succeed. -/
theorem parseLongFlags_positionals (env : Env) (args : List String) (flags : Flags)
    (pos : List String) (h : parseLongFlags env args = .ok (flags, pos)) :
    pos.Sublist (args.filter (fun t => !hasPrefixStr t "--")) ∧
    pos.Sublist args ∧
    (∀ t ∈ pos, hasPrefixStr t "--" = false) ∧
    ((pos = args ∧ flags.entries = []) ↔ ∀ t ∈ args, hasPrefixStr t "--" = false) ∧
    (∀ args2 : List String, (∀ t ∈ args2, hasPrefixStr t "--" = false) →
      parseLongFlags env args2 = .ok ({}, args2)) := by
  obtain ⟨extra, he, hs⟩ := parseLongFlagsLoop_positionals env args.length args {} [] flags pos
    rfl h
  rw [List.nil_append] at he
  subst he
  have hall : ∀ args2 : List String, (∀ t ∈ args2, hasPrefixStr t "--" = false) →
      parseLongFlags env args2 = .ok ({}, args2) := by
    intro args2 h2
    rw [parseLongFlags, parseLongFlagsLoop_no_flags env args2 {} [] h2]
    rfl
  refine ⟨hs, hs.trans (List.filter_sublist _), ?_, ?_, hall⟩
  · intro t ht
    have := (List.mem_filter.mp (hs.subset ht)).2
    simpa using this
  · constructor
    · rintro ⟨hp, _⟩
      have hfe : args.filter (fun t => !hasPrefixStr t "--") = args := by
        apply List.Sublist.antisymm (List.filter_sublist _)
        rw [hp] at hs
        exact hs
      intro t ht
      have := (List.filter_eq_self.mp hfe) t ht
      simpa using this
    · intro hno
      have := hall args hno
      rw [h] at this
      injection this with this
      injection this with h1 h2
      exact ⟨h2, by rw [h1]⟩

theorem parseLongFlags_positionals_witness :
    parseLongFlags (exampleEnv 200 200 "" 3600) ["a", "--n", "v", "b", "--m=w", "a"] =
      .ok (⟨[("n", "v"), ("m", "w")]⟩, ["a", "b", "a"]) ∧
    ["a", "b", "a"].Sublist
      (["a", "--n", "v", "b", "--m=w", "a"].filter (fun t => !hasPrefixStr t "--")) :=
  ⟨rfl, (parseLongFlags_positionals (exampleEnv 200 200 "" 3600)
    ["a", "--n", "v", "b", "--m=w", "a"] ⟨[("n", "v"), ("m", "w")]⟩ ["a", "b", "a"] rfl).1⟩

/-! ### Claims on the heart rate summary -/

theorem wrapInt64_of_bounds (x : Int) (h0 : 0 ≤ x) (h1 : x < 2 ^ 63) : wrapInt64 x = x := by
  unfold wrapInt64
  omega

/-- The loop of `fetchHeartRate`: the minimum and the maximum are the
starting value or a reading, bound the starting value and every reading, and
the sum is exact as long as it stays below `2 ^ 63`. -/
theorem heartRateLoop_spec :
    ∀ (bpms : List Int) (mn mx sum : Int),
      (∀ b ∈ bpms, 0 ≤ b) → 0 ≤ sum → sum + bpms.sum < 2 ^ 63 →
      ((heartRateLoop mn mx sum bpms).1 = mn ∨ (heartRateLoop mn mx sum bpms).1 ∈ bpms) ∧
      (heartRateLoop mn mx sum bpms).1 ≤ mn ∧
      (∀ b ∈ bpms, (heartRateLoop mn mx sum bpms).1 ≤ b) ∧
      ((heartRateLoop mn mx sum bpms).2.1 = mx ∨ (heartRateLoop mn mx sum bpms).2.1 ∈ bpms) ∧
      mx ≤ (heartRateLoop mn mx sum bpms).2.1 ∧
      (∀ b ∈ bpms, b ≤ (heartRateLoop mn mx sum bpms).2.1) ∧
      (heartRateLoop mn mx sum bpms).2.2 = sum + bpms.sum := by
  intro bpms
  induction bpms with
  | nil =>
    intro mn mx sum _ _ _
    simp [heartRateLoop]
  | cons x xs ih =>
    intro mn mx sum hpos h0 hlt
    have hx : 0 ≤ x := hpos x (List.mem_cons_self _ _)
    have hxs : ∀ b ∈ xs, 0 ≤ b := fun b hb => hpos b (List.mem_cons_of_mem _ hb)
    have hsum : 0 ≤ xs.sum := List.sum_nonneg hxs
    rw [List.sum_cons] at hlt
    have hw : wrapInt64 (sum + x) = sum + x := wrapInt64_of_bounds _ (by omega) (by omega)
    rw [heartRateLoop, hw]
    obtain ⟨a1, a2, a3, a4, a5, a6, a7⟩ :=
      ih (if x < mn then x else mn) (if x > mx then x else mx) (sum + x) hxs (by omega)
        (by omega)
    refine ⟨?_, ?_, ?_, ?_, ?_, ?_, ?_⟩
    · rcases a1 with a1 | a1
      · rw [a1]
        by_cases hc : x < mn
        · rw [if_pos hc]; exact Or.inr (List.mem_cons_self _ _)
        · rw [if_neg hc]; exact Or.inl rfl
      · exact Or.inr (List.mem_cons_of_mem _ a1)
    · refine le_trans a2 ?_
      split_ifs <;> omega
    · intro b hb
      rcases List.mem_cons.mp hb with hb | hb
      · rw [hb]
        refine le_trans a2 ?_
        split_ifs <;> omega
      · exact a3 b hb
    · rcases a4 with a4 | a4
      · rw [a4]
        by_cases hc : x > mx
        · rw [if_pos hc]; exact Or.inr (List.mem_cons_self _ _)
        · rw [if_neg hc]; exact Or.inl rfl
      · exact Or.inr (List.mem_cons_of_mem _ a4)
    · refine le_trans ?_ a5
      split_ifs <;> omega
    · intro b hb
      rcases List.mem_cons.mp hb with hb | hb
      · rw [hb]
        refine le_trans ?_ a5
        split_ifs <;> omega
      · exact a6 b hb
    · rw [a7, List.sum_cons]; omega

theorem sum_le_mul_length (bpms : List Int) (c : Int) (h : ∀ b ∈ bpms, b ≤ c) :
    bpms.sum ≤ c * bpms.length := by
  induction bpms with
  | nil => simp
  | cons x xs ih =>
    have hx := h x (List.mem_cons_self _ _)
    have := ih (fun b hb => h b (List.mem_cons_of_mem _ hb))
    simp only [List.sum_cons, List.length_cons, Nat.cast_add, Nat.cast_one]
    nlinarith

theorem mul_length_le_sum (bpms : List Int) (c : Int) (h : ∀ b ∈ bpms, c ≤ b) :
    c * bpms.length ≤ bpms.sum := by
  induction bpms with
  | nil => simp
  | cons x xs ih =>
    have hx := h x (List.mem_cons_self _ _)
    have := ih (fun b hb => h b (List.mem_cons_of_mem _ hb))
    simp only [List.sum_cons, List.length_cons, Nat.cast_add, Nat.cast_one]
    nlinarith

/-- C30: for a non-empty list of readings with every BPM from 0 to 999, short
enough for the sum to stay below `2 ^ 63`, the summary of `fetchHeartRate` has
as `Min` the least BPM of the list, as `Max` the greatest, and as `Average`
the quotient of the sum by the number of readings, so that
`Min ≤ Average ≤ Max`; these are the numbers that `fetchHeartRate` prints. -/
theorem heartRateSummary_spec (bpms : List Int) (hne : bpms ≠ [])
    (hr : ∀ b ∈ bpms, 0 ≤ b ∧ b ≤ 999) (hlen : 999 * (bpms.length : Int) < 2 ^ 63) :
    (heartRateSummary bpms).Min ∈ bpms ∧
    (∀ b ∈ bpms, (heartRateSummary bpms).Min ≤ b) ∧
    (heartRateSummary bpms).Max ∈ bpms ∧
    (∀ b ∈ bpms, b ≤ (heartRateSummary bpms).Max) ∧
    (heartRateSummary bpms).Average = bpms.sum / (bpms.length : Int) ∧
    (heartRateSummary bpms).Min ≤ (heartRateSummary bpms).Average ∧
    (heartRateSummary bpms).Average ≤ (heartRateSummary bpms).Max ∧
    (heartRateSummary bpms).Readings = bpms.length ∧
    (∀ (env : Env) (w w1 : World) (date body : String),
      apiGet env w "/heartrate" (rangeParams date date) = (.ok body, w1) →
      env.decodeHeartRate body = bpms →
      fetchHeartRate env w date =
        (Outcome.returned,
          { w1 with log := w1.log ++ heartRateLines date (heartRateSummary bpms) }) ∧
      Event.print ("Min:       " ++ toString (heartRateSummary bpms).Min ++ " bpm\n") ∈
        heartRateLines date (heartRateSummary bpms) ∧
      Event.print ("Max:       " ++ toString (heartRateSummary bpms).Max ++ " bpm\n") ∈
        heartRateLines date (heartRateSummary bpms) ∧
      Event.print ("Average:   " ++ toString (heartRateSummary bpms).Average ++ " bpm\n") ∈
        heartRateLines date (heartRateSummary bpms)) := by
  have hpos : ∀ b ∈ bpms, 0 ≤ b := fun b hb => (hr b hb).1
  have hle : ∀ b ∈ bpms, b ≤ 999 := fun b hb => (hr b hb).2
  have hsum0 : 0 ≤ bpms.sum := List.sum_nonneg hpos
  have hsum1 : bpms.sum ≤ 999 * (bpms.length : Int) := sum_le_mul_length bpms 999 hle
  obtain ⟨a1, a2, a3, a4, a5, a6, a7⟩ :=
    heartRateLoop_spec bpms 999 0 0 hpos (le_refl 0) (by omega)
  obtain ⟨x, hx⟩ := List.exists_mem_of_ne_nil bpms hne
  have hn : 0 < (bpms.length : Int) := by
    have : 0 < bpms.length := List.length_pos.mpr hne
    omega
  have hmin : (heartRateLoop 999 0 0 bpms).1 ∈ bpms := by
    rcases a1 with a1 | a1
    · have h1 := a3 x hx
      have h2 := hle x hx
      have : x = 999 := by omega
      rw [a1, ← this]
      exact hx
    · exact a1
  have hmax : (heartRateLoop 999 0 0 bpms).2.1 ∈ bpms := by
    rcases a4 with a4 | a4
    · have h1 := a6 x hx
      have h2 := hpos x hx
      have : x = 0 := by omega
      rw [a4, ← this]
      exact hx
    · exact a4
  have havg : (heartRateSummary bpms).Average = bpms.sum / (bpms.length : Int) := by
    simp only [heartRateSummary, a7, zero_add]
    exact Int.tdiv_eq_ediv hsum0 (by omega)
  have hlo : (heartRateLoop 999 0 0 bpms).1 * (bpms.length : Int) ≤ bpms.sum :=
    mul_length_le_sum bpms _ a3
  have hhi : bpms.sum ≤ (heartRateLoop 999 0 0 bpms).2.1 * (bpms.length : Int) :=
    sum_le_mul_length bpms _ a6
  refine ⟨hmin, a3, hmax, a6, havg, ?_, ?_, rfl, ?_⟩
  · rw [havg]
    exact Int.le_ediv_of_mul_le hn hlo
  · rw [havg]
    exact Int.ediv_le_of_le_mul hn hhi
  · intro env w w1 date body hget hdec
    refine ⟨?_, ?_, ?_, ?_⟩
    · have hp : (({} : Values).set "start_date" date).set "end_date" date =
          rangeParams date date := rfl
      have hl : ¬ bpms.length = 0 := by
        intro h0
        exact hne (List.length_eq_zero.mp h0)
      simp only [fetchHeartRate, hp, hget, hdec, if_neg hl]
    · simp [heartRateLines]
    · simp [heartRateLines]
    · simp [heartRateLines]

set_option maxRecDepth 100000 in
theorem heartRateSummary_spec_witness :
    [72, 58, 999, 0, 61] ≠ ([] : List Int) ∧
    (∀ b ∈ ([72, 58, 999, 0, 61] : List Int), 0 ≤ b ∧ b ≤ 999) ∧
    heartRateSummary [72, 58, 999, 0, 61] =
      { Readings := 5, Min := 0, Max := 999, Average := 238 } ∧
    (heartRateSummary [72, 58, 999, 0, 61]).Min ≤ (heartRateSummary [72, 58, 999, 0, 61]).Average :=
  ⟨by decide, by decide, by rfl,
    (heartRateSummary_spec [72, 58, 999, 0, 61] (by decide) (by decide) (by decide)).2.2.2.2.2.1⟩

end Oura
